import Mathlib

/-!
# GDSynthesizer sequencer: a shallow embedding of `src/sequencer.cpp`

The C++ `float`/`double` values are embedded as rationals (`ℚ`): every
arithmetic step is exact, there is no rounding, no infinity and no NaN.
`int32_t` values are embedded as `Int`.  Two places of the source turn a
float into an array index in a way that exact arithmetic would hide, and
are embedded more closely: the two float operations of the delay-tap offset
are rounded to binary32 (`roundFloat`, in `tapIndex`), and the conversion to
`int32_t` of the envelope table index is the one of a 32-bit integer
(`castInt32`, in `slopeIndex`).  Results of `libm` calls
(`powf`, `cosf`, `sinf`, `tanhf`), the random generator and the default
instrument bank of `instrument.hpp` are not computable in this setting and
enter the model as parameters (`FloatEnv`).

Arrays that the C++ code indexes without a bound check (`std::array`,
`unique_ptr<float[]>`, the per-voice delay ring) are embedded as total
functions on `Int`, so that a read at any index yields some value of the
function; no theorem below relies on which value an out-of-range read
yields.
-/

namespace GDSynth

/-! ## Scalars -/

/-- The C++ conversion `(int32_t)x` of a floating value whose truncation
fits the integer type: truncation toward zero.  (For a value that does not
fit, see `castInt32`.) -/
def toInt32 (x : ℚ) : Int := Int.tdiv x.num x.den

/-- The constant `INT32_MIN`. -/
def INT32_MIN : Int := -2147483648

/-- The constant `INT32_MAX`. -/
def INT32_MAX : Int := 2147483647

/-- The C++ conversion `(int32_t)x` of a float, for any finite operand:
truncation toward zero when the result fits `int32_t`.  When it does not,
the conversion is undefined in C++; the value here is `INT32_MIN`, which is
what the conversion instruction of x86-64 (`cvttss2si`) returns. -/
def castInt32 (x : ℚ) : Int :=
  if INT32_MIN ≤ toInt32 x ∧ toInt32 x ≤ INT32_MAX then toInt32 x else INT32_MIN

/-- The number of halvings that bring `n` below 2, at most `fuel` of them. -/
def halvings : Nat → Nat → Nat
  | 0, _ => 0
  | fuel + 1, n => if n < 2 then 0 else halvings fuel (n / 2) + 1

/-- The binary logarithm of a natural number, rounded down (0 for 0). -/
def floorLog2 (n : Nat) : Nat := halvings n n

/-- The exponent `e` of a positive number: `2 ^ e <= x < 2 ^ (e + 1)`. -/
def binaryExponent (x : ℚ) : Int :=
  let e : Int := (floorLog2 x.num.natAbs : Int) - (floorLog2 x.den : Int)
  if x < (2 : ℚ) ^ e then e - 1 else e

/-- Rounding to the nearest integer, a tie going to the even one. -/
def roundHalfEven (x : ℚ) : Int :=
  if x - (⌊x⌋ : ℚ) < 1 / 2 then ⌊x⌋
  else if x - (⌊x⌋ : ℚ) > 1 / 2 then ⌊x⌋ + 1
  else if ⌊x⌋ % 2 = 0 then ⌊x⌋ else ⌊x⌋ + 1

/-- The result of one `float` operation whose exact value is `x`: the
nearest binary32 number (24 significant bits, round to nearest, ties to
even).  The exponent is not limited: overflow to infinity and the subnormal
range are not modelled. -/
def roundFloat (x : ℚ) : ℚ :=
  if x = 0 then 0
  else
    let a : ℚ := if x < 0 then -x else x
    let ulp : ℚ := (2 : ℚ) ^ (binaryExponent a - 23)
    let m : ℚ := (roundHalfEven (a / ulp) : ℚ) * ulp
    if x < 0 then -m else m

/-- The conversion of an `int32_t` argument to the `int8_t` parameter of
`noteFrequency`: reduction modulo 256 into `-128..127`. -/
def toInt8 (k : Int) : Int := (k + 128) % 256 - 128

/-- The function `godot::Math::clamp(a, min, max)`, on floats:
`a < min ? min : (a > max ? max : a)`. -/
def clampF (a lo hi : ℚ) : ℚ := if a < lo then lo else if a > hi then hi else a

/-- The function `std::clamp(v, lo, hi)` on `int32_t`:
`(v < lo) ? lo : (hi < v) ? hi : v`. -/
def clampI (v lo hi : Int) : Int := if v < lo then lo else if hi < v then hi else v

/-- The function `godot::Math::absf`. -/
def absf (x : ℚ) : ℚ := if x < 0 then -x else x

/-- The function `godot::Math::lerp(from, to, weight)`. -/
def lerp (a b w : ℚ) : ℚ := a + (b - a) * w

/-- The constant `FLOAT_LONGTIME` of `sequencer.hpp`. -/
def FLOAT_LONGTIME : ℚ := 36000000

/-- The constant `Sequencer::numTone`. -/
def numTone : Nat := 64

/-- The constant `Sequencer::waveLUTSize`. -/
def waveLUTSize : Int := 32768

/-- The constant `Sequencer::delayBufferDuration` (msec). -/
def delayBufferDuration : ℚ := 500

/-- The constant `Sequencer::pow2_x_1200LUT_size`. -/
def pow2_x_1200LUT_size : Int := 7200

/-! ## Enumerations

`enum class` values are kept as their underlying integers, which is what
`static_cast<int32_t>` yields and what `setInstruments` clamps. -/

/-- Enumerator `BaseWave::WAVE_SIN`. -/
def WAVE_SIN : Int := 0
/-- Enumerator `BaseWave::WAVE_SQUARE`. -/
def WAVE_SQUARE : Int := 1
/-- Enumerator `BaseWave::WAVE_TRIANGLE`. -/
def WAVE_TRIANGLE : Int := 2
/-- Enumerator `BaseWave::WAVE_SAWTOOTH`. -/
def WAVE_SAWTOOTH : Int := 3
/-- Enumerator `BaseWave::WAVE_SINSAWx2`. -/
def WAVE_SINSAWx2 : Int := 4
/-- Enumerator `BaseWave::WAVE_TAIL`. -/
def WAVE_TAIL : Int := 5

/-- Enumerator `NoiseDistributType::NOISEDTYPE_FLAT`. -/
def NOISEDTYPE_FLAT : Int := 0
/-- Enumerator `NoiseDistributType::NOISEDTYPE_TRIANGULAR`. -/
def NOISEDTYPE_TRIANGULAR : Int := 1
/-- Enumerator `NoiseDistributType::NOISEDTYPE_COS4ThPOW`. -/
def NOISEDTYPE_COS4ThPOW : Int := 2
/-- Enumerator `NoiseDistributType::NOISEDTYPE_TAIL`. -/
def NOISEDTYPE_TAIL : Int := 3

/-- Enumerator `NoiseColorType::NOISECTYPE_WHITE`. -/
def NOISECTYPE_WHITE : Int := 0
/-- Enumerator `NoiseColorType::NOISECTYPE_PINK`. -/
def NOISECTYPE_PINK : Int := 1
/-- Enumerator `NoiseColorType::NOISECTYPE_TAIL`. -/
def NOISECTYPE_TAIL : Int := 2

/-- Modelled from the spec: the note states of `smfparser.hpp`, a header that
is not part of the sources; the spec lists the states ON-HELD, OFF, END and
EMPTY, and `sequencer.cpp` names them `NS_ON_FOREVER`, `NS_OFF`, `NS_END`,
`NS_EMPTY`. -/
inductive NState where
  | NS_ON_FOREVER
  | NS_OFF
  | NS_END
  | NS_EMPTY
  deriving DecidableEq, Repr

/-- Modelled from the spec: the note event of `smfparser.hpp` (not part of the
sources), with the fields `sequencer.cpp` reads and writes. -/
structure Note where
  state : NState
  trackNum : Int
  channel : Int
  key : Int
  velocity : Int
  program : Int
  startTick : Int
  startTime : Int
  tempo : Int
  deriving DecidableEq, Repr

/-! ## Instrument bank -/

/-- The struct `Instrument` of `sequencer.hpp`. -/
structure Instrument where
  totalGain : ℚ
  atackSlopeTime : ℚ
  decayHalfLifeTime : ℚ
  sustainRate : ℚ
  releaseSlopeTime : ℚ
  baseVsOthersRatio : ℚ
  side1VsSide2Ratio : ℚ
  baseOffsetCent1 : ℚ
  baseWave1 : Int
  baseOffsetCent2 : ℚ
  baseWave2 : Int
  baseOffsetCent3 : ℚ
  baseWave3 : Int
  noiseRatio : ℚ
  noiseColorType : Int
  delay0Time : ℚ
  delay1Time : ℚ
  delay2Time : ℚ
  delay0Ratio : ℚ
  delay1Ratio : ℚ
  delay2Ratio : ℚ
  freqNoiseCentRange : ℚ
  freqNoiseType : Int
  fmCentRange : ℚ
  fmFreq : ℚ
  fmPhaseOffset : ℚ
  fmSync : Int
  fmWave : Int
  amLevel : ℚ
  amFreq : ℚ
  amPhaseOffset : ℚ
  amSync : Int
  amWave : Int
  deriving DecidableEq

/-- The struct `Percussion` of `sequencer.hpp`. -/
structure Percussion where
  program : Int
  key : Int
  deriving DecidableEq, Repr

/-- One `godot::Dictionary` of the instrument array exchanged with the host:
the value stored under each key, floats read through `(double)` and
integers through `(int32_t)`. -/
structure InstrumentDic where
  totalGain : ℚ
  atackSlopeTime : ℚ
  decayHalfLifeTime : ℚ
  sustainRate : ℚ
  releaseSlopeTime : ℚ
  baseVsOthersRatio : ℚ
  side1VsSide2Ratio : ℚ
  baseOffsetCent1 : ℚ
  baseWave1 : Int
  baseOffsetCent2 : ℚ
  baseWave2 : Int
  baseOffsetCent3 : ℚ
  baseWave3 : Int
  noiseRatio : ℚ
  noiseColorType : Int
  delay0Time : ℚ
  delay1Time : ℚ
  delay2Time : ℚ
  delay0Ratio : ℚ
  delay1Ratio : ℚ
  delay2Ratio : ℚ
  freqNoiseCentRange : ℚ
  freqNoiseType : Int
  fmCentRange : ℚ
  fmFreq : ℚ
  fmPhaseOffset : ℚ
  fmSync : Int
  fmWave : Int
  amLevel : ℚ
  amFreq : ℚ
  amPhaseOffset : ℚ
  amSync : Int
  amWave : Int
  deriving DecidableEq

/-- One `godot::Dictionary` of the percussion array exchanged with the host. -/
structure PercussionDic where
  program : Int
  key : Int
  deriving DecidableEq, Repr

/-! ## Voices, host signals and the engine state -/

/-- The struct `Sequencer::Tone` of `sequencer.hpp`; `delayBuffer` holds the
contents of the ring buffer the C++ field points to. -/
structure Tone where
  note : Note
  velocity : Int
  velocity_f : ℚ
  tempo : Int
  tempo_f : ℚ
  restartVelocity : Int
  restartVelocity_f : ℚ
  restartTempo : Int
  restartTempo_f : ℚ
  strength : ℚ
  atackedStrength : ℚ
  decayedStrength : ℚ
  atackedStrengthfloor : ℚ
  atackSlopeRatio : ℚ
  decaySlopeRatio : ℚ
  releaseSlopeRatio : ℚ
  phase1 : ℚ
  phase2 : ℚ
  phase3 : ℚ
  baseIncrement1 : ℚ
  baseIncrement2 : ℚ
  baseIncrement3 : ℚ
  base1ratio : ℚ
  base2ratio : ℚ
  base3ratio : ℚ
  frequency : ℚ
  passed : Int
  waitDuration : ℚ
  restartWaitDuration : ℚ
  mainteinDuration : ℚ
  freqNoiseCentharfRange : ℚ
  instrument : Instrument
  delayBuffer : Int → ℚ
  delayBufferIndex : Int
  delay0Index : Int
  delay1Index : Int
  delay2Index : Int
  delay0Ratio : ℚ
  delay1Ratio : ℚ
  delay2Ratio : ℚ
  mainRatio : ℚ
  fmPhase : ℚ
  fmIncrement : ℚ
  amPhase : ℚ
  amIncrement : ℚ
  program : Int
  key : Int
  realKey1 : Int
  realKey2 : Int
  realKey3 : Int
  maxDelayTime : ℚ

/-- A dictionary handed to `emitSignal`: the note message (`msg = 0`) of
`checkNewNote`, with `onOff = 1` for an allocation and `onOff = 0` for a
release, or the level message (`msg = 1`) of `feed`. -/
inductive Signal where
  | noteMsg (onOff trackNum channel velocity program key instrumentNum key2 : Int)
  | levelMsg (max_level frame_level : Int)
  deriving DecidableEq, Repr

/-- The values the rational model cannot compute: the `libm` functions and
the constant `PI` used by `sequencer.cpp`, the random generator
(`randf n lo hi` is the result of the `n`-th call `randf_range(lo, hi)`),
the default banks of `instrument.hpp` (not part of the sources), and
`junk`, the contents of memory that the code has allocated but not written. -/
structure FloatEnv where
  PI : ℚ
  powf : ℚ → ℚ → ℚ
  cosf : ℚ → ℚ
  sinf : ℚ → ℚ
  tanhf : ℚ → ℚ
  log10f : ℚ → ℚ
  randf : Nat → ℚ → ℚ → ℚ
  defaultInstruments : Int → Instrument
  defaultPercussions : Int → Percussion
  junk : Int → ℚ

/-- The data members of class `Sequencer` (`sequencer.hpp`).  The lists
`activeTones` and `freeTones` hold voices by value, front first;
`signals` records the dictionaries passed to `emitSignal`, oldest first.
The parser member `midi` is external: what it answers is an argument of
`feed`. -/
structure Sequencer where
  delayBufferSize : Int
  unitOfTime : ℚ
  toneInstances : Fin 64 → Tone
  activeTones : List Tone
  freeTones : List Tone
  instruments : Int → Instrument
  percussions : Int → Percussion
  samplingRate : ℚ
  bufferingTime : ℚ
  bufferSamples : Int
  currentTime : Int
  frameCount : Int
  noiseBufSize : Int
  noiseBuffer : Int
  isSet : Bool
  waveLUT : Int → Int → ℚ
  atackSlopeHz : ℚ
  atackSlopeLUT : Int → ℚ
  atackSlopeTime : ℚ
  numAtackSlopeLUT : Int
  releaseSlopeHz : ℚ
  releaseSlopeLUT : Int → ℚ
  releaseSlopeTime : ℚ
  numReleaseSlopeLUT : Int
  decaySlopeHz : ℚ
  decayHalfLifeTime : ℚ
  decaySlopeLUT : Int → ℚ
  decaySlopeTime : ℚ
  numDecaySlopeLUT : Int
  sustainRate : ℚ
  velocity2powerLUT : Int → ℚ
  whiteNoiseLUT : Int → ℚ
  pinkNoiseLUT : Int → ℚ
  triangularDistributionLUT : Int → ℚ
  cos4thPowDistributionLUT : Int → ℚ
  pow2_x_1200LUT : Int → ℚ
  asumedConcurrentTone : ℚ
  logLevel : Int
  maxValue : ℚ
  signals : List Signal

/-! ## Frequencies -/

/-- The method `Sequencer::noteFrequency(int8_t note)`:
`powf(2, (note - 69) / 12) * 440`. -/
def noteFrequency (env : FloatEnv) (note : Int) : ℚ :=
  env.powf 2 (((toInt8 note : Int) - 69 : ℚ) / 12) * 440

/-- The method `Sequencer::centFrequency(freq, cent)`: six branches on
`cent`, then the ceiling `samplingRate * 0.47`. -/
def centFrequency (env : FloatEnv) (sq : Sequencer) (freq cent : ℚ) : ℚ :=
  let h : ℚ := (env.powf 2 (120 / 1200) - 1) / 120
  let l : ℚ := (env.powf 2 (-120 / 1200) - 1) / 120
  let t : ℚ := ((pow2_x_1200LUT_size / 2 : Int) : ℚ)
  let b : ℚ := -((pow2_x_1200LUT_size / 2 : Int) : ℚ)
  let result : ℚ :=
    if cent ≤ b then freq * sq.pow2_x_1200LUT 0
    else if cent < -120 then freq * sq.pow2_x_1200LUT (pow2_x_1200LUT_size / 2 + toInt32 cent)
    else if cent < 0 then freq * (1 - cent * l)
    else if cent ≤ 120 then freq * (1 + cent * h)
    else if cent < t then freq * sq.pow2_x_1200LUT (pow2_x_1200LUT_size / 2 + toInt32 cent)
    else freq * sq.pow2_x_1200LUT (pow2_x_1200LUT_size - 1)
  if result > sq.samplingRate * (47 / 100) then sq.samplingRate * (47 / 100) else result

/-! ## Instrument and percussion tables -/

/-- The dictionary `getInstruments` builds for one table slot. -/
def instrumentToDic (x : Instrument) : InstrumentDic :=
  { totalGain := x.totalGain
    atackSlopeTime := x.atackSlopeTime
    decayHalfLifeTime := x.decayHalfLifeTime
    sustainRate := x.sustainRate
    releaseSlopeTime := x.releaseSlopeTime
    baseVsOthersRatio := x.baseVsOthersRatio
    side1VsSide2Ratio := x.side1VsSide2Ratio
    baseOffsetCent1 := x.baseOffsetCent1
    baseWave1 := x.baseWave1
    baseOffsetCent2 := x.baseOffsetCent2
    baseWave2 := x.baseWave2
    baseOffsetCent3 := x.baseOffsetCent3
    baseWave3 := x.baseWave3
    noiseRatio := x.noiseRatio
    noiseColorType := x.noiseColorType
    delay0Time := x.delay0Time
    delay1Time := x.delay1Time
    delay2Time := x.delay2Time
    delay0Ratio := x.delay0Ratio
    delay1Ratio := x.delay1Ratio
    delay2Ratio := x.delay2Ratio
    freqNoiseCentRange := x.freqNoiseCentRange
    freqNoiseType := x.freqNoiseType
    fmCentRange := x.fmCentRange
    fmFreq := x.fmFreq
    fmPhaseOffset := x.fmPhaseOffset
    fmSync := x.fmSync
    fmWave := x.fmWave
    amLevel := x.amLevel
    amFreq := x.amFreq
    amPhaseOffset := x.amPhaseOffset
    amSync := x.amSync
    amWave := x.amWave }

/-- The method `Sequencer::getInstruments`: the 256 slots, in order. -/
def getInstruments (sq : Sequencer) : List InstrumentDic :=
  (List.range 256).map (fun (i : Nat) => instrumentToDic (sq.instruments (i : Int)))

/-- The phase offset as `setInstruments` stores it: clamped to `[0, 2]`, and
`2` replaced by `0`. -/
def storePhaseOffset (x : ℚ) : ℚ :=
  let p := clampF x 0 2
  if p = 2 then 0 else p

/-- The body of the loop of `Sequencer::setInstruments`: the instrument
stored for one dictionary, every field clamped as in the source (the three
delay ratios with both bounds `0.2`). -/
def storeInstrument (dic : InstrumentDic) : Instrument :=
  { totalGain := clampF dic.totalGain 0 1
    atackSlopeTime := clampF dic.atackSlopeTime 0 5000
    decayHalfLifeTime := clampF dic.decayHalfLifeTime 0 5000
    sustainRate := clampF dic.sustainRate 0 1
    releaseSlopeTime := clampF dic.releaseSlopeTime 0 5000
    baseVsOthersRatio := clampF dic.baseVsOthersRatio 0 1
    side1VsSide2Ratio := clampF dic.side1VsSide2Ratio 0 1
    baseOffsetCent1 := clampF dic.baseOffsetCent1 (-8400) 8400
    baseWave1 := clampI dic.baseWave1 0 (WAVE_TAIL - 1)
    baseOffsetCent2 := clampF dic.baseOffsetCent2 (-8400) 8400
    baseWave2 := clampI dic.baseWave2 0 (WAVE_TAIL - 1)
    baseOffsetCent3 := clampF dic.baseOffsetCent3 (-8400) 8400
    baseWave3 := clampI dic.baseWave3 0 (WAVE_TAIL - 1)
    noiseRatio := clampF dic.noiseRatio 0 1
    noiseColorType := clampI dic.noiseColorType 0 (NOISECTYPE_TAIL - 1)
    delay0Time := clampF dic.delay0Time 0 500
    delay1Time := clampF dic.delay1Time 0 500
    delay2Time := clampF dic.delay2Time 0 500
    delay0Ratio := clampF dic.delay0Ratio (2 / 10) (2 / 10)
    delay1Ratio := clampF dic.delay1Ratio (2 / 10) (2 / 10)
    delay2Ratio := clampF dic.delay2Ratio (2 / 10) (2 / 10)
    freqNoiseCentRange := clampF dic.freqNoiseCentRange (-8400) 8400
    freqNoiseType := clampI dic.freqNoiseType 0 (NOISEDTYPE_TAIL - 1)
    fmCentRange := clampF dic.fmCentRange (-8400) 8400
    fmFreq := clampF dic.fmFreq 0 7040
    fmPhaseOffset := storePhaseOffset dic.fmPhaseOffset
    fmSync := clampI dic.fmSync 0 1
    fmWave := clampI dic.fmWave 0 (WAVE_TAIL - 1)
    amLevel := clampF dic.amLevel 0 1
    amFreq := clampF dic.amFreq 0 7040
    amPhaseOffset := storePhaseOffset dic.amPhaseOffset
    amSync := clampI dic.amSync 0 1
    amWave := clampI dic.amWave 0 (WAVE_TAIL - 1) }

/-- One iteration `i` of the loop of `setInstruments`.  The read `array[i]`
has no bound check in the source; `godot::Array::operator[]` treats an index
past the end as a fatal error, which is the result `none`. -/
def setInstrumentsStep (array : List InstrumentDic) (sq : Sequencer) (i : Nat) :
    Option Sequencer :=
  match array[i]? with
  | none => none
  | some dic =>
    some { sq with instruments := Function.update sq.instruments (i : Int) (storeInstrument dic) }

/-- The method `Sequencer::setInstruments(array)`: the size test only prints
(in debug builds), then the loop runs over `i = 0 .. 255` whatever the size
of `array` is. -/
def setInstruments (array : List InstrumentDic) (sq : Sequencer) : Option Sequencer :=
  (List.range 256).foldlM (setInstrumentsStep array) sq

/-- The method `Sequencer::getPercussions`: the 128 slots, in order. -/
def getPercussions (sq : Sequencer) : List PercussionDic :=
  (List.range 128).map
    (fun (i : Nat) => { program := (sq.percussions (i : Int)).program, key := (sq.percussions (i : Int)).key })

/-- One iteration `i` of the loop of `setPercussions`; the read `array[i]`
is as in `setInstrumentsStep`. -/
def setPercussionsStep (array : List PercussionDic) (sq : Sequencer) (i : Nat) :
    Option Sequencer :=
  match array[i]? with
  | none => none
  | some dic =>
    some { sq with
      percussions := Function.update sq.percussions (i : Int)
        { program := clampI dic.program 0 255, key := clampI dic.key 0 127 } }

/-- The method `Sequencer::setPercussions(array)`: the size test only
prints, then the loop runs over `i = 0 .. 127`. -/
def setPercussions (array : List PercussionDic) (sq : Sequencer) : Option Sequencer :=
  (List.range 128).foldlM (setPercussionsStep array) sq

/-! ## The note router: `checkNewNote` -/

/-- The predicate of the `find_if` that opens `checkNewNote`: same key,
same channel, and a state other than `NS_OFF`. -/
def isRinging (oneNote : Note) (foundTone : Tone) : Bool :=
  oneNote.key == foundTone.note.key
    && oneNote.channel == foundTone.note.channel
    && foundTone.note.state != NState.NS_OFF

/-- The two assignments of the note-off branch, applied to `ringingTone`. -/
def releaseTone (oneNote : Note) (ringingTone : Tone) : Tone :=
  { ringingTone with
    mainteinDuration := ((oneNote.startTime - ringingTone.note.startTime : Int) : ℚ)
    note := { ringingTone.note with state := NState.NS_OFF } }

/-- The active list after the note-off branch: the element `find_if` points
at (the first one that `isRinging`) is updated in place. -/
def releaseFirst (oneNote : Note) : List Tone → List Tone
  | [] => []
  | tone :: rest =>
    if isRinging oneNote tone then releaseTone oneNote tone :: rest
    else tone :: releaseFirst oneNote rest

/-- The dictionary `checkNewNote` emits for a voice, `onOff` being 1 on
allocation and 0 on release. -/
def noteSignal (onOff : Int) (tone : Tone) : Signal :=
  Signal.noteMsg onOff tone.note.trackNum tone.note.channel tone.note.velocity
    tone.note.program tone.note.key tone.program tone.key

/-- Allocation, first part: the note is copied into the voice and the
phases, key, frequency and durations are reset. -/
def allocInit (env : FloatEnv) (sq : Sequencer) (oneNote : Note) (durationTime : ℚ)
    (tone : Tone) : Tone :=
  { tone with
    note := oneNote
    phase1 := 0
    phase2 := 0
    phase3 := 0
    key := oneNote.key
    frequency := noteFrequency env oneNote.key
    passed := 0
    waitDuration := ((oneNote.startTime - sq.currentTime : Int) : ℚ)
    mainteinDuration := durationTime
    restartWaitDuration := FLOAT_LONGTIME
    tempo_f := (oneNote.tempo : ℚ) * 1000
    restartTempo_f := (oneNote.tempo : ℚ) * 1000 }

/-- Allocation, "select instrument": the guard on the channel
(`> 127 || < 0`), the percussion channels 9 and 25, the percussive program
range `0x70 .. 0x7F`, and the plain case. -/
def selectInstrument (env : FloatEnv) (sq : Sequencer) (oneNote : Note) (tone : Tone) : Tone :=
  if tone.note.channel > 127 ∨ tone.note.channel < 0 then
    { tone with
      program := 0
      instrument := sq.instruments 0
      note := { tone.note with velocity := 0 } }
  else if tone.note.channel = 9 ∨ tone.note.channel = 25 then
    { tone with
      program := (sq.percussions tone.note.key).program
      instrument := sq.instruments (sq.percussions tone.note.key).program
      key := (sq.percussions tone.note.key).key
      frequency := noteFrequency env (sq.percussions tone.note.key).key }
  else if oneNote.program ≥ 112 ∧ oneNote.program < 128 then
    { tone with
      program := (sq.percussions oneNote.program).program
      instrument := sq.instruments (sq.percussions oneNote.program).program
      key := (sq.percussions oneNote.program).key
      frequency := noteFrequency env (sq.percussions oneNote.program).key }
  else
    { tone with
      program := oneNote.program
      instrument := sq.instruments oneNote.program }

/-- Allocation: the transposed keys of the three oscillators. -/
def allocRealKeys (tone : Tone) : Tone :=
  { tone with
    realKey1 := tone.key + toInt32 (tone.instrument.baseOffsetCent1 / 100)
    realKey2 := tone.key + toInt32 (tone.instrument.baseOffsetCent2 / 100)
    realKey3 := tone.key + toInt32 (tone.instrument.baseOffsetCent3 / 100) }

/-- Allocation: velocity gain, attack floor and the three mix weights. -/
def allocGains (sq : Sequencer) (tone : Tone) : Tone :=
  { tone with
    velocity_f := sq.velocity2powerLUT tone.note.velocity
    restartVelocity_f := sq.velocity2powerLUT tone.note.velocity
    atackedStrengthfloor := 0
    base1ratio := tone.instrument.baseVsOthersRatio
    base2ratio := (1 - tone.instrument.baseVsOthersRatio) * tone.instrument.side1VsSide2Ratio
    base3ratio :=
      (1 - tone.instrument.baseVsOthersRatio) * (1 - tone.instrument.side1VsSide2Ratio) }

/-- The phase increment of a modulator (FM or AM) with rate `freq` and sync
flag `sync`, for a voice with tempo `tempo_f`. -/
def modIncrement (env : FloatEnv) (sq : Sequencer) (freq : ℚ) (sync : Int) (tempo_f : ℚ) : ℚ :=
  if freq ≠ 0 then
    if sync = 0 then (2 * env.PI * freq) / sq.samplingRate
    else (2 * env.PI * freq * tempo_f / sq.unitOfTime) / sq.samplingRate
  else 0

/-- Allocation: FM and AM start phases and increments. -/
def allocModulation (env : FloatEnv) (sq : Sequencer) (tone : Tone) : Tone :=
  { tone with
    fmPhase := env.PI * tone.instrument.fmPhaseOffset
    fmIncrement := modIncrement env sq tone.instrument.fmFreq tone.instrument.fmSync tone.tempo_f
    amPhase := env.PI * tone.instrument.amPhaseOffset
    amIncrement := modIncrement env sq tone.instrument.amFreq tone.instrument.amSync tone.tempo_f }

/-- The base increment of one oscillator detuned by `offsetCent`. -/
def baseIncrement (env : FloatEnv) (sq : Sequencer) (frequency harfRange offsetCent : ℚ) : ℚ :=
  let c := centFrequency env sq frequency offsetCent
  let l := centFrequency env sq c (-harfRange)
  (2 * env.PI * l) / sq.samplingRate

/-- Allocation: half the pitch-noise range and the three base increments. -/
def allocIncrements (env : FloatEnv) (sq : Sequencer) (tone : Tone) : Tone :=
  let harf := tone.instrument.freqNoiseCentRange * (1 / 2)
  { tone with
    freqNoiseCentharfRange := harf
    baseIncrement1 := baseIncrement env sq tone.frequency harf tone.instrument.baseOffsetCent1
    baseIncrement2 := baseIncrement env sq tone.frequency harf tone.instrument.baseOffsetCent2
    baseIncrement3 := baseIncrement env sq tone.frequency harf tone.instrument.baseOffsetCent3 }

/-- The test that enables one delay tap: time in `(0, delayBufferDuration)`
and ratio in `(0, 1)`. -/
def tapActive (time ratio : ℚ) : Bool :=
  decide (time > 0) && decide (time < delayBufferDuration)
    && decide (ratio < 1) && decide (ratio > 0)

/-- The sample offset of a delay tap:
`(uint32_t)((float)delayBufferSize / delayBufferDuration * time)`.  The
conversion to float, the quotient and the product are each rounded to
binary32; the conversion to the integer truncates. -/
def tapIndex (sq : Sequencer) (time : ℚ) : Int :=
  toInt32 (roundFloat
    (roundFloat (roundFloat (sq.delayBufferSize : ℚ) / delayBufferDuration) * time))

/-- Allocation, "init delay ring buffer": cursor and taps reset, each tap
enabled by `tapActive`, `maxDelayTime` the largest enabled tap time times 3,
the dry ratio, and the ring set to zero on `0 .. delayBufferSize - 1`. -/
def allocDelay (sq : Sequencer) (tone : Tone) : Tone :=
  let ins := tone.instrument
  let a0 := tapActive ins.delay0Time ins.delay0Ratio
  let a1 := tapActive ins.delay1Time ins.delay1Ratio
  let a2 := tapActive ins.delay2Time ins.delay2Ratio
  let m0 : ℚ := if a0 then ins.delay0Time else 0
  let m1 : ℚ := if a1 ∧ ins.delay1Time > m0 then ins.delay1Time else m0
  let m2 : ℚ := if a2 ∧ ins.delay2Time > m1 then ins.delay2Time else m1
  let r0 : ℚ := if a0 then ins.delay0Ratio else 0
  let r1 : ℚ := if a1 then ins.delay1Ratio else 0
  let r2 : ℚ := if a2 then ins.delay2Ratio else 0
  { tone with
    delayBufferIndex := 0
    delay0Index := if a0 then tapIndex sq ins.delay0Time else 0
    delay1Index := if a1 then tapIndex sq ins.delay1Time else 0
    delay2Index := if a2 then tapIndex sq ins.delay2Time else 0
    delay0Ratio := r0
    delay1Ratio := r1
    delay2Ratio := r2
    maxDelayTime := m2 * 3
    mainRatio := 1 - (r0 + r1 + r2)
    delayBuffer := fun i => if 0 ≤ i ∧ i < sq.delayBufferSize then 0 else tone.delayBuffer i }

/-- Allocation: the three slope ratios.  The divisions are float divisions
in the source: a zero divisor gives an infinity (or NaN) there and `0` here,
so the model says nothing about a voice whose instrument has a slope time
of 0. -/
def allocSlopes (sq : Sequencer) (tone : Tone) : Tone :=
  { tone with
    atackSlopeRatio := sq.atackSlopeTime / tone.instrument.atackSlopeTime
    decaySlopeRatio := sq.decayHalfLifeTime / tone.instrument.decayHalfLifeTime
    releaseSlopeRatio := sq.releaseSlopeTime / tone.instrument.releaseSlopeTime }

/-- The voice as it stands when `checkNewNote` emits the allocation signal:
note copied, instrument selected, transposed keys set. -/
def allocSelected (env : FloatEnv) (sq : Sequencer) (oneNote : Note) (durationTime : ℚ)
    (tone : Tone) : Tone :=
  allocRealKeys (selectInstrument env sq oneNote (allocInit env sq oneNote durationTime tone))

/-- The voice at the end of the allocation branch of `checkNewNote`. -/
def allocTone (env : FloatEnv) (sq : Sequencer) (oneNote : Note) (durationTime : ℚ)
    (tone : Tone) : Tone :=
  allocSlopes sq (allocDelay sq (allocIncrements env sq (allocModulation env sq
    (allocGains sq (allocSelected env sq oneNote durationTime tone)))))

/-- The method `Sequencer::checkNewNote(oneNote)`, returning the new engine
state and the boolean result.  A note in state `NS_OFF` releases the first
ringing voice with its key and channel (or returns `false`); any other note
initialises the first free voice and moves it to the end of the active list
(or returns `false` when the free list is empty). -/
def checkNewNote (env : FloatEnv) (sq : Sequencer) (oneNote : Note) : Sequencer × Bool :=
  let durationTime : ℚ := if oneNote.state = NState.NS_ON_FOREVER then FLOAT_LONGTIME else 0
  if oneNote.state = NState.NS_OFF then
    match sq.activeTones.find? (isRinging oneNote) with
    | some ringingTone =>
      ({ sq with
          activeTones := releaseFirst oneNote sq.activeTones
          signals := sq.signals ++ [noteSignal 0 (releaseTone oneNote ringingTone)] }, true)
    | none => (sq, false)
  else
    match sq.freeTones with
    | tone :: rest =>
      ({ sq with
          activeTones := sq.activeTones ++ [allocTone env sq oneNote durationTime tone]
          freeTones := rest
          signals := sq.signals ++ [noteSignal 1 (allocSelected env sq oneNote durationTime tone)] },
        true)
    | [] => (sq, false)

/-- The note fields of the dictionary the host passes to `incertNoteOn` and
`incertNoteOff`. -/
structure NoteDic where
  channel : Int
  key : Int
  velocity : Int
  program : Int
  tempo : Int
  deriving DecidableEq, Repr

/-- The note `incertNoteOn` and `incertNoteOff` build from a dictionary,
with the given state: every field clamped, start time the current time. -/
def hostNote (sq : Sequencer) (state : NState) (dic : NoteDic) : Note :=
  { state := state
    trackNum := 0
    channel := clampI dic.channel 0 31
    key := clampI dic.key 0 127
    velocity := clampI dic.velocity 0 127
    program := clampI dic.program 0 255
    startTick := 0
    startTime := sq.currentTime
    tempo := clampI dic.tempo 1 999 }

/-- The method `Sequencer::incertNoteOn(dic)`; the result of `checkNewNote`
is dropped. -/
def incertNoteOn (env : FloatEnv) (sq : Sequencer) (dic : NoteDic) : Sequencer :=
  (checkNewNote env sq (hostNote sq NState.NS_ON_FOREVER dic)).1

/-- The method `Sequencer::incertNoteOff(dic)`; the result of `checkNewNote`
is dropped. -/
def incertNoteOff (env : FloatEnv) (sq : Sequencer) (dic : NoteDic) : Sequencer :=
  (checkNewNote env sq (hostNote sq NState.NS_OFF dic)).1

/-- The method `Sequencer::smfUnload`: both pools are cleared and the free
pool is refilled with the 64 voices of `toneInstances`. -/
def smfUnload (sq : Sequencer) : Sequencer :=
  { sq with
    unitOfTime := 60000
    freeTones := List.ofFn sq.toneInstances
    activeTones := [] }

/-! ## The render step: `feed` -/

/-- The locals `feed` computes once per call and reads in the sample loop. -/
structure FeedConst where
  noiseBufIndex : Int
  period : ℚ
  delta : ℚ
  div : ℚ

/-- The locals of `feed`: `noiseBufIndex = frameCount * bufferSamples`,
`period = waveLUTSize / (2 PI)`, `delta = 1 / samplingRate * 1000` and
`div = 1 / asumedConcurrentTone`. -/
def feedConst (env : FloatEnv) (sq : Sequencer) : FeedConst :=
  { noiseBufIndex := sq.frameCount * sq.bufferSamples
    period := (waveLUTSize : ℚ) / (env.PI * 2)
    delta := 1 / sq.samplingRate * 1000
    div := 1 / sq.asumedConcurrentTone }

/-- The first test of the sample loop: a pending restart puts the voice back
into the held state and takes its current strength as the attack floor. -/
def restartStep (tone : Tone) (current : ℚ) : Tone :=
  if current > tone.restartWaitDuration then
    { tone with
      note := { tone.note with state := NState.NS_ON_FOREVER }
      mainteinDuration := FLOAT_LONGTIME
      restartWaitDuration := FLOAT_LONGTIME
      atackedStrengthfloor := tone.strength
      waitDuration := current
      tempo_f := tone.restartTempo_f
      velocity_f := tone.restartVelocity_f }
  else tone

/-- The test `isEnd` of the sample loop. -/
def pastEnd (tone : Tone) (current : ℚ) : Bool :=
  decide (current > tone.waitDuration + tone.mainteinDuration
    + tone.instrument.releaseSlopeTime + tone.maxDelayTime)

/-- The index into an envelope table of `num` entries:
`int32_t d = (int32_t)(x); if (d >= num) d = num - 1`.  Only the upper end
is limited. -/
def slopeIndex (x : ℚ) (num : Int) : Int :=
  let d := castInt32 x
  if d ≥ num then num - 1 else d

/-- The envelope branches of the sample loop after the `isEnd` test:
release, decay/sustain, attack; `none` when the voice has not started
(`isTone` stays `false`). -/
def envelopeStep (sq : Sequencer) (k : FeedConst) (tone : Tone) (current : ℚ) : Option Tone :=
  if current > tone.waitDuration + tone.mainteinDuration then
    let d := slopeIndex
      (((current - (tone.waitDuration + tone.mainteinDuration)) * tone.releaseSlopeRatio) / k.delta)
      sq.numReleaseSlopeLUT
    let strength := tone.decayedStrength * sq.releaseSlopeLUT d
    some { tone with strength := strength, atackedStrengthfloor := strength }
  else if current > tone.waitDuration + tone.instrument.atackSlopeTime then
    let d := slopeIndex
      (((current - (tone.waitDuration + tone.instrument.atackSlopeTime)) * tone.decaySlopeRatio)
        / k.delta)
      sq.numDecaySlopeLUT
    let strength := tone.atackedStrength
      * (sq.decaySlopeLUT d * (1 - tone.instrument.sustainRate) + tone.instrument.sustainRate)
    some { tone with strength := strength, decayedStrength := strength,
                     atackedStrengthfloor := strength }
  else if current > tone.waitDuration then
    let d := slopeIndex ((current - tone.waitDuration) * tone.atackSlopeRatio / k.delta)
      sq.numAtackSlopeLUT
    let strength := sq.atackSlopeLUT d * (1 - tone.atackedStrengthfloor) + tone.atackedStrengthfloor
    some { tone with strength := strength, atackedStrength := strength,
                     decayedStrength := strength }
  else none

/-- A phase accumulator step: `phase += inc; if (phase > PI*2) phase -= PI*2`. -/
def advancePhase (env : FloatEnv) (phase inc : ℚ) : ℚ :=
  let p := phase + inc
  if p > env.PI * 2 then p - env.PI * 2 else p

/-- The table a modulator reads: `WAVE_SINSAWx2` is replaced by the
sawtooth table. -/
def modWave (wave : Int) : Int := if wave = WAVE_SINSAWx2 then WAVE_SAWTOOTH else wave

/-- The sign applied to a modulator sample: `-1` for `WAVE_SINSAWx2`. -/
def modWaveInvert (wave : Int) : ℚ := if wave = WAVE_SINSAWx2 then -1 else 1

/-- The pitch-noise sample selected by the instrument's distribution. -/
def freqNoiseSample (sq : Sequencer) (freqNoiseType : Int) (idx : Int) : ℚ :=
  if freqNoiseType = NOISEDTYPE_TRIANGULAR then sq.triangularDistributionLUT idx
  else if freqNoiseType = NOISEDTYPE_COS4ThPOW then sq.cos4thPowDistributionLUT idx
  else sq.whiteNoiseLUT idx

/-- One oscillator sample: the selected wave blended toward the sine by
`clamp(realKey / 120, 0, 1)`, times the mix weight. -/
def oscSample (sq : Sequencer) (k : FeedConst) (wave : Int) (phase : ℚ) (realKey : Int)
    (ratio : ℚ) : ℚ :=
  let f := sq.waveLUT WAVE_SIN (toInt32 (phase * k.period))
  let g := sq.waveLUT wave (toInt32 (phase * k.period))
  let r := clampF ((realKey : ℚ) * (1 / 120)) 0 1
  lerp g f r * ratio

/-- The cross-fade toward the white or pink noise sample. -/
def noiseMix (sq : Sequencer) (ins : Instrument) (idx : Int) (data : ℚ) : ℚ :=
  if ins.noiseColorType = NOISECTYPE_WHITE then
    data * (1 - ins.noiseRatio) + sq.whiteNoiseLUT idx * ins.noiseRatio
  else if ins.noiseColorType = NOISECTYPE_PINK then
    data * (1 - ins.noiseRatio) + sq.pinkNoiseLUT idx * ins.noiseRatio
  else data

/-- The two tests that bound a delay cell:
`if (d > 1.0) d = 1.0; if (d < -1.0) d = -1.0`. -/
def limitDelay (d : ℚ) : ℚ :=
  let d1 := if d > 1 then 1 else d
  if d1 < -1 then -1 else d1

/-- An index of the delay ring moved on by one, wrapping at `size`. -/
def nextIndex (idx size : Int) : Int := if idx + 1 = size then 0 else idx + 1

/-- The delay section of the sample loop for the post-delay sample `data`:
the three taps accumulate into the ring in turn, the indices advance, and
the cell under the write cursor is cleared before the cursor moves. -/
def delayStep (sq : Sequencer) (tone : Tone) (data : ℚ) : Tone :=
  let b0 := Function.update tone.delayBuffer tone.delay0Index
    (limitDelay (tone.delayBuffer tone.delay0Index + data * tone.delay0Ratio))
  let b1 := Function.update b0 tone.delay1Index
    (limitDelay (b0 tone.delay1Index + data * tone.delay1Ratio))
  let b2 := Function.update b1 tone.delay2Index
    (limitDelay (b1 tone.delay2Index + data * tone.delay2Ratio))
  { tone with
    delay0Index := nextIndex tone.delay0Index sq.delayBufferSize
    delay1Index := nextIndex tone.delay1Index sq.delayBufferSize
    delay2Index := nextIndex tone.delay2Index sq.delayBufferSize
    delayBuffer := Function.update b2 tone.delayBufferIndex 0
    delayBufferIndex := nextIndex tone.delayBufferIndex sq.delayBufferSize }

/-- The `isTone` block of the sample loop for sample `i` at time `current`:
pitch offset (noise and FM), the three phases, the AM level, the mixed and
noise-blended sample, gain, dry/delay sum, and the delay section.  Returns
the updated voice and `data`, the value added to `frame[i]`. -/
def signalStep (env : FloatEnv) (sq : Sequencer) (k : FeedConst) (i : Int) (current : ℚ)
    (tone : Tone) : Tone × ℚ :=
  let ins := tone.instrument
  let started : Bool := decide (current > tone.waitDuration)
  let cent0 := tone.freqNoiseCentharfRange * freqNoiseSample sq ins.freqNoiseType (k.noiseBufIndex + i)
  let fmPhase := if started then advancePhase env tone.fmPhase tone.fmIncrement else tone.fmPhase
  let cent :=
    if started then
      cent0 + ins.fmCentRange
        * (sq.waveLUT (modWave ins.fmWave) (toInt32 (fmPhase * k.period)) * modWaveInvert ins.fmWave + 1)
        * (1 / 2)
    else cent0
  let phase1 := advancePhase env tone.phase1 (centFrequency env sq tone.baseIncrement1 cent)
  let phase2 := advancePhase env tone.phase2 (centFrequency env sq tone.baseIncrement2 cent)
  let phase3 := advancePhase env tone.phase3 (centFrequency env sq tone.baseIncrement3 cent)
  let amPhase := if started then advancePhase env tone.amPhase tone.amIncrement else tone.amPhase
  let level : ℚ :=
    if started then
      ins.amLevel
        * (sq.waveLUT (modWave ins.amWave) (toInt32 (amPhase * k.period)) * modWaveInvert ins.amWave + 1)
        * (1 / 2)
        + (1 - ins.amLevel)
    else 1
  let tone1 := oscSample sq k ins.baseWave1 phase1 tone.realKey1 tone.base1ratio
  let tone2 := oscSample sq k ins.baseWave2 phase2 tone.realKey2 tone.base2ratio
  let tone3 := oscSample sq k ins.baseWave3 phase3 tone.realKey3 tone.base3ratio
  let mixed := noiseMix sq ins (k.noiseBufIndex + i) (tone1 + tone2 + tone3)
  let gained := clampF mixed (-1) 1 * ((tone.velocity_f * tone.strength * k.div * level) * ins.totalGain)
  let data := clampF (clampF gained (-1) 1 * tone.mainRatio + tone.delayBuffer tone.delayBufferIndex)
    (-1) 1
  let tone' := { tone with
    fmPhase := fmPhase, amPhase := amPhase, phase1 := phase1, phase2 := phase2, phase3 := phase3 }
  (delayStep sq tone' data, data)

/-- The state of the sample loop of one voice when the loop is left. -/
structure SampleLoop where
  tone : Tone
  frame : List ℚ
  maxFrameValue : ℚ
  isEnd : Bool

/-- The sample loop `for (i = 0; i < bufferSamples; i++)` of one voice, run
over the cells `frame[i], frame[i+1], ...` that are still to be visited;
`current` is the voice time of sample `i`.  The loop is left at the first
sample that is `pastEnd` (later cells keep their value). -/
def toneSamples (env : FloatEnv) (sq : Sequencer) (k : FeedConst) :
    Int → ℚ → ℚ → Tone → List ℚ → SampleLoop
  | _, _, maxFrameValue, tone, [] =>
    { tone := tone, frame := [], maxFrameValue := maxFrameValue, isEnd := false }
  | i, current, maxFrameValue, tone, x :: rest =>
    let t1 := restartStep tone current
    if pastEnd t1 current then
      { tone := t1, frame := x :: rest, maxFrameValue := maxFrameValue, isEnd := true }
    else
      match envelopeStep sq k t1 current with
      | none =>
        let r := toneSamples env sq k (i + 1) (current + k.delta) maxFrameValue t1 rest
        { r with frame := x :: r.frame }
      | some t2 =>
        let out := signalStep env sq k i current t2
        let y := x + out.2
        let m := if absf y > maxFrameValue then absf y else maxFrameValue
        let r := toneSamples env sq k (i + 1) (current + k.delta) m out.1 rest
        { r with frame := clampF y (-1) 1 :: r.frame }

/-- The state the loop over the active voices carries. -/
structure ToneLoop where
  activeTones : List Tone
  freeTones : List Tone
  frame : List ℚ
  maxValue : ℚ
  signals : List Signal

/-- The fields `feed` resets when it reclaims a voice. -/
def reclaimTone (tone : Tone) : Tone :=
  { tone with phase1 := 0, phase2 := 0, phase3 := 0, strength := 0,
              atackedStrength := 0, decayedStrength := 0 }

/-- The loop of `feed` over `activeTones`: each voice runs its sample loop
on the shared frame, the peak is recorded and signalled, and the voice is
either moved to the end of the free list (`isEnd` with no restart pending)
or kept with `passed` moved on by one buffer. -/
def feedTones (env : FloatEnv) (sq : Sequencer) (k : FeedConst) :
    List Tone → List Tone → List ℚ → ℚ → List Signal → ToneLoop
  | [], free, frame, maxValue, signals =>
    { activeTones := [], freeTones := free, frame := frame, maxValue := maxValue,
      signals := signals }
  | tone :: rest, free, frame, maxValue, signals =>
    let r := toneSamples env sq k 0 (tone.passed : ℚ) 0 tone frame
    let maxValue' := if r.maxFrameValue > maxValue then r.maxFrameValue else maxValue
    let signals' := signals ++
      [Signal.levelMsg (toInt32 (maxValue' * 1000)) (toInt32 (r.maxFrameValue * 1000))]
    if r.isEnd ∧ r.tone.restartWaitDuration = FLOAT_LONGTIME then
      feedTones env sq k rest (free ++ [reclaimTone r.tone]) r.frame maxValue' signals'
    else
      let kept := { r.tone with
        passed := r.tone.passed + toInt32 (k.delta * (sq.bufferSamples : ℚ)) }
      let out := feedTones env sq k rest free r.frame maxValue' signals'
      { out with activeTones := kept :: out.activeTones }

/-- The loop `while (isSet)` of `feed`.  The parser `midi` is external:
`events` lists, in order, the notes its calls `parse(currentTime + frameTime)`
answer during this call of `feed`, and once the list is used up it answers
`NS_EMPTY`.  The loop ends at a note in state `NS_END` or `NS_EMPTY` and at
the first note for which `checkNewNote` returns `false`.  Returns the engine
state and the state of `oneNote` when the loop is left. -/
def drainNotes (env : FloatEnv) : Sequencer → List Note → Sequencer × NState
  | sq, [] => (sq, NState.NS_EMPTY)
  | sq, oneNote :: rest =>
    if oneNote.state = NState.NS_END ∨ oneNote.state = NState.NS_EMPTY then (sq, oneNote.state)
    else
      let r := checkNewNote env sq oneNote
      if r.2 = false then (r.1, oneNote.state) else drainNotes env r.1 rest

/-- The part of `feed` that writes the output buffer: the frame is zeroed,
due notes are drained (only when `isSet`; without it `oneNote` is never
assigned and is taken as `NS_EMPTY`), the time advances by `frameTime`, and
the active voices are rendered.  Returns the frame, the engine state before
the frame counter is updated, and the state of `oneNote`. -/
def feedRender (env : FloatEnv) (sq : Sequencer) (events : List Note) :
    List ℚ × Sequencer × NState :=
  let frame0 : List ℚ := List.replicate sq.bufferSamples.toNat 0
  let frameTime := toInt32 (sq.bufferingTime * 1000)
  let drained := if sq.isSet then drainNotes env sq events else (sq, NState.NS_EMPTY)
  let s1 := { drained.1 with currentTime := drained.1.currentTime + frameTime }
  let r := feedTones env s1 (feedConst env s1) s1.activeTones s1.freeTones frame0 s1.maxValue
    s1.signals
  (r.frame,
   { s1 with activeTones := r.activeTones, freeTones := r.freeTones, maxValue := r.maxValue,
             signals := r.signals },
   drained.2)

/-- The end of `feed`: `frameCount += 1; frameCount %= noiseBufSize` (an
integer remainder, which traps when `noiseBufSize` is 0: the result `none`),
then the timeline restart when the parser is at its end and no voice is
active. -/
def feedFinish (sq : Sequencer) (last : NState) : Option Sequencer :=
  if sq.noiseBufSize = 0 then none
  else
    let s1 := { sq with frameCount := Int.tmod (sq.frameCount + 1) sq.noiseBufSize }
    if last = NState.NS_END ∧ s1.activeTones.length = 0 then some { s1 with currentTime := 0 }
    else some s1

/-- The method `Sequencer::feed(frame)`.  The first component is the output
buffer `frame[0 .. bufferSamples - 1]` as the call leaves it in the caller's
memory; the second is the engine state when the call returns (`true`), or
`none` when the call traps in `feedFinish` after the buffer is written. -/
def feed (env : FloatEnv) (sq : Sequencer) (events : List Note) : List ℚ × Option Sequencer :=
  let r := feedRender env sq events
  (r.1, feedFinish r.2.1 r.2.2)

/-! ## Configuration: `initParam` -/

/-- The loop `for (int32_t i = 0; i < n; i++) body`, on the state the body
updates. -/
def forLoop {σ : Type} (n : Int) (body : Int → σ → σ) (init : σ) : σ :=
  (List.range n.toNat).foldl (fun st (i : Nat) => body (i : Int) st) init

/-- A float array from `std::make_unique<float[]>(n)`: the `n` cells are
zero; what lies outside them is not the array's. -/
def newArray (env : FloatEnv) (n : Int) : Int → ℚ :=
  fun i => if 0 ≤ i ∧ i < n then 0 else env.junk i

/-- The class `PinkNoise` of `sequencer.hpp`: 16 filter states `z`, their
coefficients `k`, and the output state `t`. -/
structure PinkNoise where
  z : Int → ℚ
  k : Int → ℚ
  t : ℚ

/-- The constant `PinkNoise::tapNum`. -/
def PinkNoise.tapNum : Int := 16

/-- The constructor `PinkNoise::PinkNoise()`: `z` cleared, `k[15] = 0.5` and
`k[i-1] = k[i] * 0.25` downward; `t` starts at 0. -/
def PinkNoise.new (env : FloatEnv) : PinkNoise :=
  { z := forLoop PinkNoise.tapNum (fun i z => Function.update z i 0) env.junk
    k := forLoop (PinkNoise.tapNum - 1)
      (fun j k => Function.update k (PinkNoise.tapNum - 1 - j - 1)
        (k (PinkNoise.tapNum - 1 - j) * (1 / 4)))
      (Function.update env.junk (PinkNoise.tapNum - 1) (1 / 2))
    t := 0 }

/-- The method `PinkNoise::makeNoise(in)`: the new filter and the returned
sample. -/
def PinkNoise.makeNoise (p : PinkNoise) (x : ℚ) : PinkNoise × ℚ :=
  let zq := forLoop PinkNoise.tapNum
    (fun i (st : (Int → ℚ) × ℚ) =>
      let zi := st.2 * p.k i + st.1 i * (1 - p.k i)
      (Function.update st.1 i zi, (st.2 + zi) * (1 / 2)))
    (p.z, x)
  let t := (3 / 4) * zq.2 + (1 / 4) * p.t
  ({ p with z := zq.1, t := t }, t)

/-- The attack table of `initParam`: `(1 - cosf(PI * i / num)) / 2`. -/
def buildAtackSlopeLUT (env : FloatEnv) (num : Int) : Int → ℚ :=
  forLoop num
    (fun i lut => Function.update lut i ((1 - env.cosf (env.PI * (i : ℚ) / (num : ℚ))) / 2))
    (newArray env num)

/-- The release table of `initParam`: `(1 + cosf(PI * i / num)) / 2`. -/
def buildReleaseSlopeLUT (env : FloatEnv) (num : Int) : Int → ℚ :=
  forLoop num
    (fun i lut => Function.update lut i ((1 + env.cosf (env.PI * (i : ℚ) / (num : ℚ))) / 2))
    (newArray env num)

/-- The decay table of `initParam` before it is renormalised:
`0.5 + tanhf(log10f(decayHalfLifeTime / (decaySlopeTime * i / num))) / 2`.
At `i = 0` the divisor is zero: IEEE arithmetic gives `+inf`, whose `log10f`
is `+inf` and whose `tanhf` is 1, so the entry is `0.5 + 1 / 2`. -/
def buildDecayRaw (env : FloatEnv) (decayHalfLifeTime decaySlopeTime : ℚ) (num : Int) : Int → ℚ :=
  forLoop num
    (fun i lut => Function.update lut i
      (if i = 0 then 1 / 2 + 1 / 2
       else 1 / 2 + env.tanhf (env.log10f
          (decayHalfLifeTime / (decaySlopeTime * (i : ℚ) / (num : ℚ)))) / 2))
    (newArray env num)

/-- The renormalisation of the decay table: with `offset` its last entry
and `range = 1 - offset`, every entry becomes `(entry - offset) / range`. -/
def normalizeDecay (num : Int) (raw : Int → ℚ) : Int → ℚ :=
  let offset := raw (num - 1)
  let range := 1 - offset
  forLoop num (fun i lut => Function.update lut i ((lut i - offset) / range)) raw

/-- The five wave tables of `initParam`, written over the previous contents
`old` of `waveLUT`: sine, square, triangle and sawtooth (both stored rotated
by `3 * s / 4`), and the sine riding on the doubled sawtooth. -/
def buildWaveLUT (env : FloatEnv) (old : Int → Int → ℚ) : Int → Int → ℚ :=
  let s := waveLUTSize
  let w1 := forLoop s
    (fun i w => Function.update w WAVE_SIN
      (Function.update (w WAVE_SIN) i (env.sinf (2 * env.PI * (i : ℚ) / (s : ℚ))))) old
  let w2 := forLoop s
    (fun i w => Function.update w WAVE_SQUARE
      (Function.update (w WAVE_SQUARE) i (if i < s / 2 then 1 else -1))) w1
  let w3 := forLoop s
    (fun i w => Function.update w WAVE_TRIANGLE
      (Function.update (w WAVE_TRIANGLE) (Int.tmod (i + 3 * s / 4) s)
        (if i < s / 2 then ((i : ℚ) * 4) / (s : ℚ) - 1 else 3 - ((i : ℚ) * 4) / (s : ℚ)))) w2
  let w4 := forLoop s
    (fun i w => Function.update w WAVE_SAWTOOTH
      (Function.update (w WAVE_SAWTOOTH) (Int.tmod (i + 3 * s / 4) s)
        (((i : ℚ) * 2) / (s : ℚ) - 1))) w3
  forLoop s
    (fun i w => Function.update w WAVE_SINSAWx2
      (Function.update (w WAVE_SINSAWx2) i
        (((w WAVE_SIN i + 1) + (w WAVE_SAWTOOTH (Int.tmod (i * 2) s) + 1)) / 2 - 1))) w4

/-- The three tables the noise loop of `initParam` fills. -/
structure NoiseTables where
  white : Int → ℚ
  triangular : Int → ℚ
  cos4thPow : Int → ℚ

/-- The noise loop of `initParam`: per cell one uniform sample in `[-1, 1]`,
then one in `[-r, r]` and one in `[-c, c]`, with `r` its absolute value and
`c = |1 - cos(PI * (r * 0.5 - 0.5))^4|`. -/
def buildNoise (env : FloatEnv) (noiseBuffer : Int) : NoiseTables :=
  forLoop noiseBuffer
    (fun i (nt : NoiseTables) =>
      let w := env.randf (3 * i.toNat) (-1) 1
      let r := absf w
      let c := absf (1 - (env.cosf (env.PI * (r * (1 / 2) - 1 / 2))) ^ 4)
      { white := Function.update nt.white i w
        triangular := Function.update nt.triangular i (env.randf (3 * i.toNat + 1) (-r) r)
        cos4thPow := Function.update nt.cos4thPow i (env.randf (3 * i.toNat + 2) (-c) c) })
    { white := newArray env noiseBuffer
      triangular := newArray env noiseBuffer
      cos4thPow := newArray env noiseBuffer }

/-- The pink table after the filter pass: the table and the filter state. -/
def pinkFiltered (env : FloatEnv) (noiseBuffer : Int) (white : Int → ℚ) : (Int → ℚ) × PinkNoise :=
  forLoop noiseBuffer
    (fun i (st : (Int → ℚ) × PinkNoise) =>
      let r := st.2.makeNoise (white i)
      (Function.update st.1 i r.2, r.1))
    (newArray env noiseBuffer, PinkNoise.new env)

/-- The slope `diff = (tail - head) / noiseBuffer` of the bias correction,
`head` being the first filtered sample and `tail` the filter's next output
for `whiteNoiseLUT[0]`. -/
def pinkDiff (env : FloatEnv) (noiseBuffer : Int) (white : Int → ℚ) : ℚ :=
  let f := pinkFiltered env noiseBuffer white
  let head := f.1 0
  let tail := (f.2.makeNoise (white 0)).2
  (tail - head) / (noiseBuffer : ℚ)

/-- The pink table after the correction loop (`lut[i] += diff * i`), with
the running maximum (from -1) and minimum (from 1). -/
def pinkCorrected (env : FloatEnv) (noiseBuffer : Int) (white : Int → ℚ) : (Int → ℚ) × ℚ × ℚ :=
  let diff := pinkDiff env noiseBuffer white
  forLoop noiseBuffer
    (fun i (st : (Int → ℚ) × ℚ × ℚ) =>
      let v := st.1 i + diff * (i : ℚ)
      let mx := if v > st.2.1 then v else st.2.1
      let mn := if v < st.2.2 then v else st.2.2
      (Function.update st.1 i v, mx, mn))
    ((pinkFiltered env noiseBuffer white).1, -1, 1)

/-- The pink-noise table of `initParam`: filtered, corrected, and rescaled
by `(v - min) / (max - min) * 2 - 1`. -/
def buildPinkNoiseLUT (env : FloatEnv) (noiseBuffer : Int) (white : Int → ℚ) : Int → ℚ :=
  let c := pinkCorrected env noiseBuffer white
  forLoop noiseBuffer
    (fun i lut => Function.update lut i ((lut i - c.2.2) / (c.2.1 - c.2.2) * 2 - 1)) c.1

/-- The cents-to-ratio table: `powf(2, (i - size / 2) / 1200)`. -/
def buildPow2LUT (env : FloatEnv) : Int → ℚ :=
  forLoop pow2_x_1200LUT_size
    (fun i lut => Function.update lut i
      (env.powf 2 (((i - pow2_x_1200LUT_size / 2 : Int) : ℚ) / 1200)))
    (newArray env pow2_x_1200LUT_size)

/-- The velocity-to-power table: `powf((i + 1) / 128, 2.2)`. -/
def buildVelocityLUT (env : FloatEnv) : Int → ℚ :=
  forLoop 128
    (fun i lut => Function.update lut i (env.powf (((i + 1 : Int) : ℚ) / 128) (22 / 10)))
    (newArray env 128)

/-- The method `Sequencer::initParam(rate, time, samples)` (it returns
`true`): configuration, the envelope, wave, noise, cents and velocity
tables, the delay rings, both pools (all 64 voices free) and the default
banks. -/
def initParam (env : FloatEnv) (sq : Sequencer) (rate time : ℚ) (samples : Int) : Sequencer :=
  let noiseBufSize := toInt32 (rate / (samples : ℚ))
  let noiseBuffer := samples * noiseBufSize
  let numAtack := toInt32 ((1 / sq.atackSlopeHz / 2) * rate)
  let numRelease := toInt32 ((1 / sq.releaseSlopeHz / 2) * rate)
  let numDecay := toInt32 ((1 / sq.decaySlopeHz / 2) * rate)
  let decaySlopeTime := 1 / sq.decaySlopeHz / 2 * 1000
  let instances : Fin 64 → Tone := fun i => { sq.toneInstances i with delayBuffer := env.junk }
  let noise := buildNoise env noiseBuffer
  { sq with
    samplingRate := rate
    bufferingTime := time
    bufferSamples := samples
    currentTime := 0
    frameCount := 0
    noiseBufSize := noiseBufSize
    noiseBuffer := noiseBuffer
    numAtackSlopeLUT := numAtack
    atackSlopeLUT := buildAtackSlopeLUT env numAtack
    atackSlopeTime := 1 / sq.atackSlopeHz / 2 * 1000
    numReleaseSlopeLUT := numRelease
    releaseSlopeLUT := buildReleaseSlopeLUT env numRelease
    releaseSlopeTime := 1 / sq.releaseSlopeHz / 2 * 1000
    numDecaySlopeLUT := numDecay
    decaySlopeLUT := normalizeDecay numDecay
      (buildDecayRaw env sq.decayHalfLifeTime decaySlopeTime numDecay)
    decaySlopeTime := decaySlopeTime
    waveLUT := buildWaveLUT env sq.waveLUT
    delayBufferSize := toInt32 (rate * (delayBufferDuration / 1000))
    toneInstances := instances
    freeTones := List.ofFn instances
    activeTones := []
    whiteNoiseLUT := noise.white
    triangularDistributionLUT := noise.triangular
    cos4thPowDistributionLUT := noise.cos4thPow
    pinkNoiseLUT := buildPinkNoiseLUT env noiseBuffer noise.white
    pow2_x_1200LUT := buildPow2LUT env
    velocity2powerLUT := buildVelocityLUT env
    instruments := env.defaultInstruments
    percussions := env.defaultPercussions
    isSet := true }

/-! ## Properties stated by the specification -/

/-- The bounds the specification documents for a stored instrument. -/
structure InstrumentInBounds (x : Instrument) : Prop where
  totalGain : 0 ≤ x.totalGain ∧ x.totalGain ≤ 1
  sustainRate : 0 ≤ x.sustainRate ∧ x.sustainRate ≤ 1
  baseVsOthersRatio : 0 ≤ x.baseVsOthersRatio ∧ x.baseVsOthersRatio ≤ 1
  side1VsSide2Ratio : 0 ≤ x.side1VsSide2Ratio ∧ x.side1VsSide2Ratio ≤ 1
  noiseRatio : 0 ≤ x.noiseRatio ∧ x.noiseRatio ≤ 1
  amLevel : 0 ≤ x.amLevel ∧ x.amLevel ≤ 1
  atackSlopeTime : 0 ≤ x.atackSlopeTime ∧ x.atackSlopeTime ≤ 5000
  decayHalfLifeTime : 0 ≤ x.decayHalfLifeTime ∧ x.decayHalfLifeTime ≤ 5000
  releaseSlopeTime : 0 ≤ x.releaseSlopeTime ∧ x.releaseSlopeTime ≤ 5000
  baseOffsetCent1 : -8400 ≤ x.baseOffsetCent1 ∧ x.baseOffsetCent1 ≤ 8400
  baseOffsetCent2 : -8400 ≤ x.baseOffsetCent2 ∧ x.baseOffsetCent2 ≤ 8400
  baseOffsetCent3 : -8400 ≤ x.baseOffsetCent3 ∧ x.baseOffsetCent3 ≤ 8400
  freqNoiseCentRange : -8400 ≤ x.freqNoiseCentRange ∧ x.freqNoiseCentRange ≤ 8400
  fmCentRange : -8400 ≤ x.fmCentRange ∧ x.fmCentRange ≤ 8400
  delay0Time : 0 ≤ x.delay0Time ∧ x.delay0Time ≤ 500
  delay1Time : 0 ≤ x.delay1Time ∧ x.delay1Time ≤ 500
  delay2Time : 0 ≤ x.delay2Time ∧ x.delay2Time ≤ 500
  delay0Ratio : 0 ≤ x.delay0Ratio ∧ x.delay0Ratio < 1
  delay1Ratio : 0 ≤ x.delay1Ratio ∧ x.delay1Ratio < 1
  delay2Ratio : 0 ≤ x.delay2Ratio ∧ x.delay2Ratio < 1
  fmFreq : 0 ≤ x.fmFreq ∧ x.fmFreq ≤ 7040
  amFreq : 0 ≤ x.amFreq ∧ x.amFreq ≤ 7040
  fmPhaseOffset : 0 ≤ x.fmPhaseOffset ∧ x.fmPhaseOffset < 2
  amPhaseOffset : 0 ≤ x.amPhaseOffset ∧ x.amPhaseOffset < 2
  fmSync : x.fmSync = 0 ∨ x.fmSync = 1
  amSync : x.amSync = 0 ∨ x.amSync = 1
  baseWave1 : 0 ≤ x.baseWave1 ∧ x.baseWave1 ≤ 4
  baseWave2 : 0 ≤ x.baseWave2 ∧ x.baseWave2 ≤ 4
  baseWave3 : 0 ≤ x.baseWave3 ∧ x.baseWave3 ≤ 4
  fmWave : 0 ≤ x.fmWave ∧ x.fmWave ≤ 4
  amWave : 0 ≤ x.amWave ∧ x.amWave ≤ 4
  noiseColorType : 0 ≤ x.noiseColorType ∧ x.noiseColorType ≤ 1
  freqNoiseType : 0 ≤ x.freqNoiseType ∧ x.freqNoiseType ≤ 2

/-- A dictionary supplied by the host lies within the documented ranges when
the instrument with the same field values does. -/
def DicInRange (dic : InstrumentDic) : Prop :=
  InstrumentInBounds
    { totalGain := dic.totalGain
      atackSlopeTime := dic.atackSlopeTime
      decayHalfLifeTime := dic.decayHalfLifeTime
      sustainRate := dic.sustainRate
      releaseSlopeTime := dic.releaseSlopeTime
      baseVsOthersRatio := dic.baseVsOthersRatio
      side1VsSide2Ratio := dic.side1VsSide2Ratio
      baseOffsetCent1 := dic.baseOffsetCent1
      baseWave1 := dic.baseWave1
      baseOffsetCent2 := dic.baseOffsetCent2
      baseWave2 := dic.baseWave2
      baseOffsetCent3 := dic.baseOffsetCent3
      baseWave3 := dic.baseWave3
      noiseRatio := dic.noiseRatio
      noiseColorType := dic.noiseColorType
      delay0Time := dic.delay0Time
      delay1Time := dic.delay1Time
      delay2Time := dic.delay2Time
      delay0Ratio := dic.delay0Ratio
      delay1Ratio := dic.delay1Ratio
      delay2Ratio := dic.delay2Ratio
      freqNoiseCentRange := dic.freqNoiseCentRange
      freqNoiseType := dic.freqNoiseType
      fmCentRange := dic.fmCentRange
      fmFreq := dic.fmFreq
      fmPhaseOffset := dic.fmPhaseOffset
      fmSync := dic.fmSync
      fmWave := dic.fmWave
      amLevel := dic.amLevel
      amFreq := dic.amFreq
      amPhaseOffset := dic.amPhaseOffset
      amSync := dic.amSync
      amWave := dic.amWave }

/-! ## Concrete inputs used to instantiate the theorems -/

/-- An instrument dictionary with every field equal to `v` (floats) or `n`
(integers). -/
def constDic (v : ℚ) (n : Int) : InstrumentDic :=
  { totalGain := v, atackSlopeTime := v, decayHalfLifeTime := v, sustainRate := v,
    releaseSlopeTime := v, baseVsOthersRatio := v, side1VsSide2Ratio := v,
    baseOffsetCent1 := v, baseWave1 := n, baseOffsetCent2 := v, baseWave2 := n,
    baseOffsetCent3 := v, baseWave3 := n, noiseRatio := v, noiseColorType := n,
    delay0Time := v, delay1Time := v, delay2Time := v, delay0Ratio := v, delay1Ratio := v,
    delay2Ratio := v, freqNoiseCentRange := v, freqNoiseType := n, fmCentRange := v,
    fmFreq := v, fmPhaseOffset := v, fmSync := n, fmWave := n, amLevel := v, amFreq := v,
    amPhaseOffset := v, amSync := n, amWave := n }

/-- An instrument with every float field `v` and every integer field `n`. -/
def constInstrument (v : ℚ) (n : Int) : Instrument :=
  { totalGain := v, atackSlopeTime := v, decayHalfLifeTime := v, sustainRate := v,
    releaseSlopeTime := v, baseVsOthersRatio := v, side1VsSide2Ratio := v,
    baseOffsetCent1 := v, baseWave1 := n, baseOffsetCent2 := v, baseWave2 := n,
    baseOffsetCent3 := v, baseWave3 := n, noiseRatio := v, noiseColorType := n,
    delay0Time := v, delay1Time := v, delay2Time := v, delay0Ratio := v, delay1Ratio := v,
    delay2Ratio := v, freqNoiseCentRange := v, freqNoiseType := n, fmCentRange := v,
    fmFreq := v, fmPhaseOffset := v, fmSync := n, fmWave := n, amLevel := v, amFreq := v,
    amPhaseOffset := v, amSync := n, amWave := n }

/-- An environment for concrete runs: `PI` is `355 / 113`, the `libm`
stand-ins and the generator return 0, unwritten memory reads 0, and the
default banks are `constInstrument 0 0` and percussion `(0, 0)`. -/
def demoEnv : FloatEnv :=
  { PI := 355 / 113
    powf := fun _ _ => 0
    cosf := fun _ => 0
    sinf := fun _ => 0
    tanhf := fun _ => 0
    log10f := fun _ => 0
    randf := fun _ _ _ => 0
    defaultInstruments := fun _ => constInstrument 0 0
    defaultPercussions := fun _ => { program := 0, key := 0 }
    junk := fun _ => 0 }

/-- A note with the given state, channel, key, velocity and program, on
track 0 at time 0 with tempo 120. -/
def demoNote (state : NState) (channel key velocity program : Int) : Note :=
  { state := state, trackNum := 0, channel := channel, key := key, velocity := velocity,
    program := program, startTick := 0, startTime := 0, tempo := 120 }

/-- A voice as the constructor of `Tone` leaves it: the members with a
default initialiser are 0, the buffer pointer is null; the members without
one (indeterminate in the source) are taken as 0, with the given note. -/
def newTone (env : FloatEnv) (note : Note) : Tone :=
  { note := note, velocity := 0, velocity_f := 0, tempo := 0, tempo_f := 0,
    restartVelocity := 0, restartVelocity_f := 0, restartTempo := 0, restartTempo_f := 0,
    strength := 0, atackedStrength := 0, decayedStrength := 0, atackedStrengthfloor := 0,
    atackSlopeRatio := 0, decaySlopeRatio := 0, releaseSlopeRatio := 0,
    phase1 := 0, phase2 := 0, phase3 := 0,
    baseIncrement1 := 0, baseIncrement2 := 0, baseIncrement3 := 0,
    base1ratio := 0, base2ratio := 0, base3ratio := 0, frequency := 0, passed := 0,
    waitDuration := 0, restartWaitDuration := 0, mainteinDuration := 0,
    freqNoiseCentharfRange := 0, instrument := constInstrument 0 0, delayBuffer := env.junk,
    delayBufferIndex := 0, delay0Index := 0, delay1Index := 0, delay2Index := 0,
    delay0Ratio := 0, delay1Ratio := 0, delay2Ratio := 0, mainRatio := 0,
    fmPhase := 0, fmIncrement := 0, amPhase := 0, amIncrement := 0,
    program := 0, key := 0, realKey1 := 0, realKey2 := 0, realKey3 := 0, maxDelayTime := 0 }

/-- The engine as the constructor `Sequencer::Sequencer()` leaves it: the
members with a default initialiser have it (`samplingRate = 44100`,
`bufferingTime = 0.05`, the slope rates 25, 25 and 1, `decayHalfLifeTime = 50`,
`asumedConcurrentTone = 4`, `unitOfTime = 60000`, ...), both lists are
empty, and the members without one are taken as 0. -/
def newSequencer (env : FloatEnv) : Sequencer :=
  { delayBufferSize := 0, unitOfTime := 60000
    toneInstances := fun _ => newTone env (demoNote NState.NS_EMPTY 0 0 0 0)
    activeTones := [], freeTones := []
    instruments := fun _ => constInstrument 0 0
    percussions := fun _ => { program := 0, key := 0 }
    samplingRate := 44100, bufferingTime := 1 / 20, bufferSamples := 0, currentTime := 0,
    frameCount := 0, noiseBufSize := 0, noiseBuffer := 0, isSet := false
    waveLUT := fun _ => env.junk
    atackSlopeHz := 25, atackSlopeLUT := env.junk, atackSlopeTime := 0, numAtackSlopeLUT := 0
    releaseSlopeHz := 25, releaseSlopeLUT := env.junk, releaseSlopeTime := 0
    numReleaseSlopeLUT := 0
    decaySlopeHz := 1, decayHalfLifeTime := 50, decaySlopeLUT := env.junk, decaySlopeTime := 0
    numDecaySlopeLUT := 0
    sustainRate := 0, velocity2powerLUT := env.junk, whiteNoiseLUT := env.junk
    pinkNoiseLUT := env.junk, triangularDistributionLUT := env.junk
    cos4thPowDistributionLUT := env.junk, pow2_x_1200LUT := env.junk
    asumedConcurrentTone := 4, logLevel := 1, maxValue := 0, signals := [] }

/-- The engine states the host can reach: `initParam` from any engine
object, then any sequence of `incertNoteOn`, `incertNoteOff`, `feed` (a call
that returns, with any answers of the parser) and `smfUnload`. -/
inductive Reachable (env : FloatEnv) : Sequencer → Prop where
  | configure (sq0 : Sequencer) (rate time : ℚ) (samples : Int) :
      Reachable env (initParam env sq0 rate time samples)
  | noteOn {sq : Sequencer} (dic : NoteDic) :
      Reachable env sq → Reachable env (incertNoteOn env sq dic)
  | noteOff {sq : Sequencer} (dic : NoteDic) :
      Reachable env sq → Reachable env (incertNoteOff env sq dic)
  | render {sq sq' : Sequencer} (events : List Note) :
      Reachable env sq → (feed env sq events).2 = some sq' → Reachable env sq'
  | unload {sq : Sequencer} :
      Reachable env sq → Reachable env (smfUnload sq)

/-- The event source has no due event: its first answer in this call of
`feed` is `NS_EMPTY` (also when it has nothing to answer) or `NS_END`. -/
def NoDueEvent (events : List Note) : Prop :=
  ∀ oneNote ∈ events.head?, oneNote.state = NState.NS_EMPTY ∨ oneNote.state = NState.NS_END

/-- The resolution rule of the specification for a note with a valid
channel: the pair (program, sounding key) comes from the percussion table by
key on channels 9 and 25, from the percussion table by program for the
programs `0x70 .. 0x7F`, and from the note itself otherwise. -/
def resolvedProgramKey (sq : Sequencer) (note : Note) : Int × Int :=
  if note.channel = 9 ∨ note.channel = 25 then
    ((sq.percussions note.key).program, (sq.percussions note.key).key)
  else if 112 ≤ note.program ∧ note.program ≤ 127 then
    ((sq.percussions note.program).program, (sq.percussions note.program).key)
  else (note.program, note.key)

/-- The engine configured at 44100 Hz with buffers of 2205 samples (0.05 s). -/
def demoEngine : Sequencer := initParam demoEnv (newSequencer demoEnv) 44100 (1 / 20) 2205

/-- The engine configured at 44100 Hz with buffers of 88200 samples (2 s). -/
def longBufferEngine : Sequencer := initParam demoEnv (newSequencer demoEnv) 44100 2 88200

/-- An engine with one sounding voice: key 60 on channel 0, held. -/
def ringingEngine : Sequencer :=
  { newSequencer demoEnv with
    activeTones := [newTone demoEnv (demoNote NState.NS_ON_FOREVER 0 60 100 0)] }

/-- The configured engine with all 64 voices sounding and none free. -/
def fullEngine : Sequencer :=
  { demoEngine with activeTones := demoEngine.freeTones, freeTones := [] }

/-- The factor `centFrequency` multiplies `freq` by before the ceiling is
applied: its six branches on `cent`, as in the source. -/
def centRatio (env : FloatEnv) (sq : Sequencer) (cent : ℚ) : ℚ :=
  let h : ℚ := (env.powf 2 (120 / 1200) - 1) / 120
  let l : ℚ := (env.powf 2 (-120 / 1200) - 1) / 120
  let t : ℚ := ((pow2_x_1200LUT_size / 2 : Int) : ℚ)
  let b : ℚ := -((pow2_x_1200LUT_size / 2 : Int) : ℚ)
  if cent ≤ b then sq.pow2_x_1200LUT 0
  else if cent < -120 then sq.pow2_x_1200LUT (pow2_x_1200LUT_size / 2 + toInt32 cent)
  else if cent < 0 then 1 - cent * l
  else if cent ≤ 120 then 1 + cent * h
  else if cent < t then sq.pow2_x_1200LUT (pow2_x_1200LUT_size / 2 + toInt32 cent)
  else sq.pow2_x_1200LUT (pow2_x_1200LUT_size - 1)

/-- An environment for concrete runs with a positive power function that is
monotone in the exponent for base 2 and 1 at exponent 0
(`1 / (1 - x)` for `x <= 0`, `1 + x` above); for another base it returns the
base.  The other fields are those of `demoEnv`. -/
def sampleEnv : FloatEnv :=
  { demoEnv with
    powf := fun b x => if b = 2 then (if x ≤ 0 then 1 / (1 - x) else 1 + x) else b }

/-- The engine configured with `sampleEnv` at 44100 Hz and 2205 samples per
buffer. -/
def sampleEngine : Sequencer := initParam sampleEnv (newSequencer sampleEnv) 44100 (1 / 20) 2205

/-- The three envelope tables of the engine have at least one entry each,
and every entry `0 .. num - 1` lies in `[0, 1]`. -/
structure UnitTables (sq : Sequencer) : Prop where
  numAtack : 0 < sq.numAtackSlopeLUT
  numDecay : 0 < sq.numDecaySlopeLUT
  numRelease : 0 < sq.numReleaseSlopeLUT
  atack : ∀ i : Int, 0 ≤ i → i < sq.numAtackSlopeLUT →
    0 ≤ sq.atackSlopeLUT i ∧ sq.atackSlopeLUT i ≤ 1
  decay : ∀ i : Int, 0 ≤ i → i < sq.numDecaySlopeLUT →
    0 ≤ sq.decaySlopeLUT i ∧ sq.decaySlopeLUT i ≤ 1
  release : ∀ i : Int, 0 ≤ i → i < sq.numReleaseSlopeLUT →
    0 ≤ sq.releaseSlopeLUT i ∧ sq.releaseSlopeLUT i ≤ 1

/-- What the envelope tables of `initParam` need from the `libm` stand-ins:
the cosine lies in `[-1, 1]`, the hyperbolic tangent in `[-1, 1)`, and the
tangent of the logarithm is monotone on the positive numbers. -/
structure IdealLibm (env : FloatEnv) : Prop where
  cosf_range : ∀ x : ℚ, -1 ≤ env.cosf x ∧ env.cosf x ≤ 1
  tanhf_range : ∀ x : ℚ, -1 ≤ env.tanhf x ∧ env.tanhf x < 1
  tanhf_log10f_mono : ∀ x y : ℚ, 0 < x → x ≤ y →
    env.tanhf (env.log10f x) ≤ env.tanhf (env.log10f y)

/-- A held voice of the configured engine with the instrument stored for the
dictionary `constDic 10 0` (slope times 10 ms), before its first sample:
envelope values 0, slope ratios from `allocSlopes`. -/
def heldTone : Tone :=
  allocSlopes demoEngine
    { newTone demoEnv (demoNote NState.NS_ON_FOREVER 0 60 100 0) with
      instrument := storeInstrument (constDic 10 0)
      mainteinDuration := FLOAT_LONGTIME
      restartWaitDuration := FLOAT_LONGTIME }

/-- The sample loop of a voice run over the cells `pre` only: the state in
which the loop reaches sample `pre.length`. -/
def passBefore (env : FloatEnv) (sq : Sequencer) (k : FeedConst) (tone : Tone)
    (pre : List ℚ) : SampleLoop :=
  toneSamples env sq k 0 (tone.passed : ℚ) 0 tone pre

/-- The voice time `current` of sample `j` of a pass: `passed`, moved on by
`delta` once per sample. -/
def sampleTime (k : FeedConst) (tone : Tone) (j : Nat) : ℚ :=
  (tone.passed : ℚ) + (j : ℚ) * k.delta

/-- The voice as the `isEnd` test of sample `pre.length` reads it: after the
samples before it and the restart test of that sample. -/
def voiceAtSample (env : FloatEnv) (sq : Sequencer) (k : FeedConst) (tone : Tone)
    (pre : List ℚ) : Tone :=
  restartStep (passBefore env sq k tone pre).tone (sampleTime k tone pre.length)

/-- The sample loop reaches sample `pre.length` and its `isEnd` test holds there. -/
def EndsAt (env : FloatEnv) (sq : Sequencer) (k : FeedConst) (tone : Tone)
    (pre : List ℚ) : Prop :=
  (passBefore env sq k tone pre).isEnd = false ∧
  pastEnd (voiceAtSample env sq k tone pre) (sampleTime k tone pre.length) = true

/-- A released voice past its end: voice time 1000 ms, all its durations 0,
no restart pending. -/
def endedTone : Tone :=
  { newTone demoEnv (demoNote NState.NS_OFF 0 60 100 0) with
    passed := 1000
    restartWaitDuration := FLOAT_LONGTIME }

/-- The condition of the specification for an enabled delay tap: the time
within `(0, 500)` msec and the ratio within `(0, 1)`. -/
def TapEnabled (time ratio : ℚ) : Prop :=
  0 < time ∧ time < 500 ∧ 0 < ratio ∧ ratio < 1

/-- The rule of the specification for one delay tap of a voice: the
configured ratio when the tap is enabled, ratio 0 and index 0 when not. -/
def TapRule (time ratio voiceRatio : ℚ) (voiceIndex : Int) : Prop :=
  (TapEnabled time ratio → voiceRatio = ratio) ∧
  (¬ TapEnabled time ratio → voiceRatio = 0 ∧ voiceIndex = 0)

/-- Every cell `0 .. delayBufferSize - 1` of the delay ring of a voice holds
a value in `[-1, 1]`. -/
def DelayBounded (sq : Sequencer) (tone : Tone) : Prop :=
  ∀ i : Int, 0 ≤ i → i < sq.delayBufferSize →
    -1 ≤ tone.delayBuffer i ∧ tone.delayBuffer i ≤ 1

/-- The write cursor and the three tap indices of a voice lie in
`[0, delayBufferSize)`, and tap `n` is `on` cells ahead of the cursor,
counted round the ring. -/
structure DelayCursors (sq : Sequencer) (tone : Tone) (o0 o1 o2 : Int) : Prop where
  cursor : 0 ≤ tone.delayBufferIndex ∧ tone.delayBufferIndex < sq.delayBufferSize
  tap0 : 0 ≤ tone.delay0Index ∧ tone.delay0Index < sq.delayBufferSize
  tap1 : 0 ≤ tone.delay1Index ∧ tone.delay1Index < sq.delayBufferSize
  tap2 : 0 ≤ tone.delay2Index ∧ tone.delay2Index < sq.delayBufferSize
  offset0 : (tone.delay0Index - tone.delayBufferIndex) % sq.delayBufferSize = o0
  offset1 : (tone.delay1Index - tone.delayBufferIndex) % sq.delayBufferSize = o1
  offset2 : (tone.delay2Index - tone.delayBufferIndex) % sq.delayBufferSize = o2

/-- The engine states the host can reach when each configuration it makes
has `0 < bufferSamples <= sampleRate`: `initParam` with such arguments from
any engine object, then any sequence of `incertNoteOn`, `incertNoteOff`,
`feed` (a call that returns, with any answers of the parser) and `smfUnload`. -/
inductive ReachableSized (env : FloatEnv) : Sequencer → Prop where
  | configure (sq0 : Sequencer) (rate time : ℚ) (samples : Int)
      (hpos : 0 < samples) (hle : (samples : ℚ) ≤ rate) :
      ReachableSized env (initParam env sq0 rate time samples)
  | noteOn {sq : Sequencer} (dic : NoteDic) :
      ReachableSized env sq → ReachableSized env (incertNoteOn env sq dic)
  | noteOff {sq : Sequencer} (dic : NoteDic) :
      ReachableSized env sq → ReachableSized env (incertNoteOff env sq dic)
  | render {sq sq' : Sequencer} (events : List Note) :
      ReachableSized env sq → (feed env sq events).2 = some sq' → ReachableSized env sq'
  | unload {sq : Sequencer} :
      ReachableSized env sq → ReachableSized env (smfUnload sq)

/-- The configuration fields the noise index is computed from. -/
structure NoiseConfig where
  samplingRate : ℚ
  bufferSamples : Int
  noiseBufSize : Int
  noiseBuffer : Int
  deriving DecidableEq

/-- The noise configuration of an engine state. -/
def noiseConfig (sq : Sequencer) : NoiseConfig :=
  { samplingRate := sq.samplingRate, bufferSamples := sq.bufferSamples,
    noiseBufSize := sq.noiseBufSize, noiseBuffer := sq.noiseBuffer }

/-- The frame counter is a valid row of the noise tables, which hold
`noiseBufSize` rows of `bufferSamples` cells. -/
structure NoiseIndexInv (sq : Sequencer) : Prop where
  samples : 0 < sq.bufferSamples
  size : sq.noiseBufSize = ⌊sq.samplingRate / (sq.bufferSamples : ℚ)⌋
  table : sq.noiseBuffer = sq.noiseBufSize * sq.bufferSamples
  frame : 0 ≤ sq.frameCount ∧ sq.frameCount < sq.noiseBufSize

/-- The engine configured at 44100 Hz with buffers of 512 samples. -/
def engine512 : Sequencer := initParam demoEnv (newSequencer demoEnv) 44100 (512 / 44100) 512

/-- The engine configured at 44100 Hz with buffers of 32 samples. -/
def engine32 : Sequencer := initParam demoEnv (newSequencer demoEnv) 44100 (32 / 44100) 32

/-- An environment for concrete runs whose power function is, for base 2,
exact at the integers and linear between them
(`2 ^ floor(x) * (1 + (x - floor(x)))`, within 7 percent of `2 ^ x`); for
another base it returns the base.  The other fields are those of `demoEnv`
(`PI = 355 / 113`, `sinf = 0`). -/
def octaveEnv : FloatEnv :=
  { demoEnv with
    powf := fun b x => if b = 2 then (2 : ℚ) ^ ⌊x⌋ * (1 + (x - (⌊x⌋ : ℚ))) else b }

/-- A dictionary within the documented ranges: FM depth 8400 cents, slope
times 10 msec, every other field 0. -/
def brightDic : InstrumentDic :=
  { constDic 0 0 with
    fmCentRange := 8400, atackSlopeTime := 10, decayHalfLifeTime := 10, releaseSlopeTime := 10 }

/-- The engine configured at 44100 Hz (buffers of 2205 samples) with the
instrument `setInstruments` stores for `brightDic` in every slot of the bank. -/
def brightEngine : Sequencer :=
  { initParam octaveEnv (newSequencer octaveEnv) 44100 (1 / 20) 2205 with
    instruments := fun _ => storeInstrument brightDic }

/-- The voice `checkNewNote` initialises in `brightEngine` from the free voice
`tone` for a held note-on of key 127 on channel 0. -/
def brightVoice (tone : Tone) : Tone :=
  allocTone octaveEnv brightEngine (demoNote NState.NS_ON_FOREVER 0 127 100 0) FLOAT_LONGTIME tone

/-- A dictionary within the documented ranges: FM rate 4096 Hz with phase
offset 1 (half a cycle), slope times 10 msec, every other field 0. -/
def halfRateDic : InstrumentDic :=
  { constDic 0 0 with
    fmFreq := 4096, fmPhaseOffset := 1, atackSlopeTime := 10, decayHalfLifeTime := 10,
    releaseSlopeTime := 10 }

/-- The engine configured at 8192 Hz (buffers of 512 samples) with the
instrument `setInstruments` stores for `halfRateDic` in every slot of the bank. -/
def halfRateEngine : Sequencer :=
  { initParam demoEnv (newSequencer demoEnv) 8192 (1 / 16) 512 with
    instruments := fun _ => storeInstrument halfRateDic }

/-- The voice `checkNewNote` initialises in `halfRateEngine` from the free
voice `tone` for a held note-on of key 60 on channel 0. -/
def halfRateVoice (tone : Tone) : Tone :=
  allocTone demoEnv halfRateEngine (demoNote NState.NS_ON_FOREVER 0 60 100 0) FLOAT_LONGTIME tone

/-- A dictionary within the documented ranges: decay half-life `2 ^ -20`
msec, attack and release slope times 10 msec, sustain rate `1 / 2`, every
other field 0. -/
def thinDecayDic : InstrumentDic :=
  { constDic 0 0 with
    atackSlopeTime := 10, decayHalfLifeTime := 1 / 1048576, releaseSlopeTime := 10,
    sustainRate := 1 / 2 }

/-- The configured engine (44100 Hz, buffers of 2205 samples) with the
instrument `setInstruments` stores for `thinDecayDic` in every slot of the
bank. -/
def thinDecayEngine : Sequencer :=
  { demoEngine with instruments := fun _ => storeInstrument thinDecayDic }

/-- The voice `checkNewNote` initialises in `thinDecayEngine` from the free
voice `tone` for a held note-on of key 60 on channel 0. -/
def thinDecayVoice (tone : Tone) : Tone :=
  allocTone demoEnv thinDecayEngine (demoNote NState.NS_ON_FOREVER 0 60 100 0) FLOAT_LONGTIME tone

/-- A dictionary within the documented ranges: release slope time `2 ^ -20`
msec, attack slope time and decay half-life 10 msec, sustain rate `1 / 2`,
first delay tap at 100 msec, every other field 0. -/
def thinReleaseDic : InstrumentDic :=
  { constDic 0 0 with
    atackSlopeTime := 10, decayHalfLifeTime := 10, releaseSlopeTime := 1 / 1048576,
    sustainRate := 1 / 2, delay0Time := 100 }

/-- The configured engine (44100 Hz, buffers of 2205 samples) with the
instrument `setInstruments` stores for `thinReleaseDic` in every slot of the
bank. -/
def thinReleaseEngine : Sequencer :=
  { demoEngine with instruments := fun _ => storeInstrument thinReleaseDic }

/-- The voice `checkNewNote` initialises in `thinReleaseEngine` from the free
voice `tone` for a held note-on of key 60 on channel 0 at time 0, after the
note-off branch of `checkNewNote` for the note-off of that key at 100 msec. -/
def thinReleaseVoice (tone : Tone) : Tone :=
  releaseTone { demoNote NState.NS_OFF 0 60 0 0 with startTime := 100 }
    (allocTone demoEnv thinReleaseEngine (demoNote NState.NS_ON_FOREVER 0 60 100 0)
      FLOAT_LONGTIME tone)

/-- A dictionary within the documented ranges: first delay tap at
`500 - 2 ^ -15` msec (the largest binary32 number below 500), slope times 10
msec, every other field 0. -/
def lateTapDic : InstrumentDic :=
  { constDic 0 0 with
    delay0Time := 16383999 / 32768, atackSlopeTime := 10, decayHalfLifeTime := 10,
    releaseSlopeTime := 10 }

/-- The engine configured at 32768 Hz (buffers of 2048 samples) with the
instrument `setInstruments` stores for `lateTapDic` in every slot of the
bank. -/
def lateTapEngine : Sequencer :=
  { initParam demoEnv (newSequencer demoEnv) 32768 (1 / 16) 2048 with
    instruments := fun _ => storeInstrument lateTapDic }

/-- The voice `checkNewNote` initialises in `lateTapEngine` from the free
voice `tone` for a held note-on of key 60 on channel 0. -/
def lateTapVoice (tone : Tone) : Tone :=
  allocTone demoEnv lateTapEngine (demoNote NState.NS_ON_FOREVER 0 60 100 0) FLOAT_LONGTIME tone

/-! ## Lemmas on the scalar helpers -/

theorem clampF_mem (a : ℚ) {lo hi : ℚ} (h : lo ≤ hi) :
    lo ≤ clampF a lo hi ∧ clampF a lo hi ≤ hi := by
  unfold clampF
  split_ifs with h1 h2
  · exact ⟨le_refl _, h⟩
  · exact ⟨h, le_refl _⟩
  · exact ⟨not_lt.mp h1, not_lt.mp h2⟩

theorem clampF_same (a v : ℚ) : clampF a v v = v := by
  have h := clampF_mem a (le_refl v)
  exact le_antisymm h.2 h.1

theorem clampF_of_mem {a lo hi : ℚ} (h1 : lo ≤ a) (h2 : a ≤ hi) : clampF a lo hi = a := by
  unfold clampF
  rw [if_neg (not_lt.mpr h1), if_neg (not_lt.mpr h2)]

theorem clampI_mem (v : Int) {lo hi : Int} (h : lo ≤ hi) :
    lo ≤ clampI v lo hi ∧ clampI v lo hi ≤ hi := by
  unfold clampI
  split_ifs with h1 h2 <;> omega

theorem clampI_of_mem {v lo hi : Int} (h1 : lo ≤ v) (h2 : v ≤ hi) : clampI v lo hi = v := by
  unfold clampI
  rw [if_neg (by omega), if_neg (by omega)]

theorem clampI_zero_one (v : Int) : clampI v 0 1 = 0 ∨ clampI v 0 1 = 1 := by
  have h := clampI_mem v (show (0 : Int) ≤ 1 by decide)
  omega

theorem storePhaseOffset_mem (x : ℚ) : 0 ≤ storePhaseOffset x ∧ storePhaseOffset x < 2 := by
  have h := clampF_mem x (show (0 : ℚ) ≤ 2 by norm_num)
  unfold storePhaseOffset
  simp only
  split_ifs with h2
  · norm_num
  · exact ⟨h.1, lt_of_le_of_ne h.2 h2⟩

/-- Every instrument `setInstruments` stores lies within the documented
bounds, whatever the dictionary holds. -/
theorem storeInstrument_inBounds (dic : InstrumentDic) :
    InstrumentInBounds (storeInstrument dic) where
  totalGain := clampF_mem _ (by norm_num)
  sustainRate := clampF_mem _ (by norm_num)
  baseVsOthersRatio := clampF_mem _ (by norm_num)
  side1VsSide2Ratio := clampF_mem _ (by norm_num)
  noiseRatio := clampF_mem _ (by norm_num)
  amLevel := clampF_mem _ (by norm_num)
  atackSlopeTime := clampF_mem _ (by norm_num)
  decayHalfLifeTime := clampF_mem _ (by norm_num)
  releaseSlopeTime := clampF_mem _ (by norm_num)
  baseOffsetCent1 := clampF_mem _ (by norm_num)
  baseOffsetCent2 := clampF_mem _ (by norm_num)
  baseOffsetCent3 := clampF_mem _ (by norm_num)
  freqNoiseCentRange := clampF_mem _ (by norm_num)
  fmCentRange := clampF_mem _ (by norm_num)
  delay0Time := clampF_mem _ (by norm_num)
  delay1Time := clampF_mem _ (by norm_num)
  delay2Time := clampF_mem _ (by norm_num)
  delay0Ratio := by
    show 0 ≤ clampF _ (2 / 10) (2 / 10) ∧ clampF _ (2 / 10) (2 / 10) < 1
    rw [clampF_same]; norm_num
  delay1Ratio := by
    show 0 ≤ clampF _ (2 / 10) (2 / 10) ∧ clampF _ (2 / 10) (2 / 10) < 1
    rw [clampF_same]; norm_num
  delay2Ratio := by
    show 0 ≤ clampF _ (2 / 10) (2 / 10) ∧ clampF _ (2 / 10) (2 / 10) < 1
    rw [clampF_same]; norm_num
  fmFreq := clampF_mem _ (by norm_num)
  amFreq := clampF_mem _ (by norm_num)
  fmPhaseOffset := storePhaseOffset_mem _
  amPhaseOffset := storePhaseOffset_mem _
  fmSync := clampI_zero_one _
  amSync := clampI_zero_one _
  baseWave1 := clampI_mem _ (by decide)
  baseWave2 := clampI_mem _ (by decide)
  baseWave3 := clampI_mem _ (by decide)
  fmWave := clampI_mem _ (by decide)
  amWave := clampI_mem _ (by decide)
  noiseColorType := clampI_mem _ (by decide)
  freqNoiseType := clampI_mem _ (by decide)

/-! ## The instrument and percussion tables -/

/-- The loop of `setInstruments` over `0 .. n - 1`, for an array with at
least `n` entries: it completes, slot `i < n` holds the stored form of
`array[i]`, and the slots outside `0 .. n - 1` are as before. -/
theorem setInstruments_fold (array : List InstrumentDic) (sq : Sequencer) (n : Nat)
    (hn : n ≤ array.length) :
    ∃ sq', (List.range n).foldlM (setInstrumentsStep array) sq = some sq' ∧
      (∀ (i : Nat) (h : i < array.length), i < n →
        sq'.instruments (i : Int) = storeInstrument (array.get ⟨i, h⟩)) ∧
      (∀ j : Int, (j < 0 ∨ (n : Int) ≤ j) → sq'.instruments j = sq.instruments j) := by
  induction n with
  | zero => exact ⟨sq, rfl, fun i _ hi => absurd hi (Nat.not_lt_zero i), fun _ _ => rfl⟩
  | succ n ih =>
    obtain ⟨s1, hs1, hin, hout⟩ := ih (Nat.le_of_succ_le hn)
    have hlt : n < array.length := hn
    have hget : array[n]? = some (array.get ⟨n, hlt⟩) := List.getElem?_eq_getElem hlt
    refine ⟨{ s1 with instruments :=
        Function.update s1.instruments (n : Int) (storeInstrument (array.get ⟨n, hlt⟩)) }, ?_, ?_, ?_⟩
    · rw [List.range_succ, List.foldlM_append, hs1]
      simp only [setInstrumentsStep, hget, List.foldlM_cons, List.foldlM_nil, Option.some_bind,
        Option.bind_eq_bind, pure, bind_pure]
    · intro i h hi
      by_cases hin' : i = n
      · subst hin'
        simp
      · have hne : (i : Int) ≠ (n : Int) := by exact_mod_cast hin'
        have hi' : i < n := by omega
        simp only [Function.update_noteq hne]
        exact hin i h hi'
    · intro j hj
      have hne : j ≠ (n : Int) := by omega
      simp only [Function.update_noteq hne]
      exact hout j (by omega)

/-- A loop of `setInstruments` that meets an index past the end of the array
does not complete. -/
theorem setInstruments_fold_none (array : List InstrumentDic) (i : Nat)
    (hi : array.length ≤ i) (l : List Nat) (hl : i ∈ l) (sq : Sequencer) :
    l.foldlM (setInstrumentsStep array) sq = none := by
  induction l generalizing sq with
  | nil => cases hl
  | cons a l ih =>
    rw [List.foldlM_cons]
    cases hget : array[a]? with
    | none => simp only [setInstrumentsStep, hget, Option.none_bind, Option.bind_eq_bind]
    | some dic =>
      have hne : i ≠ a := by
        intro h
        subst h
        rw [List.getElem?_eq_none hi] at hget
        cases hget
      have hl' : i ∈ l := by
        rcases List.mem_cons.mp hl with h | h
        · exact absurd h hne
        · exact h
      simp only [setInstrumentsStep, hget, Option.some_bind, Option.bind_eq_bind]
      exact ih hl' _

/-- The same for the loop of `setPercussions`. -/
theorem setPercussions_fold_none (array : List PercussionDic) (i : Nat)
    (hi : array.length ≤ i) (l : List Nat) (hl : i ∈ l) (sq : Sequencer) :
    l.foldlM (setPercussionsStep array) sq = none := by
  induction l generalizing sq with
  | nil => cases hl
  | cons a l ih =>
    rw [List.foldlM_cons]
    cases hget : array[a]? with
    | none => simp only [setPercussionsStep, hget, Option.none_bind, Option.bind_eq_bind]
    | some dic =>
      have hne : i ≠ a := by
        intro h
        subst h
        rw [List.getElem?_eq_none hi] at hget
        cases hget
      have hl' : i ∈ l := by
        rcases List.mem_cons.mp hl with h | h
        · exact absurd h hne
        · exact h
      simp only [setPercussionsStep, hget, Option.some_bind, Option.bind_eq_bind]
      exact ih hl' _

/-- With fewer than 256 entries `setInstruments` does not complete. -/
theorem setInstruments_short (array : List InstrumentDic) (h : array.length < 256)
    (sq : Sequencer) : setInstruments array sq = none :=
  setInstruments_fold_none array array.length (le_refl _) _ (List.mem_range.mpr h) sq

/-- With fewer than 128 entries `setPercussions` does not complete. -/
theorem setPercussions_short (array : List PercussionDic) (h : array.length < 128)
    (sq : Sequencer) : setPercussions array sq = none :=
  setPercussions_fold_none array array.length (le_refl _) _ (List.mem_range.mpr h) sq

/-- With at least 256 entries `setInstruments` completes and every slot
`0 .. 255` holds the stored form of some dictionary. -/
theorem setInstruments_stored (array : List InstrumentDic) (sq : Sequencer)
    (h : 256 ≤ array.length) :
    ∃ sq', setInstruments array sq = some sq' ∧
      ∀ i : Int, 0 ≤ i → i < 256 → ∃ dic ∈ array, sq'.instruments i = storeInstrument dic := by
  obtain ⟨sq', hs, hin, _⟩ := setInstruments_fold array sq 256 h
  refine ⟨sq', hs, fun i h0 h1 => ?_⟩
  have hlt : i.toNat < array.length := by omega
  refine ⟨array.get ⟨i.toNat, hlt⟩, List.get_mem _ _ _, ?_⟩
  have := hin i.toNat hlt (by omega)
  rwa [Int.toNat_of_nonneg h0] at this

/-- Every dictionary `getInstruments` returns transcribes one of the slots
`0 .. 255`. -/
theorem getInstruments_mem (sq : Sequencer) (dic : InstrumentDic)
    (h : dic ∈ getInstruments sq) :
    ∃ i : Int, 0 ≤ i ∧ i < 256 ∧ dic = instrumentToDic (sq.instruments i) := by
  unfold getInstruments at h
  obtain ⟨n, hn, rfl⟩ := List.mem_map.mp h
  have := List.mem_range.mp hn
  exact ⟨(n : Int), by omega, by omega, rfl⟩

theorem storePhaseOffset_of_mem {x : ℚ} (h0 : 0 ≤ x) (h2 : x < 2) : storePhaseOffset x = x := by
  unfold storePhaseOffset
  simp only [clampF_of_mem h0 (le_of_lt h2)]
  rw [if_neg (ne_of_lt h2)]

/-- For a dictionary within the documented ranges, what `getInstruments`
returns for the slot `setInstruments` stored it in is the dictionary itself
with the three delay ratios replaced by `0.2`. -/
theorem instrumentToDic_storeInstrument (dic : InstrumentDic) (h : DicInRange dic) :
    instrumentToDic (storeInstrument dic)
      = { dic with delay0Ratio := 2 / 10, delay1Ratio := 2 / 10, delay2Ratio := 2 / 10 } := by
  have e0 : clampF dic.totalGain 0 1 = dic.totalGain :=
    clampF_of_mem h.totalGain.1 h.totalGain.2
  have e1 : clampF dic.atackSlopeTime 0 5000 = dic.atackSlopeTime :=
    clampF_of_mem h.atackSlopeTime.1 h.atackSlopeTime.2
  have e2 : clampF dic.decayHalfLifeTime 0 5000 = dic.decayHalfLifeTime :=
    clampF_of_mem h.decayHalfLifeTime.1 h.decayHalfLifeTime.2
  have e3 : clampF dic.sustainRate 0 1 = dic.sustainRate :=
    clampF_of_mem h.sustainRate.1 h.sustainRate.2
  have e4 : clampF dic.releaseSlopeTime 0 5000 = dic.releaseSlopeTime :=
    clampF_of_mem h.releaseSlopeTime.1 h.releaseSlopeTime.2
  have e5 : clampF dic.baseVsOthersRatio 0 1 = dic.baseVsOthersRatio :=
    clampF_of_mem h.baseVsOthersRatio.1 h.baseVsOthersRatio.2
  have e6 : clampF dic.side1VsSide2Ratio 0 1 = dic.side1VsSide2Ratio :=
    clampF_of_mem h.side1VsSide2Ratio.1 h.side1VsSide2Ratio.2
  have e7 : clampF dic.baseOffsetCent1 (-8400) 8400 = dic.baseOffsetCent1 :=
    clampF_of_mem h.baseOffsetCent1.1 h.baseOffsetCent1.2
  have e8 : clampF dic.baseOffsetCent2 (-8400) 8400 = dic.baseOffsetCent2 :=
    clampF_of_mem h.baseOffsetCent2.1 h.baseOffsetCent2.2
  have e9 : clampF dic.baseOffsetCent3 (-8400) 8400 = dic.baseOffsetCent3 :=
    clampF_of_mem h.baseOffsetCent3.1 h.baseOffsetCent3.2
  have e10 : clampF dic.noiseRatio 0 1 = dic.noiseRatio :=
    clampF_of_mem h.noiseRatio.1 h.noiseRatio.2
  have e11 : clampF dic.delay0Time 0 500 = dic.delay0Time :=
    clampF_of_mem h.delay0Time.1 h.delay0Time.2
  have e12 : clampF dic.delay1Time 0 500 = dic.delay1Time :=
    clampF_of_mem h.delay1Time.1 h.delay1Time.2
  have e13 : clampF dic.delay2Time 0 500 = dic.delay2Time :=
    clampF_of_mem h.delay2Time.1 h.delay2Time.2
  have e14 : clampF dic.freqNoiseCentRange (-8400) 8400 = dic.freqNoiseCentRange :=
    clampF_of_mem h.freqNoiseCentRange.1 h.freqNoiseCentRange.2
  have e15 : clampF dic.fmCentRange (-8400) 8400 = dic.fmCentRange :=
    clampF_of_mem h.fmCentRange.1 h.fmCentRange.2
  have e16 : clampF dic.fmFreq 0 7040 = dic.fmFreq :=
    clampF_of_mem h.fmFreq.1 h.fmFreq.2
  have e17 : clampF dic.amLevel 0 1 = dic.amLevel :=
    clampF_of_mem h.amLevel.1 h.amLevel.2
  have e18 : clampF dic.amFreq 0 7040 = dic.amFreq :=
    clampF_of_mem h.amFreq.1 h.amFreq.2
  have i0 : clampI dic.baseWave1 0 (WAVE_TAIL - 1) = dic.baseWave1 :=
    clampI_of_mem h.baseWave1.1 h.baseWave1.2
  have i1 : clampI dic.baseWave2 0 (WAVE_TAIL - 1) = dic.baseWave2 :=
    clampI_of_mem h.baseWave2.1 h.baseWave2.2
  have i2 : clampI dic.baseWave3 0 (WAVE_TAIL - 1) = dic.baseWave3 :=
    clampI_of_mem h.baseWave3.1 h.baseWave3.2
  have i3 : clampI dic.fmWave 0 (WAVE_TAIL - 1) = dic.fmWave :=
    clampI_of_mem h.fmWave.1 h.fmWave.2
  have i4 : clampI dic.amWave 0 (WAVE_TAIL - 1) = dic.amWave :=
    clampI_of_mem h.amWave.1 h.amWave.2
  have i5 : clampI dic.noiseColorType 0 (NOISECTYPE_TAIL - 1) = dic.noiseColorType :=
    clampI_of_mem h.noiseColorType.1 h.noiseColorType.2
  have i6 : clampI dic.freqNoiseType 0 (NOISEDTYPE_TAIL - 1) = dic.freqNoiseType :=
    clampI_of_mem h.freqNoiseType.1 h.freqNoiseType.2
  have s0 : clampI dic.fmSync 0 1 = dic.fmSync := by
    have hs : dic.fmSync = 0 ∨ dic.fmSync = 1 := h.fmSync
    exact clampI_of_mem (by omega) (by omega)
  have s1 : clampI dic.amSync 0 1 = dic.amSync := by
    have hs : dic.amSync = 0 ∨ dic.amSync = 1 := h.amSync
    exact clampI_of_mem (by omega) (by omega)
  have p0 : storePhaseOffset dic.fmPhaseOffset = dic.fmPhaseOffset :=
    storePhaseOffset_of_mem h.fmPhaseOffset.1 h.fmPhaseOffset.2
  have p1 : storePhaseOffset dic.amPhaseOffset = dic.amPhaseOffset :=
    storePhaseOffset_of_mem h.amPhaseOffset.1 h.amPhaseOffset.2
  simp only [instrumentToDic, storeInstrument, clampF_same, e0, e1, e2, e3, e4, e5, e6, e7, e8, e9, e10, e11, e12, e13, e14, e15, e16, e17, e18, i0, i1, i2, i3, i4, i5, i6, s0, s1, p0, p1]

/-- C5. For every array of 256 instrument dictionaries, whatever values they
hold, `setInstruments` completes and every slot `0 .. 255` of the table then
lies within the documented bounds: gains and ratios in `[0,1]`, slope times
in `[0,5000]`, cent offsets in `[-8400,8400]`, delay times in `[0,500]`,
delay ratios in `[0,1)`, modulator rates in `[0,7040]`, phase offsets in
`[0,2)`, sync flags 0 or 1, waves in `0..4`, noise colour in `0..1` and
noise distribution in `0..2`. -/
theorem setInstruments_within_bounds (array : List InstrumentDic) (sq : Sequencer)
    (h : array.length = 256) :
    ∃ sq', setInstruments array sq = some sq' ∧
      ∀ i : Int, 0 ≤ i → i < 256 → InstrumentInBounds (sq'.instruments i) := by
  obtain ⟨sq', hs, hst⟩ := setInstruments_stored array sq (le_of_eq h.symm)
  refine ⟨sq', hs, fun i h0 h1 => ?_⟩
  obtain ⟨dic, _, hd⟩ := hst i h0 h1
  rw [hd]
  exact storeInstrument_inBounds dic

/-- The instance of C5 at 256 dictionaries whose every field is far out of
range. -/
theorem setInstruments_within_bounds_witness :
    (List.replicate 256 (constDic 99999 99)).length = 256 ∧
    ∃ sq', setInstruments (List.replicate 256 (constDic 99999 99)) (newSequencer demoEnv)
        = some sq' ∧
      ∀ i : Int, 0 ≤ i → i < 256 → InstrumentInBounds (sq'.instruments i) :=
  ⟨List.length_replicate _ _,
   setInstruments_within_bounds _ _ (List.length_replicate _ _)⟩

/-- C6, evaluated at a failing input.  The 256 dictionaries `constDic (1/2) 0`
lie within the documented ranges (each delay ratio is `1/2`), `setInstruments`
completes on them, and every dictionary `getInstruments` then returns has
`delay0Ratio`, `delay1Ratio` and `delay2Ratio` equal to `0.2`: the array
read back differs from the array supplied. -/
theorem getInstruments_after_set_delay_ratio :
    DicInRange (constDic (1 / 2) 0) ∧
    ∃ sq', setInstruments (List.replicate 256 (constDic (1 / 2) 0)) (newSequencer demoEnv)
        = some sq' ∧
      (∀ dic ∈ getInstruments sq',
        dic.delay0Ratio = 2 / 10 ∧ dic.delay1Ratio = 2 / 10 ∧ dic.delay2Ratio = 2 / 10) ∧
      getInstruments sq' ≠ List.replicate 256 (constDic (1 / 2) 0) := by
  refine ⟨?_, ?_⟩
  · unfold DicInRange constDic
    constructor <;> norm_num
  · obtain ⟨sq', hs, hst⟩ := setInstruments_stored (List.replicate 256 (constDic (1 / 2) 0))
      (newSequencer demoEnv) (by rw [List.length_replicate])
    have key : ∀ dic ∈ getInstruments sq',
        dic.delay0Ratio = 2 / 10 ∧ dic.delay1Ratio = 2 / 10 ∧ dic.delay2Ratio = 2 / 10 := by
      intro dic hd
      obtain ⟨i, h0, h1, rfl⟩ := getInstruments_mem sq' dic hd
      obtain ⟨d, _, hi⟩ := hst i h0 h1
      rw [hi]
      exact ⟨clampF_same _ _, clampF_same _ _, clampF_same _ _⟩
    refine ⟨sq', hs, key, fun heq => ?_⟩
    have hmem : constDic (1 / 2) 0 ∈ getInstruments sq' := by
      rw [heq]
      exact List.mem_replicate.mpr ⟨by decide, rfl⟩
    have := (key _ hmem).1
    norm_num [constDic] at this

/-- C7, evaluated at failing inputs.  Given 255 instrument dictionaries (or
127 percussion dictionaries) the loop still runs to index 255 (or 127) and
reads past the end of the array: the call does not complete, whatever the
engine state. -/
theorem set_tables_short_array (sq : Sequencer) :
    setInstruments (List.replicate 255 (constDic 0 0)) sq = none ∧
    setPercussions (List.replicate 127 { program := 0, key := 0 }) sq = none :=
  ⟨setInstruments_short _ (by rw [List.length_replicate]; decide) sq,
   setPercussions_short _ (by rw [List.length_replicate]; decide) sq⟩

/-! ## The note router -/

theorem isRinging_iff (oneNote : Note) (tone : Tone) :
    isRinging oneNote tone = true ↔
      (tone.note.key = oneNote.key ∧ tone.note.channel = oneNote.channel
        ∧ tone.note.state ≠ NState.NS_OFF) := by
  simp only [isRinging, Bool.and_eq_true, beq_iff_eq, bne_iff_ne, ne_eq, and_assoc]
  constructor
  · rintro ⟨h1, h2, h3⟩
    exact ⟨h1.symm, h2.symm, h3⟩
  · rintro ⟨h1, h2, h3⟩
    exact ⟨h1.symm, h2.symm, h3⟩

theorem releaseFirst_length (oneNote : Note) (l : List Tone) :
    (releaseFirst oneNote l).length = l.length := by
  induction l with
  | nil => rfl
  | cons t l ih =>
    unfold releaseFirst
    split_ifs
    · rfl
    · simp only [List.length_cons, ih]

/-- In a list with a ringing voice, `find_if` stops at the first one and
the note-off branch replaces exactly that element. -/
theorem releaseFirst_split (oneNote : Note) (l : List Tone)
    (h : ∃ t ∈ l, isRinging oneNote t = true) :
    ∃ pre t post, l = pre ++ t :: post ∧ (∀ u ∈ pre, isRinging oneNote u = false) ∧
      isRinging oneNote t = true ∧ l.find? (isRinging oneNote) = some t ∧
      releaseFirst oneNote l = pre ++ releaseTone oneNote t :: post := by
  induction l with
  | nil =>
    obtain ⟨t, ht, _⟩ := h
    cases ht
  | cons a l ih =>
    by_cases ha : isRinging oneNote a = true
    · refine ⟨[], a, l, rfl, (fun u hu => by cases hu), ha, ?_, ?_⟩
      · simp only [List.find?_cons, ha]
      · simp only [releaseFirst, ha, if_true, List.nil_append]
    · have ha' : isRinging oneNote a = false := by simpa using ha
      have h' : ∃ t ∈ l, isRinging oneNote t = true := by
        obtain ⟨t, ht, hr⟩ := h
        rcases List.mem_cons.mp ht with rfl | ht'
        · exact absurd hr ha
        · exact ⟨t, ht', hr⟩
      obtain ⟨pre, t, post, hl, hpre, ht, hfind, hrel⟩ := ih h'
      refine ⟨a :: pre, t, post, by rw [hl]; rfl, ?_, ht, ?_, ?_⟩
      · intro u hu
        rcases List.mem_cons.mp hu with rfl | hu'
        · exact ha'
        · exact hpre u hu'
      · simp only [List.find?_cons, ha', hfind]
      · simp only [releaseFirst, ha', hrel, List.cons_append, Bool.false_eq_true, if_false]

/-- A note whose state is not `NS_OFF`, with a free voice: the first free
voice is initialised and appended to the active list, one allocation signal
is emitted, and the result is `true`. -/
theorem checkNewNote_alloc (env : FloatEnv) (sq : Sequencer) (oneNote : Note)
    (tone : Tone) (rest : List Tone)
    (hstate : oneNote.state ≠ NState.NS_OFF) (hfree : sq.freeTones = tone :: rest) :
    checkNewNote env sq oneNote =
      ({ sq with
          activeTones := sq.activeTones ++
            [allocTone env sq oneNote
              (if oneNote.state = NState.NS_ON_FOREVER then FLOAT_LONGTIME else 0) tone]
          freeTones := rest
          signals := sq.signals ++
            [noteSignal 1 (allocSelected env sq oneNote
              (if oneNote.state = NState.NS_ON_FOREVER then FLOAT_LONGTIME else 0) tone)] },
        true) := by
  unfold checkNewNote
  simp only [if_neg hstate]
  rw [hfree]

/-- A note whose state is not `NS_OFF`, with no free voice: nothing changes
and the result is `false`. -/
theorem checkNewNote_full (env : FloatEnv) (sq : Sequencer) (oneNote : Note)
    (hstate : oneNote.state ≠ NState.NS_OFF) (hfree : sq.freeTones = []) :
    checkNewNote env sq oneNote = (sq, false) := by
  unfold checkNewNote
  simp only [if_neg hstate]
  rw [hfree]

theorem allocSlopes_program (sq : Sequencer) (t : Tone) : (allocSlopes sq t).program = t.program := rfl

theorem allocSlopes_key (sq : Sequencer) (t : Tone) : (allocSlopes sq t).key = t.key := rfl

theorem allocSlopes_instrument (sq : Sequencer) (t : Tone) : (allocSlopes sq t).instrument = t.instrument := rfl

theorem allocSlopes_note (sq : Sequencer) (t : Tone) : (allocSlopes sq t).note = t.note := rfl

theorem allocDelay_program (sq : Sequencer) (t : Tone) : (allocDelay sq t).program = t.program := rfl

theorem allocDelay_key (sq : Sequencer) (t : Tone) : (allocDelay sq t).key = t.key := rfl

theorem allocDelay_instrument (sq : Sequencer) (t : Tone) : (allocDelay sq t).instrument = t.instrument := rfl

theorem allocDelay_note (sq : Sequencer) (t : Tone) : (allocDelay sq t).note = t.note := rfl

theorem allocIncrements_program (env : FloatEnv) (sq : Sequencer) (t : Tone) : (allocIncrements env sq t).program = t.program := rfl

theorem allocIncrements_key (env : FloatEnv) (sq : Sequencer) (t : Tone) : (allocIncrements env sq t).key = t.key := rfl

theorem allocIncrements_instrument (env : FloatEnv) (sq : Sequencer) (t : Tone) : (allocIncrements env sq t).instrument = t.instrument := rfl

theorem allocIncrements_note (env : FloatEnv) (sq : Sequencer) (t : Tone) : (allocIncrements env sq t).note = t.note := rfl

theorem allocModulation_program (env : FloatEnv) (sq : Sequencer) (t : Tone) : (allocModulation env sq t).program = t.program := rfl

theorem allocModulation_key (env : FloatEnv) (sq : Sequencer) (t : Tone) : (allocModulation env sq t).key = t.key := rfl

theorem allocModulation_instrument (env : FloatEnv) (sq : Sequencer) (t : Tone) : (allocModulation env sq t).instrument = t.instrument := rfl

theorem allocModulation_note (env : FloatEnv) (sq : Sequencer) (t : Tone) : (allocModulation env sq t).note = t.note := rfl

theorem allocGains_program (sq : Sequencer) (t : Tone) : (allocGains sq t).program = t.program := rfl

theorem allocGains_key (sq : Sequencer) (t : Tone) : (allocGains sq t).key = t.key := rfl

theorem allocGains_instrument (sq : Sequencer) (t : Tone) : (allocGains sq t).instrument = t.instrument := rfl

theorem allocGains_note (sq : Sequencer) (t : Tone) : (allocGains sq t).note = t.note := rfl

theorem allocRealKeys_program (t : Tone) : (allocRealKeys t).program = t.program := rfl

theorem allocRealKeys_key (t : Tone) : (allocRealKeys t).key = t.key := rfl

theorem allocRealKeys_instrument (t : Tone) : (allocRealKeys t).instrument = t.instrument := rfl

theorem allocRealKeys_note (t : Tone) : (allocRealKeys t).note = t.note := rfl

theorem allocTone_program (env : FloatEnv) (sq : Sequencer) (n : Note) (d : ℚ) (t : Tone) :
    (allocTone env sq n d t).program
      = (selectInstrument env sq n (allocInit env sq n d t)).program := by
  unfold allocTone allocSelected
  rw [allocSlopes_program, allocDelay_program, allocIncrements_program, allocModulation_program, allocGains_program,
    allocRealKeys_program]

theorem allocTone_key (env : FloatEnv) (sq : Sequencer) (n : Note) (d : ℚ) (t : Tone) :
    (allocTone env sq n d t).key
      = (selectInstrument env sq n (allocInit env sq n d t)).key := by
  unfold allocTone allocSelected
  rw [allocSlopes_key, allocDelay_key, allocIncrements_key, allocModulation_key, allocGains_key,
    allocRealKeys_key]

theorem allocTone_instrument (env : FloatEnv) (sq : Sequencer) (n : Note) (d : ℚ) (t : Tone) :
    (allocTone env sq n d t).instrument
      = (selectInstrument env sq n (allocInit env sq n d t)).instrument := by
  unfold allocTone allocSelected
  rw [allocSlopes_instrument, allocDelay_instrument, allocIncrements_instrument, allocModulation_instrument, allocGains_instrument,
    allocRealKeys_instrument]

theorem allocTone_note (env : FloatEnv) (sq : Sequencer) (n : Note) (d : ℚ) (t : Tone) :
    (allocTone env sq n d t).note
      = (selectInstrument env sq n (allocInit env sq n d t)).note := by
  unfold allocTone allocSelected
  rw [allocSlopes_note, allocDelay_note, allocIncrements_note, allocModulation_note, allocGains_note,
    allocRealKeys_note]

/-- The instrument selection for a channel in `0 .. 127`, against the rule of
the specification. -/
theorem selectInstrument_valid (env : FloatEnv) (sq : Sequencer) (n : Note) (d : ℚ) (t : Tone)
    (hch : 0 ≤ n.channel ∧ n.channel ≤ 127) :
    (selectInstrument env sq n (allocInit env sq n d t)).program = (resolvedProgramKey sq n).1 ∧
    (selectInstrument env sq n (allocInit env sq n d t)).key = (resolvedProgramKey sq n).2 ∧
    (selectInstrument env sq n (allocInit env sq n d t)).instrument
      = sq.instruments (resolvedProgramKey sq n).1 := by
  have hguard : ¬ (n.channel > 127 ∨ n.channel < 0) := by omega
  unfold selectInstrument resolvedProgramKey
  simp only [allocInit, if_neg hguard]
  by_cases h1 : n.channel = 9 ∨ n.channel = 25
  · simp only [if_pos h1, and_self]
  · simp only [if_neg h1]
    by_cases h2 : n.program ≥ 112 ∧ n.program < 128
    · have h2' : 112 ≤ n.program ∧ n.program ≤ 127 := by omega
      simp only [if_pos h2, if_pos h2', and_self]
    · have h2' : ¬ (112 ≤ n.program ∧ n.program ≤ 127) := by omega
      simp only [if_neg h2, if_neg h2', and_self]

/-- The instrument selection for a channel outside `0 .. 127`. -/
theorem selectInstrument_guard (env : FloatEnv) (sq : Sequencer) (n : Note) (d : ℚ) (t : Tone)
    (hch : n.channel > 127 ∨ n.channel < 0) :
    (selectInstrument env sq n (allocInit env sq n d t)).program = 0 ∧
    (selectInstrument env sq n (allocInit env sq n d t)).instrument = sq.instruments 0 ∧
    (selectInstrument env sq n (allocInit env sq n d t)).note.velocity = 0 := by
  unfold selectInstrument
  simp only [allocInit, if_pos hch, and_self]

/-- The instrument selection for a channel in `0 .. 127` leaves the copied
note (and so its velocity) as it is. -/
theorem selectInstrument_valid_note (env : FloatEnv) (sq : Sequencer) (n : Note) (d : ℚ)
    (t : Tone) (hch : 0 ≤ n.channel ∧ n.channel ≤ 127) :
    (selectInstrument env sq n (allocInit env sq n d t)).note = n := by
  have hguard : ¬ (n.channel > 127 ∨ n.channel < 0) := by omega
  unfold selectInstrument
  simp only [allocInit, if_neg hguard]
  split_ifs <;> rfl

theorem checkNewNote_pool (env : FloatEnv) (sq : Sequencer) (oneNote : Note) :
    (checkNewNote env sq oneNote).1.freeTones.length
        + (checkNewNote env sq oneNote).1.activeTones.length
      = sq.freeTones.length + sq.activeTones.length := by
  by_cases hstate : oneNote.state = NState.NS_OFF
  · unfold checkNewNote
    simp only [if_pos hstate]
    cases sq.activeTones.find? (isRinging oneNote) with
    | none => rfl
    | some t => simp only [releaseFirst_length]
  · cases hfree : sq.freeTones with
    | nil => rw [checkNewNote_full env sq oneNote hstate hfree, hfree]
    | cons tone rest =>
      rw [checkNewNote_alloc env sq oneNote tone rest hstate hfree]
      simp only [List.length_append, List.length_cons, List.length_nil]
      omega

/-! ## The render step -/

theorem toInt32_of_nonneg {x : ℚ} (h : 0 ≤ x) : toInt32 x = ⌊x⌋ := by
  unfold toInt32
  rw [Int.tdiv_eq_ediv (Rat.num_nonneg.mpr h) (Int.ofNat_nonneg _)]
  exact (Rat.floor_def' x).symm

theorem toneSamples_length (env : FloatEnv) (sq : Sequencer) (k : FeedConst) (frame : List ℚ) :
    ∀ (i : Int) (current m : ℚ) (tone : Tone),
      (toneSamples env sq k i current m tone frame).frame.length = frame.length := by
  induction frame with
  | nil => intro i current m tone; rfl
  | cons x rest ih =>
    intro i current m tone
    rw [toneSamples]
    simp only
    split_ifs with h
    · rfl
    · cases envelopeStep sq k (restartStep tone current) current with
      | none => simp only [List.length_cons, ih]
      | some t2 => simp only [List.length_cons, ih]

/-- The sample loop of a voice keeps every cell of the frame in `[-1, 1]`:
a cell it visits is left unchanged or is the result of the final clamp. -/
theorem toneSamples_range (env : FloatEnv) (sq : Sequencer) (k : FeedConst) (frame : List ℚ) :
    ∀ (i : Int) (current m : ℚ) (tone : Tone), (∀ x ∈ frame, -1 ≤ x ∧ x ≤ 1) →
      ∀ x ∈ (toneSamples env sq k i current m tone frame).frame, -1 ≤ x ∧ x ≤ 1 := by
  induction frame with
  | nil =>
    intro i current m tone _ x hx
    cases hx
  | cons a rest ih =>
    intro i current m tone hframe
    have hrest : ∀ x ∈ rest, -1 ≤ x ∧ x ≤ 1 := fun x hx => hframe x (List.mem_cons_of_mem _ hx)
    rw [toneSamples]
    simp only
    split_ifs with h
    · exact hframe
    · cases envelopeStep sq k (restartStep tone current) current with
      | none =>
        intro x hx
        rcases List.mem_cons.mp hx with rfl | hx'
        · exact hframe _ (List.mem_cons_self _ _)
        · exact ih _ _ _ _ hrest x hx'
      | some t2 =>
        intro x hx
        rcases List.mem_cons.mp hx with rfl | hx'
        · exact clampF_mem _ (by norm_num)
        · exact ih _ _ _ _ hrest x hx'

theorem feedTones_length (env : FloatEnv) (sq : Sequencer) (k : FeedConst) (tones : List Tone) :
    ∀ (free : List Tone) (frame : List ℚ) (maxValue : ℚ) (signals : List Signal),
      (feedTones env sq k tones free frame maxValue signals).frame.length = frame.length := by
  induction tones with
  | nil => intro free frame maxValue signals; rfl
  | cons tone rest ih =>
    intro free frame maxValue signals
    have hl := toneSamples_length env sq k frame 0 (tone.passed : ℚ) 0 tone
    rw [feedTones]
    simp only
    generalize toneSamples env sq k 0 (tone.passed : ℚ) 0 tone frame = r at hl ⊢
    split_ifs <;> simp only [ih, hl]

theorem feedTones_range (env : FloatEnv) (sq : Sequencer) (k : FeedConst) (tones : List Tone) :
    ∀ (free : List Tone) (frame : List ℚ) (maxValue : ℚ) (signals : List Signal),
      (∀ x ∈ frame, -1 ≤ x ∧ x ≤ 1) →
      ∀ x ∈ (feedTones env sq k tones free frame maxValue signals).frame, -1 ≤ x ∧ x ≤ 1 := by
  induction tones with
  | nil => intro free frame maxValue signals h; exact h
  | cons tone rest ih =>
    intro free frame maxValue signals hframe
    have h1 := toneSamples_range env sq k frame 0 (tone.passed : ℚ) 0 tone hframe
    rw [feedTones]
    simp only
    generalize toneSamples env sq k 0 (tone.passed : ℚ) 0 tone frame = r at h1 ⊢
    split_ifs <;> exact ih _ _ _ _ h1

/-- The loop over the active voices moves voices from the active list to the
free list and loses or adds none. -/
theorem feedTones_pool (env : FloatEnv) (sq : Sequencer) (k : FeedConst) (tones : List Tone) :
    ∀ (free : List Tone) (frame : List ℚ) (maxValue : ℚ) (signals : List Signal),
      (feedTones env sq k tones free frame maxValue signals).freeTones.length
        + (feedTones env sq k tones free frame maxValue signals).activeTones.length
        = free.length + tones.length := by
  induction tones with
  | nil => intro free frame maxValue signals; rfl
  | cons tone rest ih =>
    intro free frame maxValue signals
    rw [feedTones]
    simp only
    generalize toneSamples env sq k 0 (tone.passed : ℚ) 0 tone frame = r
    split_ifs <;>
      first
        | (rw [ih]
           simp only [List.length_append, List.length_cons, List.length_nil]
           omega)
        | (simp only [List.length_cons]
           rw [← Nat.add_assoc, ih, Nat.add_assoc])

theorem drainNotes_pool (env : FloatEnv) (events : List Note) :
    ∀ sq : Sequencer,
      (drainNotes env sq events).1.freeTones.length + (drainNotes env sq events).1.activeTones.length
        = sq.freeTones.length + sq.activeTones.length := by
  induction events with
  | nil => intro sq; rfl
  | cons oneNote rest ih =>
    intro sq
    rw [drainNotes]
    simp only
    split_ifs with h1 h2
    · rfl
    · exact checkNewNote_pool env sq oneNote
    · rw [ih, checkNewNote_pool]

/-- When no event is due the drain loop leaves the engine as it is. -/
theorem drainNotes_noDue (env : FloatEnv) (sq : Sequencer) (events : List Note)
    (h : NoDueEvent events) : (drainNotes env sq events).1 = sq := by
  cases events with
  | nil => rfl
  | cons oneNote rest =>
    have h1 := h oneNote (by simp only [List.head?_cons, Option.mem_def])
    rw [drainNotes]
    simp only
    rw [if_pos h1.symm]

theorem feedRender_pool (env : FloatEnv) (sq : Sequencer) (events : List Note) :
    (feedRender env sq events).2.1.freeTones.length
        + (feedRender env sq events).2.1.activeTones.length
      = sq.freeTones.length + sq.activeTones.length := by
  unfold feedRender
  simp only
  rw [feedTones_pool]
  split_ifs with h
  · exact drainNotes_pool env events sq
  · rfl

theorem feedFinish_pool (sq sq' : Sequencer) (last : NState) (h : feedFinish sq last = some sq') :
    sq'.freeTones = sq.freeTones ∧ sq'.activeTones = sq.activeTones := by
  unfold feedFinish at h
  by_cases h1 : sq.noiseBufSize = 0
  · rw [if_pos h1] at h
    cases h
  · rw [if_neg h1] at h
    simp only at h
    by_cases h2 : last = NState.NS_END ∧ sq.activeTones.length = 0
    · rw [if_pos h2] at h
      injection h with h
      subst h
      exact ⟨rfl, rfl⟩
    · rw [if_neg h2] at h
      injection h with h
      subst h
      exact ⟨rfl, rfl⟩

theorem feed_pool (env : FloatEnv) (sq sq' : Sequencer) (events : List Note)
    (h : (feed env sq events).2 = some sq') :
    sq'.freeTones.length + sq'.activeTones.length
      = sq.freeTones.length + sq.activeTones.length := by
  unfold feed at h
  obtain ⟨h1, h2⟩ := feedFinish_pool _ _ _ h
  rw [h1, h2]
  exact feedRender_pool env sq events

theorem checkNewNote_noiseBufSize (env : FloatEnv) (sq : Sequencer) (oneNote : Note) :
    (checkNewNote env sq oneNote).1.noiseBufSize = sq.noiseBufSize := by
  by_cases hstate : oneNote.state = NState.NS_OFF
  · unfold checkNewNote
    simp only [if_pos hstate]
    cases sq.activeTones.find? (isRinging oneNote) with
    | none => rfl
    | some t => rfl
  · cases hfree : sq.freeTones with
    | nil => rw [checkNewNote_full env sq oneNote hstate hfree]
    | cons tone rest => rw [checkNewNote_alloc env sq oneNote tone rest hstate hfree]

theorem drainNotes_noiseBufSize (env : FloatEnv) (events : List Note) :
    ∀ sq : Sequencer, (drainNotes env sq events).1.noiseBufSize = sq.noiseBufSize := by
  induction events with
  | nil => intro sq; rfl
  | cons oneNote rest ih =>
    intro sq
    rw [drainNotes]
    simp only
    split_ifs with h1 h2
    · rfl
    · exact checkNewNote_noiseBufSize env sq oneNote
    · rw [ih, checkNewNote_noiseBufSize]

theorem feedRender_noiseBufSize (env : FloatEnv) (sq : Sequencer) (events : List Note) :
    (feedRender env sq events).2.1.noiseBufSize = sq.noiseBufSize := by
  unfold feedRender
  simp only
  split_ifs with h
  · exact drainNotes_noiseBufSize env events sq
  · rfl

/-- The end of `feed` returns a state exactly when `noiseBufSize` is not 0. -/
theorem feedFinish_some (sq : Sequencer) (last : NState) (h : sq.noiseBufSize ≠ 0) :
    ∃ sq', feedFinish sq last = some sq' := by
  unfold feedFinish
  rw [if_neg h]
  simp only
  by_cases h2 : last = NState.NS_END ∧ sq.activeTones.length = 0
  · rw [if_pos h2]
    exact ⟨_, rfl⟩
  · rw [if_neg h2]
    exact ⟨_, rfl⟩

theorem feedFinish_none (sq : Sequencer) (last : NState) (h : sq.noiseBufSize = 0) :
    feedFinish sq last = none := by
  unfold feedFinish
  rw [if_pos h]

theorem toInt32_neg (x : ℚ) : toInt32 (-x) = -toInt32 x := by
  unfold toInt32
  rw [Rat.neg_num, Rat.neg_den, Int.neg_tdiv]

theorem toInt32_of_nonpos {x : ℚ} (h : x ≤ 0) : toInt32 x = ⌈x⌉ := by
  have h1 := toInt32_of_nonneg (neg_nonneg.mpr h)
  rw [toInt32_neg] at h1
  have h2 : ⌈x⌉ = -⌊-x⌋ := by rw [← Int.ceil_neg, neg_neg]
  omega

/-- The truncation `(int32_t)x` is monotone. -/
theorem toInt32_mono {x y : ℚ} (h : x ≤ y) : toInt32 x ≤ toInt32 y := by
  rcases le_total 0 x with hx | hx
  · rw [toInt32_of_nonneg hx, toInt32_of_nonneg (le_trans hx h)]
    exact Int.floor_mono h
  · rcases le_total 0 y with hy | hy
    · rw [toInt32_of_nonpos hx, toInt32_of_nonneg hy]
      have h1 : ⌈x⌉ ≤ 0 := Int.ceil_le.mpr (by exact_mod_cast hx)
      have h2 : (0 : Int) ≤ ⌊y⌋ := Int.le_floor.mpr (by exact_mod_cast hy)
      omega
    · rw [toInt32_of_nonpos hx, toInt32_of_nonpos hy]
      exact Int.ceil_mono h

theorem toInt32_nonneg {x : ℚ} (h : 0 ≤ x) : 0 ≤ toInt32 x := by
  rw [toInt32_of_nonneg h]
  exact Int.le_floor.mpr (by exact_mod_cast h)

/-- A loop of in-place writes `lut[i] = G(i, lut[i])` over `0 .. m - 1`: the
cells in range hold `G` of their old value, the others are untouched. -/
theorem foldl_update_self (G : Int → ℚ → ℚ) (init : Int → ℚ) (m : Nat) :
    ∀ j : Int,
      (List.range m).foldl
          (fun st (i : Nat) => Function.update st (i : Int) (G (i : Int) (st (i : Int)))) init j
        = if 0 ≤ j ∧ j < (m : Int) then G j (init j) else init j := by
  induction m with
  | zero =>
    intro j
    have : ¬ (0 ≤ j ∧ j < ((0 : Nat) : Int)) := by omega
    rw [if_neg this]
    rfl
  | succ m ih =>
    intro j
    have hm := ih (m : Int)
    rw [if_neg (by omega)] at hm
    rw [List.range_succ, List.foldl_append, List.foldl_cons, List.foldl_nil]
    by_cases hj : j = (m : Int)
    · subst hj
      rw [Function.update_same, hm, if_pos (by push_cast; omega)]
    · rw [Function.update_noteq hj, ih]
      by_cases h1 : 0 ≤ j ∧ j < (m : Int)
      · rw [if_pos h1, if_pos (by push_cast; omega)]
      · rw [if_neg h1, if_neg (by push_cast; omega)]

theorem forLoop_update_self (n : Int) (G : Int → ℚ → ℚ) (init : Int → ℚ) (j : Int) :
    forLoop n (fun i lut => Function.update lut i (G i (lut i))) init j
      = if 0 ≤ j ∧ j < n then G j (init j) else init j := by
  unfold forLoop
  rw [foldl_update_self G init n.toNat j]
  by_cases h : 0 ≤ j ∧ j < n
  · rw [if_pos h, if_pos (by omega)]
  · rw [if_neg h, if_neg (by omega)]

theorem forLoop_update (n : Int) (g : Int → ℚ) (init : Int → ℚ) (j : Int) :
    forLoop n (fun i lut => Function.update lut i (g i)) init j
      = if 0 ≤ j ∧ j < n then g j else init j :=
  forLoop_update_self n (fun i _ => g i) init j

/-- The cents table built by `initParam`: entry `i` of `0 .. 7199` is
`powf(2, (i - 3600) / 1200)`. -/
theorem buildPow2LUT_get (env : FloatEnv) (i : Int) (h0 : 0 ≤ i) (h1 : i < 7200) :
    buildPow2LUT env i = env.powf 2 (((i - 3600 : Int) : ℚ) / 1200) := by
  unfold buildPow2LUT
  rw [forLoop_update, if_pos ⟨h0, h1⟩]
  rfl

/-! ## Frequencies -/

theorem centFrequency_zero_aux (env : FloatEnv) (sq : Sequencer) (freq : ℚ) :
    centFrequency env sq freq 0
      = if freq > sq.samplingRate * (47 / 100) then sq.samplingRate * (47 / 100) else freq := by
  unfold centFrequency pow2_x_1200LUT_size
  norm_num

theorem centFrequency_eq_ratio (env : FloatEnv) (sq : Sequencer) (freq cent : ℚ) :
    centFrequency env sq freq cent
      = if freq * centRatio env sq cent > sq.samplingRate * (47 / 100)
        then sq.samplingRate * (47 / 100) else freq * centRatio env sq cent := by
  unfold centFrequency centRatio
  simp only [mul_ite]

theorem centRatio_eq (env : FloatEnv) (sq : Sequencer) (c : ℚ) :
    centRatio env sq c
      = if c ≤ -3600 then sq.pow2_x_1200LUT 0
        else if c < -120 then sq.pow2_x_1200LUT (3600 + toInt32 c)
        else if c < 0 then 1 - c * ((env.powf 2 (-120 / 1200) - 1) / 120)
        else if c ≤ 120 then 1 + c * ((env.powf 2 (120 / 1200) - 1) / 120)
        else if c < 3600 then sq.pow2_x_1200LUT (3600 + toInt32 c)
        else sq.pow2_x_1200LUT 7199 := by
  unfold centRatio pow2_x_1200LUT_size
  have e2 : (7200 / 2 : Int) = 3600 := by norm_num
  have e3 : (7200 - 1 : Int) = 7199 := by norm_num
  simp only [e2, e3, Int.cast_ofNat]

theorem toInt32_cent_low {c : ℚ} (h1 : -3600 < c) (h2 : c < -120) :
    -3599 ≤ toInt32 c ∧ toInt32 c ≤ -120 := by
  rw [toInt32_of_nonpos (by linarith)]
  constructor
  · have : (-3600 : Int) < ⌈c⌉ := Int.lt_ceil.mpr (by push_cast; linarith)
    omega
  · exact Int.ceil_le.mpr (by push_cast; linarith)

theorem toInt32_cent_high {c : ℚ} (h1 : 120 < c) (h2 : c < 3600) :
    120 ≤ toInt32 c ∧ toInt32 c ≤ 3599 := by
  rw [toInt32_of_nonneg (by linarith)]
  constructor
  · exact Int.le_floor.mpr (by push_cast; linarith)
  · have : ⌊c⌋ < (3600 : Int) := Int.floor_lt.mpr (by push_cast; linarith)
    omega

/-- The six branches of `centRatio` for an engine whose cents table is the
one `initParam` builds, with the value taken and bounds on it in terms of
`powf(2, z / 1200)` at `z = -3600, -3599, -120, 120, 3599`. -/
theorem centRatio_cases (env : FloatEnv) (sq : Sequencer)
    (htab : sq.pow2_x_1200LUT = buildPow2LUT env)
    (hmono : ∀ x y : ℚ, x ≤ y → env.powf 2 x ≤ env.powf 2 y)
    (hone : env.powf 2 0 = 1) (c : ℚ) :
    (c ≤ -3600 ∧ centRatio env sq c = env.powf 2 (-3600 / 1200)) ∨
    (-3600 < c ∧ c < -120 ∧
      centRatio env sq c = env.powf 2 ((toInt32 c : ℚ) / 1200) ∧
      env.powf 2 (-3599 / 1200) ≤ centRatio env sq c ∧
      centRatio env sq c ≤ env.powf 2 (-120 / 1200)) ∨
    (-120 ≤ c ∧ c < 0 ∧
      centRatio env sq c = 1 - c * ((env.powf 2 (-120 / 1200) - 1) / 120) ∧
      env.powf 2 (-120 / 1200) ≤ centRatio env sq c ∧ centRatio env sq c ≤ 1) ∨
    (0 ≤ c ∧ c ≤ 120 ∧
      centRatio env sq c = 1 + c * ((env.powf 2 (120 / 1200) - 1) / 120) ∧
      1 ≤ centRatio env sq c ∧ centRatio env sq c ≤ env.powf 2 (120 / 1200)) ∨
    (120 < c ∧ c < 3600 ∧
      centRatio env sq c = env.powf 2 ((toInt32 c : ℚ) / 1200) ∧
      env.powf 2 (120 / 1200) ≤ centRatio env sq c ∧
      centRatio env sq c ≤ env.powf 2 (3599 / 1200)) ∨
    (3600 ≤ c ∧ centRatio env sq c = env.powf 2 (3599 / 1200)) := by
  have hlo : env.powf 2 (-120 / 1200) ≤ 1 := by
    rw [← hone]
    exact hmono _ _ (by norm_num)
  have hhi : 1 ≤ env.powf 2 (120 / 1200) := by
    rw [← hone]
    exact hmono _ _ (by norm_num)
  have hget : ∀ z : Int, -3600 ≤ z → z ≤ 3599 →
      sq.pow2_x_1200LUT (3600 + z) = env.powf 2 ((z : ℚ) / 1200) := by
    intro z h1 h2
    rw [htab, buildPow2LUT_get env (3600 + z) (by omega) (by omega)]
    congr 2
    push_cast
    ring
  rw [centRatio_eq]
  by_cases h1 : c ≤ -3600
  · left
    rw [if_pos h1]
    have := hget (-3600) (by norm_num) (by norm_num)
    norm_num at this
    exact ⟨h1, by rw [this]; norm_num⟩
  rw [if_neg h1]
  by_cases h2 : c < -120
  · right; left
    rw [if_pos h2]
    obtain ⟨z1, z2⟩ := toInt32_cent_low (not_le.mp h1) h2
    rw [hget _ (by omega) (by omega)]
    refine ⟨not_le.mp h1, h2, rfl, hmono _ _ ?_, hmono _ _ ?_⟩
    · have : ((-3599 : Int) : ℚ) ≤ (toInt32 c : ℚ) := by exact_mod_cast z1
      push_cast at this
      linarith
    · have : (toInt32 c : ℚ) ≤ ((-120 : Int) : ℚ) := by exact_mod_cast z2
      push_cast at this
      linarith
  rw [if_neg h2]
  by_cases h3 : c < 0
  · right; right; left
    rw [if_pos h3]
    refine ⟨not_lt.mp h2, h3, rfl, ?_, ?_⟩
    · nlinarith [not_lt.mp h2]
    · nlinarith
  rw [if_neg h3]
  by_cases h4 : c ≤ 120
  · right; right; right; left
    rw [if_pos h4]
    refine ⟨not_lt.mp h3, h4, rfl, ?_, ?_⟩
    · nlinarith [not_lt.mp h3]
    · nlinarith
  rw [if_neg h4]
  by_cases h5 : c < 3600
  · right; right; right; right; left
    rw [if_pos h5]
    obtain ⟨z1, z2⟩ := toInt32_cent_high (not_le.mp h4) h5
    rw [hget _ (by omega) (by omega)]
    refine ⟨not_le.mp h4, h5, rfl, hmono _ _ ?_, hmono _ _ ?_⟩
    · have : ((120 : Int) : ℚ) ≤ (toInt32 c : ℚ) := by exact_mod_cast z1
      push_cast at this
      linarith
    · have : (toInt32 c : ℚ) ≤ ((3599 : Int) : ℚ) := by exact_mod_cast z2
      push_cast at this
      linarith
  · right; right; right; right; right
    rw [if_neg h5]
    have := hget 3599 (by norm_num) (by norm_num)
    norm_num at this
    exact ⟨not_lt.mp h5, by rw [this]⟩

/-- The factor of `centFrequency` is monotone in `cent`, for the table of
`initParam` and a power function that is monotone in the exponent. -/
theorem centRatio_mono (env : FloatEnv) (sq : Sequencer)
    (htab : sq.pow2_x_1200LUT = buildPow2LUT env)
    (hmono : ∀ x y : ℚ, x ≤ y → env.powf 2 x ≤ env.powf 2 y)
    (hone : env.powf 2 0 = 1) {c1 c2 : ℚ} (h : c1 ≤ c2) :
    centRatio env sq c1 ≤ centRatio env sq c2 := by
  have k0 : env.powf 2 (-3600 / 1200) ≤ env.powf 2 (-3599 / 1200) := hmono _ _ (by norm_num)
  have k1 : env.powf 2 (-3599 / 1200) ≤ env.powf 2 (-120 / 1200) := hmono _ _ (by norm_num)
  have k2 : env.powf 2 (-120 / 1200) ≤ 1 := by
    rw [← hone]
    exact hmono _ _ (by norm_num)
  have k3 : 1 ≤ env.powf 2 (120 / 1200) := by
    rw [← hone]
    exact hmono _ _ (by norm_num)
  have k4 : env.powf 2 (120 / 1200) ≤ env.powf 2 (3599 / 1200) := hmono _ _ (by norm_num)
  have hl : (env.powf 2 (-120 / 1200) - 1) / 120 ≤ 0 := by linarith
  have hh : 0 ≤ (env.powf 2 (120 / 1200) - 1) / 120 := by linarith
  have hz : (toInt32 c1 : ℚ) ≤ (toInt32 c2 : ℚ) := by exact_mod_cast toInt32_mono h
  rcases centRatio_cases env sq htab hmono hone c1 with
    ⟨a1, e1⟩ | ⟨a1, b1, e1, lo1, hi1⟩ | ⟨a1, b1, e1, lo1, hi1⟩ | ⟨a1, b1, e1, lo1, hi1⟩ | ⟨a1, b1, e1, lo1, hi1⟩ | ⟨a1, e1⟩
  · rcases centRatio_cases env sq htab hmono hone c2 with
      ⟨a2, e2⟩ | ⟨a2, b2, e2, lo2, hi2⟩ | ⟨a2, b2, e2, lo2, hi2⟩ | ⟨a2, b2, e2, lo2, hi2⟩ | ⟨a2, b2, e2, lo2, hi2⟩ | ⟨a2, e2⟩
    · linarith
    · linarith
    · linarith
    · linarith
    · linarith
    · linarith
  · rcases centRatio_cases env sq htab hmono hone c2 with
      ⟨a2, e2⟩ | ⟨a2, b2, e2, lo2, hi2⟩ | ⟨a2, b2, e2, lo2, hi2⟩ | ⟨a2, b2, e2, lo2, hi2⟩ | ⟨a2, b2, e2, lo2, hi2⟩ | ⟨a2, e2⟩
    · exfalso
      linarith
    · rw [e1, e2]
      exact hmono _ _ (by linarith)
    · linarith
    · linarith
    · linarith
    · linarith
  · rcases centRatio_cases env sq htab hmono hone c2 with
      ⟨a2, e2⟩ | ⟨a2, b2, e2, lo2, hi2⟩ | ⟨a2, b2, e2, lo2, hi2⟩ | ⟨a2, b2, e2, lo2, hi2⟩ | ⟨a2, b2, e2, lo2, hi2⟩ | ⟨a2, e2⟩
    · exfalso
      linarith
    · exfalso
      linarith
    · rw [e1, e2]
      nlinarith [mul_nonneg (sub_nonneg.mpr h) (neg_nonneg.mpr hl)]
    · linarith
    · linarith
    · linarith
  · rcases centRatio_cases env sq htab hmono hone c2 with
      ⟨a2, e2⟩ | ⟨a2, b2, e2, lo2, hi2⟩ | ⟨a2, b2, e2, lo2, hi2⟩ | ⟨a2, b2, e2, lo2, hi2⟩ | ⟨a2, b2, e2, lo2, hi2⟩ | ⟨a2, e2⟩
    · exfalso
      linarith
    · exfalso
      linarith
    · exfalso
      linarith
    · rw [e1, e2]
      nlinarith [mul_nonneg (sub_nonneg.mpr h) hh]
    · linarith
    · linarith
  · rcases centRatio_cases env sq htab hmono hone c2 with
      ⟨a2, e2⟩ | ⟨a2, b2, e2, lo2, hi2⟩ | ⟨a2, b2, e2, lo2, hi2⟩ | ⟨a2, b2, e2, lo2, hi2⟩ | ⟨a2, b2, e2, lo2, hi2⟩ | ⟨a2, e2⟩
    · exfalso
      linarith
    · exfalso
      linarith
    · exfalso
      linarith
    · exfalso
      linarith
    · rw [e1, e2]
      exact hmono _ _ (by linarith)
    · linarith
  · rcases centRatio_cases env sq htab hmono hone c2 with
      ⟨a2, e2⟩ | ⟨a2, b2, e2, lo2, hi2⟩ | ⟨a2, b2, e2, lo2, hi2⟩ | ⟨a2, b2, e2, lo2, hi2⟩ | ⟨a2, b2, e2, lo2, hi2⟩ | ⟨a2, e2⟩
    · exfalso
      linarith
    · exfalso
      linarith
    · exfalso
      linarith
    · exfalso
      linarith
    · exfalso
      linarith
    · linarith

theorem initParam_pow2LUT (env : FloatEnv) (sq : Sequencer) (rate time : ℚ) (samples : Int) :
    (initParam env sq rate time samples).pow2_x_1200LUT = buildPow2LUT env := by
  simp only [initParam]

theorem sampleEnv_powf_two (x : ℚ) :
    sampleEnv.powf 2 x = if x ≤ 0 then 1 / (1 - x) else 1 + x := by
  show (if (2 : ℚ) = 2 then (if x ≤ 0 then 1 / (1 - x) else 1 + x) else 2) = _
  rw [if_pos rfl]

theorem sampleEnv_powf_mono (x y : ℚ) (h : x ≤ y) : sampleEnv.powf 2 x ≤ sampleEnv.powf 2 y := by
  rw [sampleEnv_powf_two, sampleEnv_powf_two]
  by_cases hx : x ≤ 0
  · rw [if_pos hx]
    by_cases hy : y ≤ 0
    · rw [if_pos hy]
      exact one_div_le_one_div_of_le (by linarith) (by linarith)
    · rw [if_neg hy]
      have : 1 / (1 - x) ≤ 1 := by
        rw [div_le_one (by linarith)]
        linarith
      linarith
  · rw [if_neg hx, if_neg (by linarith)]
    linarith

theorem sampleEnv_powf_zero : sampleEnv.powf 2 0 = 1 := by
  rw [sampleEnv_powf_two]
  norm_num

theorem allocSlopes_velocity_f (sq : Sequencer) (t : Tone) : (allocSlopes sq t).velocity_f = t.velocity_f := rfl

theorem allocSlopes_restartVelocity_f (sq : Sequencer) (t : Tone) : (allocSlopes sq t).restartVelocity_f = t.restartVelocity_f := rfl

theorem allocDelay_velocity_f (sq : Sequencer) (t : Tone) : (allocDelay sq t).velocity_f = t.velocity_f := rfl

theorem allocDelay_restartVelocity_f (sq : Sequencer) (t : Tone) : (allocDelay sq t).restartVelocity_f = t.restartVelocity_f := rfl

theorem allocIncrements_velocity_f (env : FloatEnv) (sq : Sequencer) (t : Tone) : (allocIncrements env sq t).velocity_f = t.velocity_f := rfl

theorem allocIncrements_restartVelocity_f (env : FloatEnv) (sq : Sequencer) (t : Tone) : (allocIncrements env sq t).restartVelocity_f = t.restartVelocity_f := rfl

theorem allocModulation_velocity_f (env : FloatEnv) (sq : Sequencer) (t : Tone) : (allocModulation env sq t).velocity_f = t.velocity_f := rfl

theorem allocModulation_restartVelocity_f (env : FloatEnv) (sq : Sequencer) (t : Tone) : (allocModulation env sq t).restartVelocity_f = t.restartVelocity_f := rfl

/-- The velocity gain of an allocated voice is the entry of the
velocity-to-power table at its note velocity (also the gain kept for a
restart). -/
theorem allocTone_velocity_f (env : FloatEnv) (sq : Sequencer) (n : Note) (d : ℚ) (t : Tone) :
    (allocTone env sq n d t).velocity_f
        = sq.velocity2powerLUT (allocTone env sq n d t).note.velocity ∧
    (allocTone env sq n d t).restartVelocity_f
        = sq.velocity2powerLUT (allocTone env sq n d t).note.velocity := by
  have hn : (allocTone env sq n d t).note = (allocSelected env sq n d t).note := by
    rw [allocTone_note]
    unfold allocSelected
    rw [allocRealKeys_note]
  constructor
  · rw [hn]
    unfold allocTone
    rw [allocSlopes_velocity_f, allocDelay_velocity_f, allocIncrements_velocity_f,
      allocModulation_velocity_f]
    rfl
  · rw [hn]
    unfold allocTone
    rw [allocSlopes_restartVelocity_f, allocDelay_restartVelocity_f,
      allocIncrements_restartVelocity_f, allocModulation_restartVelocity_f]
    rfl

/-- The velocity table built by `initParam`: entry `i` of `0 .. 127` is
`powf((i + 1) / 128, 2.2)`. -/
theorem buildVelocityLUT_get (env : FloatEnv) (i : Int) (h0 : 0 ≤ i) (h1 : i < 128) :
    buildVelocityLUT env i = env.powf (((i + 1 : Int) : ℚ) / 128) (22 / 10) := by
  unfold buildVelocityLUT
  rw [forLoop_update, if_pos ⟨h0, h1⟩]

theorem buildVelocityLUT_zero (env : FloatEnv) :
    buildVelocityLUT env 0 = env.powf (1 / 128) (22 / 10) := by
  rw [buildVelocityLUT_get env 0 (le_refl _) (by decide)]
  norm_num

theorem initParam_velocityLUT (env : FloatEnv) (sq : Sequencer) (rate time : ℚ) (samples : Int) :
    (initParam env sq rate time samples).velocity2powerLUT = buildVelocityLUT env := by
  simp only [initParam]

/-! ## The envelope -/

/-- The conversion `castInt32` of a non-negative number below `2 ^ 31` is
its floor. -/
theorem castInt32_of_fits {x : ℚ} (hx : 0 ≤ x) (hlt : x < 2147483648) : castInt32 x = ⌊x⌋ := by
  have e := toInt32_of_nonneg hx
  have h0 : 0 ≤ ⌊x⌋ := Int.floor_nonneg.mpr hx
  have h1 : ⌊x⌋ < 2147483648 := Int.floor_lt.mpr (by exact_mod_cast hlt)
  unfold castInt32 INT32_MIN INT32_MAX
  rw [e, if_pos]
  omega

/-- From `2 ^ 31` on, the conversion `castInt32` gives `INT32_MIN`. -/
theorem castInt32_of_large {x : ℚ} (h : 2147483648 ≤ x) : castInt32 x = -2147483648 := by
  have hx : 0 ≤ x := le_trans (by norm_num) h
  have e := toInt32_of_nonneg hx
  have h1 : (2147483648 : Int) ≤ ⌊x⌋ := Int.le_floor.mpr (by exact_mod_cast h)
  unfold castInt32 INT32_MIN INT32_MAX
  rw [e, if_neg]
  omega

/-- The index `slopeIndex` computes from a non-negative position below
`2 ^ 31` lies within a table of `num > 0` entries. -/
theorem slopeIndex_mem {x : ℚ} {num : Int} (hx : 0 ≤ x) (hlt : x < 2147483648)
    (hnum : 0 < num) : 0 ≤ slopeIndex x num ∧ slopeIndex x num < num := by
  have h := Int.floor_nonneg.mpr hx
  unfold slopeIndex
  simp only [castInt32_of_fits hx hlt]
  split_ifs with h1
  · omega
  · omega

/-- The index `slopeIndex` computes from a position of `2 ^ 31` or more is
`INT32_MIN`, whatever the length of the table. -/
theorem slopeIndex_of_large {x : ℚ} {num : Int} (h : 2147483648 ≤ x) (hnum : 0 ≤ num) :
    slopeIndex x num = -2147483648 := by
  unfold slopeIndex
  simp only [castInt32_of_large h]
  rw [if_neg]
  omega

/-- The decay/sustain branch of the envelope step. -/
theorem envelopeStep_decay (sq : Sequencer) (k : FeedConst) (t : Tone) (current : ℚ)
    (h1 : ¬ current > t.waitDuration + t.mainteinDuration)
    (h2 : current > t.waitDuration + t.instrument.atackSlopeTime) :
    envelopeStep sq k t current
      = some { t with
          strength := t.atackedStrength
            * (sq.decaySlopeLUT (slopeIndex
                (((current - (t.waitDuration + t.instrument.atackSlopeTime)) * t.decaySlopeRatio)
                  / k.delta) sq.numDecaySlopeLUT)
              * (1 - t.instrument.sustainRate) + t.instrument.sustainRate)
          decayedStrength := t.atackedStrength
            * (sq.decaySlopeLUT (slopeIndex
                (((current - (t.waitDuration + t.instrument.atackSlopeTime)) * t.decaySlopeRatio)
                  / k.delta) sq.numDecaySlopeLUT)
              * (1 - t.instrument.sustainRate) + t.instrument.sustainRate)
          atackedStrengthfloor := t.atackedStrength
            * (sq.decaySlopeLUT (slopeIndex
                (((current - (t.waitDuration + t.instrument.atackSlopeTime)) * t.decaySlopeRatio)
                  / k.delta) sq.numDecaySlopeLUT)
              * (1 - t.instrument.sustainRate) + t.instrument.sustainRate) } := by
  unfold envelopeStep
  rw [if_neg h1, if_pos h2]

/-- The release branch of the envelope step. -/
theorem envelopeStep_release (sq : Sequencer) (k : FeedConst) (t : Tone) (current : ℚ)
    (h1 : current > t.waitDuration + t.mainteinDuration) :
    envelopeStep sq k t current
      = some { t with
          strength := t.decayedStrength
            * sq.releaseSlopeLUT (slopeIndex
                (((current - (t.waitDuration + t.mainteinDuration)) * t.releaseSlopeRatio)
                  / k.delta) sq.numReleaseSlopeLUT)
          atackedStrengthfloor := t.decayedStrength
            * sq.releaseSlopeLUT (slopeIndex
                (((current - (t.waitDuration + t.mainteinDuration)) * t.releaseSlopeRatio)
                  / k.delta) sq.numReleaseSlopeLUT) } := by
  unfold envelopeStep
  rw [if_pos h1]

theorem feedConst_delta_pos (env : FloatEnv) (sq : Sequencer) (h : 0 < sq.samplingRate) :
    0 < (feedConst env sq).delta := by
  show 0 < 1 / sq.samplingRate * 1000
  positivity

/-! ## The envelope tables of `initParam` -/

theorem buildAtackSlopeLUT_get (env : FloatEnv) (num i : Int) (h0 : 0 ≤ i) (h1 : i < num) :
    buildAtackSlopeLUT env num i = (1 - env.cosf (env.PI * (i : ℚ) / (num : ℚ))) / 2 := by
  unfold buildAtackSlopeLUT
  rw [forLoop_update, if_pos ⟨h0, h1⟩]

theorem buildReleaseSlopeLUT_get (env : FloatEnv) (num i : Int) (h0 : 0 ≤ i) (h1 : i < num) :
    buildReleaseSlopeLUT env num i = (1 + env.cosf (env.PI * (i : ℚ) / (num : ℚ))) / 2 := by
  unfold buildReleaseSlopeLUT
  rw [forLoop_update, if_pos ⟨h0, h1⟩]

theorem buildDecayRaw_get (env : FloatEnv) (H T : ℚ) (num i : Int) (h0 : 0 ≤ i) (h1 : i < num) :
    buildDecayRaw env H T num i
      = if i = 0 then 1 / 2 + 1 / 2
        else 1 / 2 + env.tanhf (env.log10f (H / (T * (i : ℚ) / (num : ℚ)))) / 2 := by
  unfold buildDecayRaw
  rw [forLoop_update, if_pos ⟨h0, h1⟩]

theorem normalizeDecay_get (num : Int) (raw : Int → ℚ) (i : Int) (h0 : 0 ≤ i) (h1 : i < num) :
    normalizeDecay num raw i = (raw i - raw (num - 1)) / (1 - raw (num - 1)) := by
  unfold normalizeDecay
  exact (forLoop_update_self num (fun _ v => (v - raw (num - 1)) / (1 - raw (num - 1))) raw i).trans
    (if_pos ⟨h0, h1⟩)

/-- The raw decay curve is at most 1, and below 1 away from index 0. -/
theorem buildDecayRaw_le_one (env : FloatEnv) (hlibm : IdealLibm env) (H T : ℚ) (num i : Int)
    (h0 : 0 ≤ i) (h1 : i < num) :
    buildDecayRaw env H T num i ≤ 1 ∧ (i ≠ 0 → buildDecayRaw env H T num i < 1) := by
  rw [buildDecayRaw_get env H T num i h0 h1]
  by_cases hi : i = 0
  · rw [if_pos hi]
    exact ⟨by norm_num, fun h => absurd hi h⟩
  · rw [if_neg hi]
    have := (hlibm.tanhf_range (env.log10f (H / (T * (i : ℚ) / (num : ℚ))))).2
    exact ⟨by linarith, fun _ => by linarith⟩

/-- The raw decay curve does not fall below its last entry. -/
theorem buildDecayRaw_last_le (env : FloatEnv) (hlibm : IdealLibm env) (H T : ℚ) (num i : Int)
    (hH : 0 < H) (hT : 0 < T) (hnum : 2 ≤ num) (h0 : 0 ≤ i) (h1 : i < num) :
    buildDecayRaw env H T num (num - 1) ≤ buildDecayRaw env H T num i := by
  have hlast : (num - 1 : Int) ≠ 0 := by omega
  rw [buildDecayRaw_get env H T num (num - 1) (by omega) (by omega), if_neg hlast,
    buildDecayRaw_get env H T num i h0 h1]
  have hnq : (0 : ℚ) < (num : ℚ) := by exact_mod_cast (show (0 : Int) < num by omega)
  by_cases hi : i = 0
  · rw [if_pos hi]
    have := (hlibm.tanhf_range (env.log10f (H / (T * ((num - 1 : Int) : ℚ) / (num : ℚ))))).2
    linarith
  · rw [if_neg hi]
    have hiq : (1 : ℚ) ≤ (i : ℚ) := by exact_mod_cast (show (1 : Int) ≤ i by omega)
    have hle : (i : ℚ) ≤ ((num - 1 : Int) : ℚ) := by exact_mod_cast (show i ≤ num - 1 by omega)
    have hy : 0 < T * (i : ℚ) / (num : ℚ) := by positivity
    have hxy : T * (i : ℚ) / (num : ℚ) ≤ T * ((num - 1 : Int) : ℚ) / (num : ℚ) := by
      apply div_le_div_of_nonneg_right _ (le_of_lt hnq)
      exact mul_le_mul_of_nonneg_left hle (le_of_lt hT)
    have hx : 0 < T * ((num - 1 : Int) : ℚ) / (num : ℚ) := lt_of_lt_of_le hy hxy
    have harg : H / (T * ((num - 1 : Int) : ℚ) / (num : ℚ)) ≤ H / (T * (i : ℚ) / (num : ℚ)) :=
      div_le_div_of_nonneg_left (le_of_lt hH) hy hxy
    have := hlibm.tanhf_log10f_mono _ _ (div_pos hH hx) harg
    linarith

/-- The normalised decay table has its entries `0 .. num - 1` in `[0, 1]`. -/
theorem normalizeDecay_unit (env : FloatEnv) (hlibm : IdealLibm env) (H T : ℚ) (num i : Int)
    (hH : 0 < H) (hT : 0 < T) (hnum : 2 ≤ num) (h0 : 0 ≤ i) (h1 : i < num) :
    0 ≤ normalizeDecay num (buildDecayRaw env H T num) i ∧
    normalizeDecay num (buildDecayRaw env H T num) i ≤ 1 := by
  rw [normalizeDecay_get num _ i h0 h1]
  have hlast := (buildDecayRaw_le_one env hlibm H T num (num - 1) (by omega) (by omega)).2
    (by omega)
  have hle := buildDecayRaw_last_le env hlibm H T num i hH hT hnum h0 h1
  have hi := (buildDecayRaw_le_one env hlibm H T num i h0 h1).1
  have hpos : 0 < 1 - buildDecayRaw env H T num (num - 1) := by linarith
  constructor
  · exact div_nonneg (by linarith) (le_of_lt hpos)
  · rw [div_le_one hpos]
    linarith

theorem initParam_atackTable (env : FloatEnv) (sq : Sequencer) (rate time : ℚ) (samples : Int) :
    (initParam env sq rate time samples).numAtackSlopeLUT
        = toInt32 ((1 / sq.atackSlopeHz / 2) * rate) ∧
    (initParam env sq rate time samples).atackSlopeLUT
        = buildAtackSlopeLUT env (toInt32 ((1 / sq.atackSlopeHz / 2) * rate)) ∧
    (initParam env sq rate time samples).atackSlopeTime = 1 / sq.atackSlopeHz / 2 * 1000 := by
  simp only [initParam, and_self]

theorem initParam_releaseTable (env : FloatEnv) (sq : Sequencer) (rate time : ℚ) (samples : Int) :
    (initParam env sq rate time samples).numReleaseSlopeLUT
        = toInt32 ((1 / sq.releaseSlopeHz / 2) * rate) ∧
    (initParam env sq rate time samples).releaseSlopeLUT
        = buildReleaseSlopeLUT env (toInt32 ((1 / sq.releaseSlopeHz / 2) * rate)) ∧
    (initParam env sq rate time samples).releaseSlopeTime = 1 / sq.releaseSlopeHz / 2 * 1000 := by
  simp only [initParam, and_self]

theorem initParam_decayTable (env : FloatEnv) (sq : Sequencer) (rate time : ℚ) (samples : Int) :
    (initParam env sq rate time samples).numDecaySlopeLUT
        = toInt32 ((1 / sq.decaySlopeHz / 2) * rate) ∧
    (initParam env sq rate time samples).decaySlopeLUT
        = normalizeDecay (toInt32 ((1 / sq.decaySlopeHz / 2) * rate))
            (buildDecayRaw env sq.decayHalfLifeTime (1 / sq.decaySlopeHz / 2 * 1000)
              (toInt32 ((1 / sq.decaySlopeHz / 2) * rate))) ∧
    (initParam env sq rate time samples).decayHalfLifeTime = sq.decayHalfLifeTime ∧
    (initParam env sq rate time samples).samplingRate = rate := by
  simp only [initParam, and_self]

/-- After `initParam` at a rate of at least 50 Hz, on an engine object with
the slope rates and half-life its constructor sets, the three envelope
tables are unit tables. -/
theorem initParam_unitTables (env : FloatEnv) (sq : Sequencer) (rate time : ℚ) (samples : Int)
    (hlibm : IdealLibm env) (hrate : 50 ≤ rate)
    (h1 : sq.atackSlopeHz = 25) (h2 : sq.releaseSlopeHz = 25) (h3 : sq.decaySlopeHz = 1)
    (h4 : sq.decayHalfLifeTime = 50) :
    UnitTables (initParam env sq rate time samples) := by
  obtain ⟨a1, a2, _⟩ := initParam_atackTable env sq rate time samples
  obtain ⟨r1, r2, _⟩ := initParam_releaseTable env sq rate time samples
  obtain ⟨d1, d2, _, _⟩ := initParam_decayTable env sq rate time samples
  have na : (1 : Int) ≤ toInt32 ((1 / sq.atackSlopeHz / 2) * rate) := by
    rw [h1, toInt32_of_nonneg (by linarith), Int.le_floor]
    push_cast
    linarith
  have nr : (1 : Int) ≤ toInt32 ((1 / sq.releaseSlopeHz / 2) * rate) := by
    rw [h2, toInt32_of_nonneg (by linarith), Int.le_floor]
    push_cast
    linarith
  have nd : (2 : Int) ≤ toInt32 ((1 / sq.decaySlopeHz / 2) * rate) := by
    rw [h3, toInt32_of_nonneg (by linarith), Int.le_floor]
    push_cast
    linarith
  refine ⟨by rw [a1]; omega, by rw [d1]; omega, by rw [r1]; omega, ?_, ?_, ?_⟩
  · intro i h0 hi
    rw [a1] at hi
    rw [a2, buildAtackSlopeLUT_get env _ i h0 hi]
    have := hlibm.cosf_range (env.PI * (i : ℚ) / ((toInt32 ((1 / sq.atackSlopeHz / 2) * rate) : Int) : ℚ))
    constructor <;> linarith [this.1, this.2]
  · intro i h0 hi
    rw [d1] at hi
    rw [d2]
    exact normalizeDecay_unit env hlibm _ _ _ i (by rw [h4]; norm_num) (by rw [h3]; norm_num)
      nd h0 hi
  · intro i h0 hi
    rw [r1] at hi
    rw [r2, buildReleaseSlopeLUT_get env _ i h0 hi]
    have := hlibm.cosf_range (env.PI * (i : ℚ) / ((toInt32 ((1 / sq.releaseSlopeHz / 2) * rate) : Int) : ℚ))
    constructor <;> linarith [this.1, this.2]

theorem demoEnv_idealLibm : IdealLibm demoEnv :=
  ⟨fun _ => ⟨by show (-1 : ℚ) ≤ 0; norm_num, by show (0 : ℚ) ≤ 1; norm_num⟩,
   fun _ => ⟨by show (-1 : ℚ) ≤ 0; norm_num, by show (0 : ℚ) < 1; norm_num⟩,
   fun _ _ _ _ => le_refl _⟩

theorem demoEngine_unitTables : UnitTables demoEngine :=
  initParam_unitTables demoEnv (newSequencer demoEnv) 44100 (1 / 20) 2205 demoEnv_idealLibm
    (by norm_num) rfl rfl rfl rfl

theorem demoEngine_samplingRate_pos : 0 < demoEngine.samplingRate := by
  have := (initParam_decayTable demoEnv (newSequencer demoEnv) 44100 (1 / 20) 2205).2.2.2
  show 0 < (initParam demoEnv (newSequencer demoEnv) 44100 (1 / 20) 2205).samplingRate
  rw [this]
  norm_num

/-! ## The voice loop of `feed` -/

theorem toneSamples_cons_end (env : FloatEnv) (sq : Sequencer) (k : FeedConst) (i : Int)
    (cur m : ℚ) (tone : Tone) (x : ℚ) (rest : List ℚ)
    (hp : pastEnd (restartStep tone cur) cur = true) :
    toneSamples env sq k i cur m tone (x :: rest) =
      { tone := restartStep tone cur, frame := x :: rest, maxFrameValue := m, isEnd := true } := by
  rw [toneSamples]; simp only; rw [if_pos hp]

theorem toneSamples_cons_none (env : FloatEnv) (sq : Sequencer) (k : FeedConst) (i : Int)
    (cur m : ℚ) (tone : Tone) (x : ℚ) (rest : List ℚ)
    (hp : ¬ pastEnd (restartStep tone cur) cur = true)
    (he : envelopeStep sq k (restartStep tone cur) cur = none) :
    toneSamples env sq k i cur m tone (x :: rest) =
      { toneSamples env sq k (i + 1) (cur + k.delta) m (restartStep tone cur) rest with
        frame := x ::
          (toneSamples env sq k (i + 1) (cur + k.delta) m (restartStep tone cur) rest).frame } := by
  rw [toneSamples]; simp only; rw [if_neg hp, he]

theorem toneSamples_cons_some (env : FloatEnv) (sq : Sequencer) (k : FeedConst) (i : Int)
    (cur m : ℚ) (tone t2 : Tone) (x : ℚ) (rest : List ℚ)
    (hp : ¬ pastEnd (restartStep tone cur) cur = true)
    (he : envelopeStep sq k (restartStep tone cur) cur = some t2) :
    toneSamples env sq k i cur m tone (x :: rest) =
      { toneSamples env sq k (i + 1) (cur + k.delta)
          (if absf (x + (signalStep env sq k i cur t2).2) > m
            then absf (x + (signalStep env sq k i cur t2).2) else m)
          (signalStep env sq k i cur t2).1 rest with
        frame := clampF (x + (signalStep env sq k i cur t2).2) (-1) 1 ::
          (toneSamples env sq k (i + 1) (cur + k.delta)
            (if absf (x + (signalStep env sq k i cur t2).2) > m
              then absf (x + (signalStep env sq k i cur t2).2) else m)
            (signalStep env sq k i cur t2).1 rest).frame } := by
  rw [toneSamples]; simp only; rw [if_neg hp, he]

theorem toneSamples_append (env : FloatEnv) (sq : Sequencer) (k : FeedConst) (xs : List ℚ) :
    ∀ (i : Int) (cur m : ℚ) (tone : Tone) (ys : List ℚ),
      (toneSamples env sq k i cur m tone xs).isEnd = false →
      toneSamples env sq k i cur m tone (xs ++ ys) =
        { toneSamples env sq k (i + (xs.length : Int)) (cur + (xs.length : ℚ) * k.delta)
            (toneSamples env sq k i cur m tone xs).maxFrameValue
            (toneSamples env sq k i cur m tone xs).tone ys with
          frame := (toneSamples env sq k i cur m tone xs).frame ++
            (toneSamples env sq k (i + (xs.length : Int)) (cur + (xs.length : ℚ) * k.delta)
              (toneSamples env sq k i cur m tone xs).maxFrameValue
              (toneSamples env sq k i cur m tone xs).tone ys).frame } := by
  induction xs with
  | nil =>
    intro i cur m tone ys _
    simp [toneSamples]
  | cons x rest ih =>
    intro i cur m tone ys h
    have e1 : i + ((x :: rest).length : Int) = i + 1 + (rest.length : Int) := by
      simp only [List.length_cons]; push_cast; ring
    have e2 : cur + ((x :: rest).length : ℚ) * k.delta
        = cur + k.delta + (rest.length : ℚ) * k.delta := by
      simp only [List.length_cons]; push_cast; ring
    rw [e1, e2, List.cons_append]
    by_cases hp : pastEnd (restartStep tone cur) cur = true
    · rw [toneSamples_cons_end env sq k i cur m tone x rest hp] at h
      simp at h
    · cases he : envelopeStep sq k (restartStep tone cur) cur with
      | none =>
        rw [toneSamples_cons_none env sq k i cur m tone x rest hp he] at h ⊢
        rw [toneSamples_cons_none env sq k i cur m tone x (rest ++ ys) hp he]
        simp only at h ⊢
        rw [ih _ _ _ _ ys h]
        simp
      | some t2 =>
        rw [toneSamples_cons_some env sq k i cur m tone t2 x rest hp he] at h ⊢
        rw [toneSamples_cons_some env sq k i cur m tone t2 x (rest ++ ys) hp he]
        simp only at h ⊢
        rw [ih _ _ _ _ ys h]
        simp

theorem toneSamples_isEnd (env : FloatEnv) (sq : Sequencer) (k : FeedConst) (frame : List ℚ) :
    ∀ (i : Int) (cur m : ℚ) (tone : Tone),
      (toneSamples env sq k i cur m tone frame).isEnd = true →
      ∃ (pre : List ℚ) (x : ℚ) (post : List ℚ), frame = pre ++ x :: post ∧
        (toneSamples env sq k i cur m tone pre).isEnd = false ∧
        pastEnd (restartStep (toneSamples env sq k i cur m tone pre).tone
            (cur + (pre.length : ℚ) * k.delta)) (cur + (pre.length : ℚ) * k.delta) = true := by
  induction frame with
  | nil => intro i cur m tone h; simp [toneSamples] at h
  | cons x rest ih =>
    intro i cur m tone h
    by_cases hp : pastEnd (restartStep tone cur) cur = true
    · exact ⟨[], x, rest, rfl, by simp [toneSamples], by simpa [toneSamples] using hp⟩
    · rw [toneSamples] at h
      simp only at h
      rw [if_neg hp] at h
      cases he : envelopeStep sq k (restartStep tone cur) cur with
      | none =>
        rw [he] at h
        simp only at h
        obtain ⟨pre, y, post, hf, h1, h2⟩ := ih _ _ _ _ h
        refine ⟨x :: pre, y, post, by rw [hf]; rfl, ?_, ?_⟩
        · rw [toneSamples]; simp only; rw [if_neg hp, he]; exact h1
        · have e2 : cur + ((x :: pre).length : ℚ) * k.delta
              = cur + k.delta + (pre.length : ℚ) * k.delta := by
            simp only [List.length_cons]; push_cast; ring
          rw [e2, toneSamples]; simp only; rw [if_neg hp, he]; exact h2
      | some t2 =>
        rw [he] at h
        simp only at h
        obtain ⟨pre, y, post, hf, h1, h2⟩ := ih _ _ _ _ h
        refine ⟨x :: pre, y, post, by rw [hf]; rfl, ?_, ?_⟩
        · rw [toneSamples]; simp only; rw [if_neg hp, he]; exact h1
        · have e2 : cur + ((x :: pre).length : ℚ) * k.delta
              = cur + k.delta + (pre.length : ℚ) * k.delta := by
            simp only [List.length_cons]; push_cast; ring
          rw [e2, toneSamples]; simp only; rw [if_neg hp, he]; exact h2

theorem feedTones_cons_reclaim (env : FloatEnv) (sq : Sequencer) (k : FeedConst) (tone : Tone)
    (rest free : List Tone) (frame : List ℚ) (mv : ℚ) (sig : List Signal)
    (hc : (toneSamples env sq k 0 (tone.passed : ℚ) 0 tone frame).isEnd = true ∧
      (toneSamples env sq k 0 (tone.passed : ℚ) 0 tone frame).tone.restartWaitDuration
        = FLOAT_LONGTIME) :
    feedTones env sq k (tone :: rest) free frame mv sig =
      feedTones env sq k rest
        (free ++ [reclaimTone (toneSamples env sq k 0 (tone.passed : ℚ) 0 tone frame).tone])
        (toneSamples env sq k 0 (tone.passed : ℚ) 0 tone frame).frame
        (if (toneSamples env sq k 0 (tone.passed : ℚ) 0 tone frame).maxFrameValue > mv
          then (toneSamples env sq k 0 (tone.passed : ℚ) 0 tone frame).maxFrameValue else mv)
        (sig ++ [Signal.levelMsg
          (toInt32 ((if (toneSamples env sq k 0 (tone.passed : ℚ) 0 tone frame).maxFrameValue > mv
            then (toneSamples env sq k 0 (tone.passed : ℚ) 0 tone frame).maxFrameValue else mv)
            * 1000))
          (toInt32 ((toneSamples env sq k 0 (tone.passed : ℚ) 0 tone frame).maxFrameValue
            * 1000))]) := by
  rw [feedTones]; simp only; rw [if_pos hc]

theorem feedTones_cons_keep (env : FloatEnv) (sq : Sequencer) (k : FeedConst) (tone : Tone)
    (rest free : List Tone) (frame : List ℚ) (mv : ℚ) (sig : List Signal)
    (hc : ¬((toneSamples env sq k 0 (tone.passed : ℚ) 0 tone frame).isEnd = true ∧
      (toneSamples env sq k 0 (tone.passed : ℚ) 0 tone frame).tone.restartWaitDuration
        = FLOAT_LONGTIME)) :
    feedTones env sq k (tone :: rest) free frame mv sig =
      { feedTones env sq k rest free
          (toneSamples env sq k 0 (tone.passed : ℚ) 0 tone frame).frame
          (if (toneSamples env sq k 0 (tone.passed : ℚ) 0 tone frame).maxFrameValue > mv
            then (toneSamples env sq k 0 (tone.passed : ℚ) 0 tone frame).maxFrameValue else mv)
          (sig ++ [Signal.levelMsg
            (toInt32 ((if (toneSamples env sq k 0 (tone.passed : ℚ) 0 tone frame).maxFrameValue
                > mv
              then (toneSamples env sq k 0 (tone.passed : ℚ) 0 tone frame).maxFrameValue else mv)
              * 1000))
            (toInt32 ((toneSamples env sq k 0 (tone.passed : ℚ) 0 tone frame).maxFrameValue
              * 1000))]) with
        activeTones :=
          { (toneSamples env sq k 0 (tone.passed : ℚ) 0 tone frame).tone with
            passed := (toneSamples env sq k 0 (tone.passed : ℚ) 0 tone frame).tone.passed
              + toInt32 (k.delta * (sq.bufferSamples : ℚ)) } ::
          (feedTones env sq k rest free
            (toneSamples env sq k 0 (tone.passed : ℚ) 0 tone frame).frame
            (if (toneSamples env sq k 0 (tone.passed : ℚ) 0 tone frame).maxFrameValue > mv
              then (toneSamples env sq k 0 (tone.passed : ℚ) 0 tone frame).maxFrameValue else mv)
            (sig ++ [Signal.levelMsg
              (toInt32 ((if (toneSamples env sq k 0 (tone.passed : ℚ) 0 tone frame).maxFrameValue
                  > mv
                then (toneSamples env sq k 0 (tone.passed : ℚ) 0 tone frame).maxFrameValue
                else mv) * 1000))
              (toInt32 ((toneSamples env sq k 0 (tone.passed : ℚ) 0 tone frame).maxFrameValue
                * 1000))])).activeTones } := by
  rw [feedTones]; simp only; rw [if_neg hc]

theorem feedTones_append (env : FloatEnv) (sq : Sequencer) (k : FeedConst) (xs : List Tone) :
    ∀ (ys free : List Tone) (frame : List ℚ) (mv : ℚ) (sig : List Signal),
      feedTones env sq k (xs ++ ys) free frame mv sig =
        { feedTones env sq k ys (feedTones env sq k xs free frame mv sig).freeTones
            (feedTones env sq k xs free frame mv sig).frame
            (feedTones env sq k xs free frame mv sig).maxValue
            (feedTones env sq k xs free frame mv sig).signals with
          activeTones := (feedTones env sq k xs free frame mv sig).activeTones ++
            (feedTones env sq k ys (feedTones env sq k xs free frame mv sig).freeTones
              (feedTones env sq k xs free frame mv sig).frame
              (feedTones env sq k xs free frame mv sig).maxValue
              (feedTones env sq k xs free frame mv sig).signals).activeTones } := by
  induction xs with
  | nil => intro ys free frame mv sig; simp [feedTones]
  | cons t rest ih =>
    intro ys free frame mv sig
    rw [List.cons_append]
    by_cases hc : (toneSamples env sq k 0 (t.passed : ℚ) 0 t frame).isEnd = true ∧
      (toneSamples env sq k 0 (t.passed : ℚ) 0 t frame).tone.restartWaitDuration = FLOAT_LONGTIME
    · rw [feedTones_cons_reclaim env sq k t (rest ++ ys) free frame mv sig hc,
        feedTones_cons_reclaim env sq k t rest free frame mv sig hc, ih]
    · rw [feedTones_cons_keep env sq k t (rest ++ ys) free frame mv sig hc,
        feedTones_cons_keep env sq k t rest free frame mv sig hc, ih]
      simp only [List.cons_append]

theorem feedTones_free_prefix (env : FloatEnv) (sq : Sequencer) (k : FeedConst)
    (tones : List Tone) :
    ∀ (free : List Tone) (frame : List ℚ) (mv : ℚ) (sig : List Signal),
      ∃ more : List Tone, (feedTones env sq k tones free frame mv sig).freeTones = free ++ more := by
  induction tones with
  | nil => intro free frame mv sig; exact ⟨[], by simp [feedTones]⟩
  | cons t rest ih =>
    intro free frame mv sig
    by_cases hc : (toneSamples env sq k 0 (t.passed : ℚ) 0 t frame).isEnd = true ∧
      (toneSamples env sq k 0 (t.passed : ℚ) 0 t frame).tone.restartWaitDuration = FLOAT_LONGTIME
    · rw [feedTones_cons_reclaim env sq k t rest free frame mv sig hc]
      obtain ⟨more, hm⟩ := ih (free ++ [reclaimTone
        (toneSamples env sq k 0 (t.passed : ℚ) 0 t frame).tone])
        (toneSamples env sq k 0 (t.passed : ℚ) 0 t frame).frame
        (if (toneSamples env sq k 0 (t.passed : ℚ) 0 t frame).maxFrameValue > mv
          then (toneSamples env sq k 0 (t.passed : ℚ) 0 t frame).maxFrameValue else mv)
        (sig ++ [Signal.levelMsg
          (toInt32 ((if (toneSamples env sq k 0 (t.passed : ℚ) 0 t frame).maxFrameValue > mv
            then (toneSamples env sq k 0 (t.passed : ℚ) 0 t frame).maxFrameValue else mv)
            * 1000))
          (toInt32 ((toneSamples env sq k 0 (t.passed : ℚ) 0 t frame).maxFrameValue
            * 1000))])
      exact ⟨reclaimTone (toneSamples env sq k 0 (t.passed : ℚ) 0 t frame).tone :: more,
        by rw [hm]; simp⟩
    · rw [feedTones_cons_keep env sq k t rest free frame mv sig hc]
      exact ih _ _ _ _

theorem toneSamples_ends_at (env : FloatEnv) (sq : Sequencer) (k : FeedConst) (tone : Tone)
    (pre : List ℚ) (x : ℚ) (post : List ℚ) (hend : EndsAt env sq k tone pre) :
    toneSamples env sq k 0 (tone.passed : ℚ) 0 tone (pre ++ x :: post) =
      { tone := voiceAtSample env sq k tone pre
        frame := (passBefore env sq k tone pre).frame ++ x :: post
        maxFrameValue := (passBefore env sq k tone pre).maxFrameValue
        isEnd := true } := by
  obtain ⟨h1, h2⟩ := hend
  unfold voiceAtSample sampleTime at h2
  unfold passBefore at h1 h2
  rw [toneSamples_append env sq k pre 0 _ 0 tone (x :: post) h1,
    toneSamples_cons_end env sq k _ _ _ _ x post h2]
  rfl

theorem toneSamples_never_ends (env : FloatEnv) (sq : Sequencer) (k : FeedConst) (tone : Tone)
    (frame : List ℚ)
    (hnever : ∀ (pre : List ℚ) (x : ℚ) (post : List ℚ), frame = pre ++ x :: post →
      pastEnd (voiceAtSample env sq k tone pre) (sampleTime k tone pre.length) = false) :
    (toneSamples env sq k 0 (tone.passed : ℚ) 0 tone frame).isEnd = false := by
  by_contra h
  rw [Bool.not_eq_false] at h
  obtain ⟨pre, x, post, hf, _, h2⟩ := toneSamples_isEnd env sq k frame 0 _ 0 tone h
  have h3 := hnever pre x post hf
  unfold voiceAtSample sampleTime passBefore at h3
  rw [h2] at h3
  cases h3

theorem voiceAtSample_nil (env : FloatEnv) (sq : Sequencer) (k : FeedConst) (tone : Tone) :
    voiceAtSample env sq k tone [] = restartStep tone (tone.passed : ℚ) := by
  simp [voiceAtSample, passBefore, sampleTime, toneSamples]

theorem sampleTime_zero (k : FeedConst) (tone : Tone) :
    sampleTime k tone 0 = (tone.passed : ℚ) := by
  simp [sampleTime]

theorem restartStep_of_le (tone : Tone) (current : ℚ)
    (h : current ≤ tone.restartWaitDuration) : restartStep tone current = tone := by
  unfold restartStep
  rw [if_neg (not_lt.mpr h)]

/-! ## Allocation: delay taps and mix weights -/

theorem tapActive_iff (time ratio : ℚ) : tapActive time ratio = true ↔ TapEnabled time ratio := by
  unfold tapActive TapEnabled delayBufferDuration
  simp only [Bool.and_eq_true, decide_eq_true_eq, gt_iff_lt]
  tauto

theorem allocDelay_tap0 (sq : Sequencer) (t : Tone) :
    TapRule t.instrument.delay0Time t.instrument.delay0Ratio
      (allocDelay sq t).delay0Ratio (allocDelay sq t).delay0Index := by
  unfold TapRule
  rw [← tapActive_iff]
  constructor
  · intro h
    show (if tapActive t.instrument.delay0Time t.instrument.delay0Ratio = true
      then t.instrument.delay0Ratio else 0) = _
    rw [if_pos h]
  · intro h
    constructor
    · show (if tapActive t.instrument.delay0Time t.instrument.delay0Ratio = true
        then t.instrument.delay0Ratio else 0) = _
      rw [if_neg h]
    · show (if tapActive t.instrument.delay0Time t.instrument.delay0Ratio = true
        then tapIndex sq t.instrument.delay0Time else 0) = _
      rw [if_neg h]

theorem allocDelay_tap1 (sq : Sequencer) (t : Tone) :
    TapRule t.instrument.delay1Time t.instrument.delay1Ratio
      (allocDelay sq t).delay1Ratio (allocDelay sq t).delay1Index := by
  unfold TapRule
  rw [← tapActive_iff]
  constructor
  · intro h
    show (if tapActive t.instrument.delay1Time t.instrument.delay1Ratio = true
      then t.instrument.delay1Ratio else 0) = _
    rw [if_pos h]
  · intro h
    constructor
    · show (if tapActive t.instrument.delay1Time t.instrument.delay1Ratio = true
        then t.instrument.delay1Ratio else 0) = _
      rw [if_neg h]
    · show (if tapActive t.instrument.delay1Time t.instrument.delay1Ratio = true
        then tapIndex sq t.instrument.delay1Time else 0) = _
      rw [if_neg h]

theorem allocDelay_tap2 (sq : Sequencer) (t : Tone) :
    TapRule t.instrument.delay2Time t.instrument.delay2Ratio
      (allocDelay sq t).delay2Ratio (allocDelay sq t).delay2Index := by
  unfold TapRule
  rw [← tapActive_iff]
  constructor
  · intro h
    show (if tapActive t.instrument.delay2Time t.instrument.delay2Ratio = true
      then t.instrument.delay2Ratio else 0) = _
    rw [if_pos h]
  · intro h
    constructor
    · show (if tapActive t.instrument.delay2Time t.instrument.delay2Ratio = true
        then t.instrument.delay2Ratio else 0) = _
      rw [if_neg h]
    · show (if tapActive t.instrument.delay2Time t.instrument.delay2Ratio = true
        then tapIndex sq t.instrument.delay2Time else 0) = _
      rw [if_neg h]

theorem allocDelay_mainRatio (sq : Sequencer) (t : Tone) :
    (allocDelay sq t).mainRatio
      = 1 - ((allocDelay sq t).delay0Ratio + (allocDelay sq t).delay1Ratio
          + (allocDelay sq t).delay2Ratio) := rfl

/-- The delay fields of the voice `allocTone` returns are those `allocDelay`
sets, and its instrument is the one `allocDelay` reads. -/
theorem allocTone_delay (env : FloatEnv) (sq : Sequencer) (n : Note) (d : ℚ) (t : Tone) :
    ∃ t1 : Tone, t1.instrument = (allocTone env sq n d t).instrument ∧
      allocTone env sq n d t = allocSlopes sq (allocDelay sq t1) :=
  ⟨allocIncrements env sq (allocModulation env sq (allocGains sq (allocSelected env sq n d t))),
    rfl, rfl⟩

theorem allocSlopes_base1ratio (sq : Sequencer) (t : Tone) :
    (allocSlopes sq t).base1ratio = t.base1ratio := rfl

theorem allocDelay_base1ratio (sq : Sequencer) (t : Tone) :
    (allocDelay sq t).base1ratio = t.base1ratio := rfl

theorem allocIncrements_base1ratio (env : FloatEnv) (sq : Sequencer) (t : Tone) :
    (allocIncrements env sq t).base1ratio = t.base1ratio := rfl

theorem allocModulation_base1ratio (env : FloatEnv) (sq : Sequencer) (t : Tone) :
    (allocModulation env sq t).base1ratio = t.base1ratio := rfl

theorem allocSlopes_base2ratio (sq : Sequencer) (t : Tone) :
    (allocSlopes sq t).base2ratio = t.base2ratio := rfl

theorem allocDelay_base2ratio (sq : Sequencer) (t : Tone) :
    (allocDelay sq t).base2ratio = t.base2ratio := rfl

theorem allocIncrements_base2ratio (env : FloatEnv) (sq : Sequencer) (t : Tone) :
    (allocIncrements env sq t).base2ratio = t.base2ratio := rfl

theorem allocModulation_base2ratio (env : FloatEnv) (sq : Sequencer) (t : Tone) :
    (allocModulation env sq t).base2ratio = t.base2ratio := rfl

theorem allocSlopes_base3ratio (sq : Sequencer) (t : Tone) :
    (allocSlopes sq t).base3ratio = t.base3ratio := rfl

theorem allocDelay_base3ratio (sq : Sequencer) (t : Tone) :
    (allocDelay sq t).base3ratio = t.base3ratio := rfl

theorem allocIncrements_base3ratio (env : FloatEnv) (sq : Sequencer) (t : Tone) :
    (allocIncrements env sq t).base3ratio = t.base3ratio := rfl

theorem allocModulation_base3ratio (env : FloatEnv) (sq : Sequencer) (t : Tone) :
    (allocModulation env sq t).base3ratio = t.base3ratio := rfl

/-- The mix weights of the voice `allocTone` returns are those `allocGains`
sets from the instrument of the voice. -/
theorem allocTone_mix (env : FloatEnv) (sq : Sequencer) (n : Note) (d : ℚ) (t : Tone) :
    (allocTone env sq n d t).base1ratio = (allocTone env sq n d t).instrument.baseVsOthersRatio ∧
    (allocTone env sq n d t).base2ratio
      = (1 - (allocTone env sq n d t).instrument.baseVsOthersRatio)
        * (allocTone env sq n d t).instrument.side1VsSide2Ratio ∧
    (allocTone env sq n d t).base3ratio
      = (1 - (allocTone env sq n d t).instrument.baseVsOthersRatio)
        * (1 - (allocTone env sq n d t).instrument.side1VsSide2Ratio) := by
  unfold allocTone
  rw [allocSlopes_base1ratio, allocDelay_base1ratio, allocIncrements_base1ratio,
    allocModulation_base1ratio, allocSlopes_base2ratio, allocDelay_base2ratio,
    allocIncrements_base2ratio, allocModulation_base2ratio, allocSlopes_base3ratio,
    allocDelay_base3ratio, allocIncrements_base3ratio, allocModulation_base3ratio,
    allocSlopes_instrument, allocDelay_instrument, allocIncrements_instrument,
    allocModulation_instrument, allocGains_instrument]
  exact ⟨rfl, rfl, rfl⟩

theorem absf_le_one_iff (x : ℚ) : absf x ≤ 1 ↔ -1 ≤ x ∧ x ≤ 1 := by
  unfold absf
  split_ifs with h
  · constructor
    · intro h1; constructor <;> linarith
    · intro h1; linarith [h1.1]
  · constructor
    · intro h1; constructor <;> linarith
    · intro h1; exact h1.2

theorem oscSample_ratio (sq : Sequencer) (k : FeedConst) (wave : Int) (phase : ℚ)
    (realKey : Int) (ratio : ℚ) :
    oscSample sq k wave phase realKey ratio = oscSample sq k wave phase realKey 1 * ratio := by
  unfold oscSample
  simp only [mul_one]

/-- A mix of three values of absolute value at most 1 with the weights `b`,
`(1 - b) s` and `(1 - b) (1 - s)`, for `b` and `s` in `[0, 1]`, has absolute
value at most 1. -/
theorem mix_within_unit (x1 x2 x3 b s : ℚ) (hb0 : 0 ≤ b) (hb1 : b ≤ 1) (hs0 : 0 ≤ s)
    (hs1 : s ≤ 1) (h1 : absf x1 ≤ 1) (h2 : absf x2 ≤ 1) (h3 : absf x3 ≤ 1) :
    absf (x1 * b + x2 * ((1 - b) * s) + x3 * ((1 - b) * (1 - s))) ≤ 1 := by
  rw [absf_le_one_iff] at h1 h2 h3 ⊢
  have w2 : 0 ≤ (1 - b) * s := mul_nonneg (by linarith) hs0
  have w3 : 0 ≤ (1 - b) * (1 - s) := mul_nonneg (by linarith) (by linarith)
  have hsum : b + (1 - b) * s + (1 - b) * (1 - s) = 1 := by ring
  have a1 := mul_le_mul_of_nonneg_right h1.2 hb0
  have a2 := mul_le_mul_of_nonneg_right h2.2 w2
  have a3 := mul_le_mul_of_nonneg_right h3.2 w3
  have c1 := mul_le_mul_of_nonneg_right h1.1 hb0
  have c2 := mul_le_mul_of_nonneg_right h2.1 w2
  have c3 := mul_le_mul_of_nonneg_right h3.1 w3
  constructor <;> linarith

/-! ## The delay ring -/

/-- A property of a voice that the restart test, the envelope branches and
the signal block of the sample loop each keep is kept by the whole loop. -/
theorem toneSamples_preserves (env : FloatEnv) (sq : Sequencer) (k : FeedConst)
    (P : Tone → Prop)
    (hrestart : ∀ (t : Tone) (c : ℚ), P t → P (restartStep t c))
    (henv : ∀ (t t' : Tone) (c : ℚ), P t → envelopeStep sq k t c = some t' → P t')
    (hsig : ∀ (i : Int) (c : ℚ) (t : Tone), P t → P (signalStep env sq k i c t).1)
    (frame : List ℚ) :
    ∀ (i : Int) (current m : ℚ) (tone : Tone), P tone →
      P (toneSamples env sq k i current m tone frame).tone := by
  induction frame with
  | nil => intro i current m tone h; exact h
  | cons x rest ih =>
    intro i current m tone h
    have h1 := hrestart tone current h
    by_cases hp : pastEnd (restartStep tone current) current = true
    · rw [toneSamples_cons_end env sq k i current m tone x rest hp]
      exact h1
    · cases he : envelopeStep sq k (restartStep tone current) current with
      | none =>
        rw [toneSamples_cons_none env sq k i current m tone x rest hp he]
        exact ih _ _ _ _ h1
      | some t2 =>
        rw [toneSamples_cons_some env sq k i current m tone t2 x rest hp he]
        exact ih _ _ _ _ (hsig i current t2 (henv _ t2 current h1 he))

/-- The fields of the delay section and the stored time are not written by
the restart test. -/
theorem restartStep_delay (t : Tone) (c : ℚ) :
    (restartStep t c).delayBuffer = t.delayBuffer ∧
    (restartStep t c).delayBufferIndex = t.delayBufferIndex ∧
    (restartStep t c).delay0Index = t.delay0Index ∧
    (restartStep t c).delay1Index = t.delay1Index ∧
    (restartStep t c).delay2Index = t.delay2Index ∧
    (restartStep t c).passed = t.passed := by
  unfold restartStep
  split_ifs <;> exact ⟨rfl, rfl, rfl, rfl, rfl, rfl⟩

/-- The fields of the delay section and the stored time are not written by
the envelope branches. -/
theorem envelopeStep_delay (sq : Sequencer) (k : FeedConst) (t t' : Tone) (c : ℚ)
    (he : envelopeStep sq k t c = some t') :
    t'.delayBuffer = t.delayBuffer ∧
    t'.delayBufferIndex = t.delayBufferIndex ∧
    t'.delay0Index = t.delay0Index ∧
    t'.delay1Index = t.delay1Index ∧
    t'.delay2Index = t.delay2Index ∧
    t'.passed = t.passed := by
  unfold envelopeStep at he
  by_cases c1 : c > t.waitDuration + t.mainteinDuration
  · rw [if_pos c1] at he
    simp only at he
    injection he with he
    subst he
    exact ⟨rfl, rfl, rfl, rfl, rfl, rfl⟩
  · rw [if_neg c1] at he
    by_cases c2 : c > t.waitDuration + t.instrument.atackSlopeTime
    · rw [if_pos c2] at he
      simp only at he
      injection he with he
      subst he
      exact ⟨rfl, rfl, rfl, rfl, rfl, rfl⟩
    · rw [if_neg c2] at he
      by_cases c3 : c > t.waitDuration
      · rw [if_pos c3] at he
        simp only at he
        injection he with he
        subst he
        exact ⟨rfl, rfl, rfl, rfl, rfl, rfl⟩
      · rw [if_neg c3] at he
        cases he

/-- The signal block ends in the delay section, run on a voice with the
delay fields and the stored time the block found. -/
theorem signalStep_delay (env : FloatEnv) (sq : Sequencer) (k : FeedConst) (i : Int) (c : ℚ)
    (t : Tone) :
    ∃ (t1 : Tone) (data : ℚ), (signalStep env sq k i c t).1 = delayStep sq t1 data ∧
      t1.delayBuffer = t.delayBuffer ∧
      t1.delayBufferIndex = t.delayBufferIndex ∧
      t1.delay0Index = t.delay0Index ∧
      t1.delay1Index = t.delay1Index ∧
      t1.delay2Index = t.delay2Index ∧
      t1.passed = t.passed :=
  ⟨_, _, rfl, rfl, rfl, rfl, rfl, rfl, rfl⟩

theorem delayStep_passed (sq : Sequencer) (t : Tone) (data : ℚ) :
    (delayStep sq t data).passed = t.passed := rfl

theorem limitDelay_mem (d : ℚ) : -1 ≤ limitDelay d ∧ limitDelay d ≤ 1 := by
  unfold limitDelay
  simp only
  split_ifs with h1 h2 h3
  · norm_num at h2
  · norm_num
  · norm_num
  · constructor <;> linarith

theorem update_bounded (n : Int) (f : Int → ℚ) (a : Int) (v : ℚ) (hv : -1 ≤ v ∧ v ≤ 1)
    (hf : ∀ i : Int, 0 ≤ i → i < n → -1 ≤ f i ∧ f i ≤ 1) :
    ∀ i : Int, 0 ≤ i → i < n → -1 ≤ Function.update f a v i ∧ Function.update f a v i ≤ 1 := by
  intro i h0 h1
  rw [Function.update_apply]
  split_ifs
  · exact hv
  · exact hf i h0 h1

/-- The delay section keeps every cell of the ring in `[-1, 1]`. -/
theorem delayStep_bounded (sq : Sequencer) (t : Tone) (data : ℚ) (h : DelayBounded sq t) :
    DelayBounded sq (delayStep sq t data) := by
  unfold DelayBounded delayStep
  simp only
  exact update_bounded _ _ _ _ (by norm_num)
    (update_bounded _ _ _ _ (limitDelay_mem _)
      (update_bounded _ _ _ _ (limitDelay_mem _)
        (update_bounded _ _ _ _ (limitDelay_mem _) h)))

/-- Allocation leaves every cell of the ring at 0. -/
theorem allocTone_delayBuffer (env : FloatEnv) (sq : Sequencer) (n : Note) (d : ℚ) (t : Tone)
    (i : Int) (h0 : 0 ≤ i) (h1 : i < sq.delayBufferSize) :
    (allocTone env sq n d t).delayBuffer i = 0 := by
  obtain ⟨t1, _, hv⟩ := allocTone_delay env sq n d t
  rw [hv]
  show (if 0 ≤ i ∧ i < sq.delayBufferSize then (0 : ℚ) else t1.delayBuffer i) = 0
  rw [if_pos ⟨h0, h1⟩]

theorem toneSamples_bounded (env : FloatEnv) (sq : Sequencer) (k : FeedConst)
    (frame : List ℚ) (i : Int) (current m : ℚ) (tone : Tone) (h : DelayBounded sq tone) :
    DelayBounded sq (toneSamples env sq k i current m tone frame).tone := by
  refine toneSamples_preserves env sq k (DelayBounded sq) ?_ ?_ ?_ frame i current m tone h
  · intro t c ht
    unfold DelayBounded
    rw [(restartStep_delay t c).1]
    exact ht
  · intro t t' c ht he
    unfold DelayBounded
    rw [(envelopeStep_delay sq k t t' c he).1]
    exact ht
  · intro j c t ht
    obtain ⟨t1, data, hs, hb, _⟩ := signalStep_delay env sq k j c t
    rw [hs]
    refine delayStep_bounded sq t1 data ?_
    unfold DelayBounded
    rw [hb]
    exact ht

theorem nextIndex_mem (a n : Int) (h0 : 0 ≤ a) (h1 : a < n) :
    0 ≤ nextIndex a n ∧ nextIndex a n < n := by
  unfold nextIndex
  split_ifs <;> omega

theorem nextIndex_offset (a c n : Int) :
    (nextIndex a n - nextIndex c n) % n = (a - c) % n := by
  unfold nextIndex
  by_cases h1 : a + 1 = n
  · by_cases h2 : c + 1 = n
    · rw [if_pos h1, if_pos h2]
      have : a - c = 0 := by omega
      rw [this, sub_self]
    · rw [if_pos h1, if_neg h2]
      have : (0 : Int) - (c + 1) = (a - c) + (-1) * n := by omega
      rw [this, Int.add_mul_emod_self]
  · by_cases h2 : c + 1 = n
    · rw [if_neg h1, if_pos h2]
      have : a + 1 - 0 = (a - c) + 1 * n := by omega
      rw [this, Int.add_mul_emod_self]
    · rw [if_neg h1, if_neg h2]
      have : a + 1 - (c + 1) = a - c := by omega
      rw [this]

/-- The delay section moves the cursor and the three taps on by one cell
round the ring. -/
theorem delayStep_cursors (sq : Sequencer) (t : Tone) (data : ℚ) (o0 o1 o2 : Int)
    (h : DelayCursors sq t o0 o1 o2) : DelayCursors sq (delayStep sq t data) o0 o1 o2 := by
  obtain ⟨hc, h0, h1, h2, e0, e1, e2⟩ := h
  refine ⟨nextIndex_mem _ _ hc.1 hc.2, nextIndex_mem _ _ h0.1 h0.2, nextIndex_mem _ _ h1.1 h1.2,
    nextIndex_mem _ _ h2.1 h2.2, ?_, ?_, ?_⟩
  · show (nextIndex t.delay0Index sq.delayBufferSize
      - nextIndex t.delayBufferIndex sq.delayBufferSize) % sq.delayBufferSize = o0
    rw [nextIndex_offset, e0]
  · show (nextIndex t.delay1Index sq.delayBufferSize
      - nextIndex t.delayBufferIndex sq.delayBufferSize) % sq.delayBufferSize = o1
    rw [nextIndex_offset, e1]
  · show (nextIndex t.delay2Index sq.delayBufferSize
      - nextIndex t.delayBufferIndex sq.delayBufferSize) % sq.delayBufferSize = o2
    rw [nextIndex_offset, e2]

/-- The cursor invariant reads the four index fields only. -/
theorem delayCursors_congr (sq : Sequencer) (t t' : Tone) (o0 o1 o2 : Int)
    (hc : t'.delayBufferIndex = t.delayBufferIndex) (h0 : t'.delay0Index = t.delay0Index)
    (h1 : t'.delay1Index = t.delay1Index) (h2 : t'.delay2Index = t.delay2Index)
    (h : DelayCursors sq t o0 o1 o2) : DelayCursors sq t' o0 o1 o2 := by
  obtain ⟨a, b, c, d, e, f, g⟩ := h
  constructor
  · rw [hc]; exact a
  · rw [h0]; exact b
  · rw [h1]; exact c
  · rw [h2]; exact d
  · rw [h0, hc]; exact e
  · rw [h1, hc]; exact f
  · rw [h2, hc]; exact g

theorem signalStep_cursors (env : FloatEnv) (sq : Sequencer) (k : FeedConst) (i : Int) (c : ℚ)
    (t : Tone) (o0 o1 o2 : Int) (h : DelayCursors sq t o0 o1 o2) :
    DelayCursors sq (signalStep env sq k i c t).1 o0 o1 o2 := by
  obtain ⟨t1, data, hs, _, hc, h0, h1, h2, _⟩ := signalStep_delay env sq k i c t
  rw [hs]
  exact delayStep_cursors sq t1 data o0 o1 o2 (delayCursors_congr sq t t1 o0 o1 o2 hc h0 h1 h2 h)

theorem toneSamples_cursors (env : FloatEnv) (sq : Sequencer) (k : FeedConst)
    (frame : List ℚ) (i : Int) (current m : ℚ) (tone : Tone) (o0 o1 o2 : Int)
    (h : DelayCursors sq tone o0 o1 o2) :
    DelayCursors sq (toneSamples env sq k i current m tone frame).tone o0 o1 o2 := by
  refine toneSamples_preserves env sq k (fun t => DelayCursors sq t o0 o1 o2) ?_ ?_ ?_
    frame i current m tone h
  · intro t c ht
    obtain ⟨_, hc, h0, h1, h2, _⟩ := restartStep_delay t c
    exact delayCursors_congr sq t _ o0 o1 o2 hc h0 h1 h2 ht
  · intro t t' c ht he
    obtain ⟨_, hc, h0, h1, h2, _⟩ := envelopeStep_delay sq k t t' c he
    exact delayCursors_congr sq t _ o0 o1 o2 hc h0 h1 h2 ht
  · intro j c t ht
    exact signalStep_cursors env sq k j c t o0 o1 o2 ht

theorem allocDelay_index0 (sq : Sequencer) (t : Tone) :
    (allocDelay sq t).delay0Index
      = if tapActive t.instrument.delay0Time t.instrument.delay0Ratio = true
        then tapIndex sq t.instrument.delay0Time else 0 := rfl

theorem allocDelay_index1 (sq : Sequencer) (t : Tone) :
    (allocDelay sq t).delay1Index
      = if tapActive t.instrument.delay1Time t.instrument.delay1Ratio = true
        then tapIndex sq t.instrument.delay1Time else 0 := rfl

theorem allocDelay_index2 (sq : Sequencer) (t : Tone) :
    (allocDelay sq t).delay2Index
      = if tapActive t.instrument.delay2Time t.instrument.delay2Ratio = true
        then tapIndex sq t.instrument.delay2Time else 0 := rfl

/-! ## The wave tables -/

/-- A loop that writes one row of a two-dimensional table leaves the other
rows as they were. -/
theorem foldl_row_other (row r : Int) (hr : r ≠ row)
    (G : Int → (Int → Int → ℚ) → Int → ℚ) (init : Int → Int → ℚ) (m : Nat) :
    (List.range m).foldl (fun w (i : Nat) => Function.update w row (G (i : Int) w)) init r
      = init r := by
  induction m with
  | zero => rfl
  | succ m ih =>
    rw [List.range_succ, List.foldl_append]
    simp only [List.foldl_cons, List.foldl_nil]
    rw [Function.update_noteq hr, ih]

theorem forLoop_row_other (n : Int) (row r : Int) (hr : r ≠ row)
    (G : Int → (Int → Int → ℚ) → Int → ℚ) (init : Int → Int → ℚ) :
    forLoop n (fun i w => Function.update w row (G i w)) init r = init r :=
  foldl_row_other row r hr G init n.toNat

/-- A loop of writes `table[row][idx i] = val i` over `0 .. m - 1`, with
`idx` hitting the cell `idx j` at `i = j` only: that cell holds `val j`. -/
theorem foldl_row_write (row : Int) (idx : Int → Int) (val : Int → ℚ)
    (init : Int → Int → ℚ) (m : Nat) :
    ∀ j : Nat, j < m → (∀ i : Nat, i < m → idx (i : Int) = idx (j : Int) → i = j) →
      (List.range m).foldl
          (fun w (i : Nat) =>
            Function.update w row (Function.update (w row) (idx (i : Int)) (val (i : Int))))
          init row (idx (j : Int))
        = val (j : Int) := by
  induction m with
  | zero => intro j hj; omega
  | succ m ih =>
    intro j hj hinj
    rw [List.range_succ, List.foldl_append]
    simp only [List.foldl_cons, List.foldl_nil]
    rw [Function.update_same]
    by_cases hjm : j = m
    · rw [hjm, Function.update_same]
    · have hne : idx (j : Int) ≠ idx (m : Int) := by
        intro h
        exact hjm (hinj m (by omega) h.symm).symm
      rw [Function.update_noteq hne]
      exact ih j (by omega) (fun i hi h => hinj i (by omega) h)

theorem forLoop_row_write (n : Int) (row : Int) (idx : Int → Int) (val : Int → ℚ)
    (init : Int → Int → ℚ) (j : Int) (h0 : 0 ≤ j) (h1 : j < n)
    (hinj : ∀ i : Int, 0 ≤ i → i < n → idx i = idx j → i = j) :
    forLoop n (fun i w => Function.update w row (Function.update (w row) (idx i) (val i)))
        init row (idx j)
      = val j := by
  unfold forLoop
  have h := foldl_row_write row idx val init n.toNat j.toNat (by omega)
    (fun i hi h => by
      have := hinj (i : Int) (by omega) (by omega) (by rw [h, Int.toNat_of_nonneg h0])
      omega)
  rw [Int.toNat_of_nonneg h0] at h
  exact h

/-- The index `(i + 3 * s / 4) % s` at which the triangle and the sawtooth
are stored, for `i` in `0 .. s - 1`. -/
theorem rotated_index (i : Int) (h0 : 0 ≤ i) (h1 : i < waveLUTSize) :
    Int.tmod (i + 3 * waveLUTSize / 4) waveLUTSize = (i + 24576) % 32768 := by
  unfold waveLUTSize at h1 ⊢
  rw [Int.tmod_eq_emod (by omega) (by norm_num)]
  norm_num

theorem rotated_index_inj (i j : Int) (hi0 : 0 ≤ i) (hi1 : i < waveLUTSize) (hj0 : 0 ≤ j)
    (hj1 : j < waveLUTSize)
    (h : Int.tmod (i + 3 * waveLUTSize / 4) waveLUTSize
      = Int.tmod (j + 3 * waveLUTSize / 4) waveLUTSize) : i = j := by
  rw [rotated_index i hi0 hi1, rotated_index j hj0 hj1] at h
  unfold waveLUTSize at hi1 hj1
  omega

/-- The sine row of the wave tables: cell `i` of `0 .. s - 1` holds
`sinf(2 PI i / s)`. -/
theorem buildWaveLUT_sin (env : FloatEnv) (old : Int → Int → ℚ) (i : Int) (h0 : 0 ≤ i)
    (h1 : i < waveLUTSize) :
    buildWaveLUT env old WAVE_SIN i = env.sinf (2 * env.PI * (i : ℚ) / (waveLUTSize : ℚ)) := by
  unfold buildWaveLUT
  rw [forLoop_row_other _ WAVE_SINSAWx2 WAVE_SIN (by decide),
    forLoop_row_other _ WAVE_SAWTOOTH WAVE_SIN (by decide),
    forLoop_row_other _ WAVE_TRIANGLE WAVE_SIN (by decide),
    forLoop_row_other _ WAVE_SQUARE WAVE_SIN (by decide)]
  exact forLoop_row_write waveLUTSize WAVE_SIN (fun i => i)
    (fun i => env.sinf (2 * env.PI * (i : ℚ) / (waveLUTSize : ℚ))) old i h0 h1
    (fun _ _ _ h => h)

/-- The triangle row of the wave tables: the ramp value of `i` is stored at
the cell `(i + 3 s / 4) % s`. -/
theorem buildWaveLUT_triangle (env : FloatEnv) (old : Int → Int → ℚ) (i : Int) (h0 : 0 ≤ i)
    (h1 : i < waveLUTSize) :
    buildWaveLUT env old WAVE_TRIANGLE (Int.tmod (i + 3 * waveLUTSize / 4) waveLUTSize)
      = if i < waveLUTSize / 2 then ((i : ℚ) * 4) / (waveLUTSize : ℚ) - 1
        else 3 - ((i : ℚ) * 4) / (waveLUTSize : ℚ) := by
  unfold buildWaveLUT
  rw [forLoop_row_other _ WAVE_SINSAWx2 WAVE_TRIANGLE (by decide),
    forLoop_row_other _ WAVE_SAWTOOTH WAVE_TRIANGLE (by decide)]
  exact forLoop_row_write waveLUTSize WAVE_TRIANGLE
    (fun i => Int.tmod (i + 3 * waveLUTSize / 4) waveLUTSize)
    (fun i => if i < waveLUTSize / 2 then ((i : ℚ) * 4) / (waveLUTSize : ℚ) - 1
      else 3 - ((i : ℚ) * 4) / (waveLUTSize : ℚ)) _ i h0 h1
    (fun k hk0 hk1 h => rotated_index_inj k i hk0 hk1 h0 h1 h)

/-- The sawtooth row of the wave tables: the ramp value of `i` is stored at
the cell `(i + 3 s / 4) % s`. -/
theorem buildWaveLUT_sawtooth (env : FloatEnv) (old : Int → Int → ℚ) (i : Int) (h0 : 0 ≤ i)
    (h1 : i < waveLUTSize) :
    buildWaveLUT env old WAVE_SAWTOOTH (Int.tmod (i + 3 * waveLUTSize / 4) waveLUTSize)
      = ((i : ℚ) * 2) / (waveLUTSize : ℚ) - 1 := by
  unfold buildWaveLUT
  rw [forLoop_row_other _ WAVE_SINSAWx2 WAVE_SAWTOOTH (by decide)]
  exact forLoop_row_write waveLUTSize WAVE_SAWTOOTH
    (fun i => Int.tmod (i + 3 * waveLUTSize / 4) waveLUTSize)
    (fun i => ((i : ℚ) * 2) / (waveLUTSize : ℚ) - 1) _ i h0 h1
    (fun k hk0 hk1 h => rotated_index_inj k i hk0 hk1 h0 h1 h)

theorem initParam_waveLUT (env : FloatEnv) (sq : Sequencer) (rate time : ℚ) (samples : Int) :
    (initParam env sq rate time samples).waveLUT = buildWaveLUT env sq.waveLUT := by
  simp only [initParam]

/-- Cell 0 of the rotated rows is the cell of `i = s / 4 = 8192`. -/
theorem rotated_index_zero : Int.tmod (8192 + 3 * waveLUTSize / 4) waveLUTSize = 0 := by
  rw [rotated_index 8192 (by norm_num) (by norm_num [waveLUTSize])]
  norm_num

/-! ## The pink-noise table -/

/-- The first component of a loop on a pair, when the body updates it
without reading the second. -/
theorem foldl_fst {α β : Type} (body : Int → α × β → α × β) (g : Int → α → α)
    (h : ∀ (i : Int) (st : α × β), (body i st).1 = g i st.1) (init : α × β) (m : Nat) :
    ((List.range m).foldl (fun st (i : Nat) => body (i : Int) st) init).1
      = (List.range m).foldl (fun a (i : Nat) => g (i : Int) a) init.1 := by
  induction m with
  | zero => rfl
  | succ m ih =>
    rw [List.range_succ, List.foldl_append, List.foldl_append]
    simp only [List.foldl_cons, List.foldl_nil]
    rw [h, ih]

theorem forLoop_fst {α β : Type} (n : Int) (body : Int → α × β → α × β) (g : Int → α → α)
    (h : ∀ (i : Int) (st : α × β), (body i st).1 = g i st.1) (init : α × β) :
    (forLoop n body init).1 = forLoop n g init.1 :=
  foldl_fst body g h init n.toNat

/-- The correction loop of the pink table adds `diff * i` to cell `i`. -/
theorem pinkCorrected_get (env : FloatEnv) (n : Int) (white : Int → ℚ) (i : Int)
    (h0 : 0 ≤ i) (h1 : i < n) :
    (pinkCorrected env n white).1 i
      = (pinkFiltered env n white).1 i + pinkDiff env n white * (i : ℚ) := by
  unfold pinkCorrected
  rw [forLoop_fst n _ (fun i lut => Function.update lut i (lut i + pinkDiff env n white * (i : ℚ)))
    (fun _ _ => rfl)]
  rw [forLoop_update_self n (fun i v => v + pinkDiff env n white * (i : ℚ)), if_pos ⟨h0, h1⟩]

/-! ## The stored time -/

/-- The sample loop does not write the stored time `passed`. -/
theorem toneSamples_passed (env : FloatEnv) (sq : Sequencer) (k : FeedConst)
    (frame : List ℚ) (i : Int) (current m : ℚ) (tone : Tone) :
    (toneSamples env sq k i current m tone frame).tone.passed = tone.passed := by
  refine toneSamples_preserves env sq k (fun t => t.passed = tone.passed) ?_ ?_ ?_
    frame i current m tone rfl
  · intro t c ht
    rw [(restartStep_delay t c).2.2.2.2.2]
    exact ht
  · intro t t' c ht he
    rw [(envelopeStep_delay sq k t t' c he).2.2.2.2.2]
    exact ht
  · intro j c t ht
    obtain ⟨t1, data, hs, _, _, _, _, _, hp⟩ := signalStep_delay env sq k j c t
    rw [hs, delayStep_passed, hp]
    exact ht

/-- A voice the loop of `feed` keeps is the head of the resulting active
list, with `passed` moved on by `(int32_t)(delta * bufferSamples)`. -/
theorem feedTones_kept_passed (env : FloatEnv) (sq : Sequencer) (k : FeedConst) (tone : Tone)
    (rest free : List Tone) (frame : List ℚ) (mv : ℚ) (sig : List Signal)
    (hc : ¬((toneSamples env sq k 0 (tone.passed : ℚ) 0 tone frame).isEnd = true ∧
      (toneSamples env sq k 0 (tone.passed : ℚ) 0 tone frame).tone.restartWaitDuration
        = FLOAT_LONGTIME)) :
    ((feedTones env sq k (tone :: rest) free frame mv sig).activeTones.head?).map
        (fun t => t.passed)
      = some (tone.passed + toInt32 (k.delta * (sq.bufferSamples : ℚ))) := by
  rw [feedTones_cons_keep env sq k tone rest free frame mv sig hc]
  simp only [List.head?_cons, Option.map_some']
  rw [toneSamples_passed]

/-! ## The oscillator phases -/

/-- The FM phase after the signal block of a started voice. -/
theorem signalStep_fmPhase (env : FloatEnv) (sq : Sequencer) (k : FeedConst) (i : Int)
    (current : ℚ) (tone : Tone) (hstart : current > tone.waitDuration) :
    (signalStep env sq k i current tone).1.fmPhase
      = advancePhase env tone.fmPhase tone.fmIncrement := by
  show (if decide (current > tone.waitDuration) = true
    then advancePhase env tone.fmPhase tone.fmIncrement else tone.fmPhase) = _
  rw [if_pos (decide_eq_true hstart)]

/-- The phase of the first oscillator after the signal block of a started
voice without pitch noise: the increment is `centFrequency` of the base
increment at the FM offset. -/
theorem signalStep_phase1 (env : FloatEnv) (sq : Sequencer) (k : FeedConst) (i : Int)
    (current : ℚ) (tone : Tone) (hstart : current > tone.waitDuration)
    (hnoise : tone.freqNoiseCentharfRange = 0) :
    (signalStep env sq k i current tone).1.phase1
      = advancePhase env tone.phase1
          (centFrequency env sq tone.baseIncrement1
            (tone.instrument.fmCentRange
              * (sq.waveLUT (modWave tone.instrument.fmWave)
                  (toInt32 (advancePhase env tone.fmPhase tone.fmIncrement * k.period))
                * modWaveInvert tone.instrument.fmWave + 1)
              * (1 / 2))) := by
  show advancePhase env tone.phase1 (centFrequency env sq tone.baseIncrement1
    (if decide (current > tone.waitDuration) = true then
      tone.freqNoiseCentharfRange
          * freqNoiseSample sq tone.instrument.freqNoiseType (k.noiseBufIndex + i)
        + tone.instrument.fmCentRange
          * (sq.waveLUT (modWave tone.instrument.fmWave)
              (toInt32 ((if decide (current > tone.waitDuration) = true
                then advancePhase env tone.fmPhase tone.fmIncrement else tone.fmPhase)
                * k.period))
            * modWaveInvert tone.instrument.fmWave + 1)
          * (1 / 2)
    else tone.freqNoiseCentharfRange
      * freqNoiseSample sq tone.instrument.freqNoiseType (k.noiseBufIndex + i))) = _
  rw [if_pos (decide_eq_true hstart), if_pos (decide_eq_true hstart), hnoise, zero_mul, zero_add]

/-! ## Configuration -/

theorem initParam_freeTones (env : FloatEnv) (sq : Sequencer) (rate time : ℚ) (samples : Int) :
    (initParam env sq rate time samples).freeTones
      = List.ofFn (fun i => { sq.toneInstances i with delayBuffer := env.junk }) := by
  unfold initParam
  rfl

theorem initParam_activeTones (env : FloatEnv) (sq : Sequencer) (rate time : ℚ) (samples : Int) :
    (initParam env sq rate time samples).activeTones = [] := by
  unfold initParam
  rfl

theorem initParam_noiseBufSize (env : FloatEnv) (sq : Sequencer) (rate time : ℚ) (samples : Int) :
    (initParam env sq rate time samples).noiseBufSize = toInt32 (rate / (samples : ℚ)) := by
  unfold initParam
  rfl

theorem initParam_freeTones_ne_nil (env : FloatEnv) (sq : Sequencer) (rate time : ℚ)
    (samples : Int) : (initParam env sq rate time samples).freeTones ≠ [] := by
  rw [initParam_freeTones, List.ofFn_succ]
  exact List.cons_ne_nil _ _

/-! ## Concrete engines -/

theorem initParam_delayBufferSize (env : FloatEnv) (sq : Sequencer) (rate time : ℚ)
    (samples : Int) :
    (initParam env sq rate time samples).delayBufferSize
      = toInt32 (rate * (delayBufferDuration / 1000)) := by
  unfold initParam
  rfl

theorem demoEngine_delayBufferSize : demoEngine.delayBufferSize = 22050 := by
  unfold demoEngine
  rw [initParam_delayBufferSize, toInt32_of_nonneg (by norm_num [delayBufferDuration]),
    Int.floor_eq_iff]
  norm_num [delayBufferDuration]

/-! ## The noise index -/

theorem checkNewNote_noiseConfig (env : FloatEnv) (sq : Sequencer) (oneNote : Note) :
    noiseConfig (checkNewNote env sq oneNote).1 = noiseConfig sq ∧
    (checkNewNote env sq oneNote).1.frameCount = sq.frameCount := by
  by_cases hstate : oneNote.state = NState.NS_OFF
  · unfold checkNewNote
    simp only [if_pos hstate]
    cases sq.activeTones.find? (isRinging oneNote) with
    | none => exact ⟨rfl, rfl⟩
    | some t => exact ⟨rfl, rfl⟩
  · cases hfree : sq.freeTones with
    | nil => rw [checkNewNote_full env sq oneNote hstate hfree]; exact ⟨rfl, rfl⟩
    | cons tone rest =>
      rw [checkNewNote_alloc env sq oneNote tone rest hstate hfree]; exact ⟨rfl, rfl⟩

theorem drainNotes_noiseConfig (env : FloatEnv) (events : List Note) :
    ∀ sq : Sequencer, noiseConfig (drainNotes env sq events).1 = noiseConfig sq ∧
      (drainNotes env sq events).1.frameCount = sq.frameCount := by
  induction events with
  | nil => intro sq; exact ⟨rfl, rfl⟩
  | cons oneNote rest ih =>
    intro sq
    rw [drainNotes]
    simp only
    split_ifs with h1 h2
    · exact ⟨rfl, rfl⟩
    · exact checkNewNote_noiseConfig env sq oneNote
    · obtain ⟨a, b⟩ := ih (checkNewNote env sq oneNote).1
      obtain ⟨c, d⟩ := checkNewNote_noiseConfig env sq oneNote
      exact ⟨a.trans c, b.trans d⟩

theorem feedRender_noiseConfig (env : FloatEnv) (sq : Sequencer) (events : List Note) :
    noiseConfig (feedRender env sq events).2.1 = noiseConfig sq ∧
    (feedRender env sq events).2.1.frameCount = sq.frameCount := by
  unfold feedRender
  simp only
  split_ifs with h
  · exact drainNotes_noiseConfig env events sq
  · exact ⟨rfl, rfl⟩

theorem feedFinish_noiseConfig (sq sq' : Sequencer) (last : NState)
    (h : feedFinish sq last = some sq') :
    noiseConfig sq' = noiseConfig sq ∧
    sq'.frameCount = Int.tmod (sq.frameCount + 1) sq.noiseBufSize := by
  unfold feedFinish at h
  by_cases h1 : sq.noiseBufSize = 0
  · rw [if_pos h1] at h
    cases h
  · rw [if_neg h1] at h
    simp only at h
    by_cases h2 : last = NState.NS_END ∧ sq.activeTones.length = 0
    · rw [if_pos h2] at h
      injection h with h
      subst h
      exact ⟨rfl, rfl⟩
    · rw [if_neg h2] at h
      injection h with h
      subst h
      exact ⟨rfl, rfl⟩

theorem noiseIndexInv_congr (sq sq' : Sequencer) (hc : noiseConfig sq' = noiseConfig sq)
    (hf : 0 ≤ sq'.frameCount ∧ sq'.frameCount < sq'.noiseBufSize) (h : NoiseIndexInv sq) :
    NoiseIndexInv sq' := by
  have e1 : sq'.samplingRate = sq.samplingRate := congrArg NoiseConfig.samplingRate hc
  have e2 : sq'.bufferSamples = sq.bufferSamples := congrArg NoiseConfig.bufferSamples hc
  have e3 : sq'.noiseBufSize = sq.noiseBufSize := congrArg NoiseConfig.noiseBufSize hc
  have e4 : sq'.noiseBuffer = sq.noiseBuffer := congrArg NoiseConfig.noiseBuffer hc
  obtain ⟨a, b, c, _⟩ := h
  constructor
  · rw [e2]; exact a
  · rw [e3, e1, e2]; exact b
  · rw [e4, e3, e2]; exact c
  · exact hf

theorem initParam_noiseIndexInv (env : FloatEnv) (sq0 : Sequencer) (rate time : ℚ)
    (samples : Int) (hpos : 0 < samples) (hle : (samples : ℚ) ≤ rate) :
    NoiseIndexInv (initParam env sq0 rate time samples) := by
  have hs : (0 : ℚ) < (samples : ℚ) := by exact_mod_cast hpos
  have hq : (1 : ℚ) ≤ rate / (samples : ℚ) := by
    rw [le_div_iff₀ hs]; linarith
  have e1 : (initParam env sq0 rate time samples).bufferSamples = samples := by
    unfold initParam; rfl
  have e2 : (initParam env sq0 rate time samples).samplingRate = rate := by
    unfold initParam; rfl
  have e3 : (initParam env sq0 rate time samples).noiseBufSize = ⌊rate / (samples : ℚ)⌋ := by
    rw [initParam_noiseBufSize, toInt32_of_nonneg (by linarith)]
  have e4 : (initParam env sq0 rate time samples).noiseBuffer
      = samples * (initParam env sq0 rate time samples).noiseBufSize := by
    unfold initParam; rfl
  have e5 : (initParam env sq0 rate time samples).frameCount = 0 := by
    unfold initParam; rfl
  constructor
  · rw [e1]; exact hpos
  · rw [e3, e2, e1]
  · rw [e4, e1, mul_comm]
  · rw [e5, e3]
    exact ⟨le_refl _, Int.lt_of_lt_of_le (show (0 : Int) < 1 by norm_num)
      (Int.le_floor.mpr (by exact_mod_cast hq))⟩

/-- The invariant of the noise index holds in every state reached from
configurations with `0 < bufferSamples <= sampleRate`. -/
theorem reachableSized_noiseIndexInv (env : FloatEnv) (sq : Sequencer)
    (h : ReachableSized env sq) : NoiseIndexInv sq := by
  induction h with
  | configure sq0 rate time samples hpos hle =>
    exact initParam_noiseIndexInv env sq0 rate time samples hpos hle
  | noteOn dic _ ih =>
    unfold incertNoteOn
    obtain ⟨hc, hf⟩ := checkNewNote_noiseConfig env _ (hostNote _ NState.NS_ON_FOREVER dic)
    have e3 : (checkNewNote env _ (hostNote _ NState.NS_ON_FOREVER dic)).1.noiseBufSize = _ :=
      congrArg NoiseConfig.noiseBufSize hc
    refine noiseIndexInv_congr _ _ hc ?_ ih
    rw [hf, e3]
    exact ih.frame
  | noteOff dic _ ih =>
    unfold incertNoteOff
    obtain ⟨hc, hf⟩ := checkNewNote_noiseConfig env _ (hostNote _ NState.NS_OFF dic)
    have e3 : (checkNewNote env _ (hostNote _ NState.NS_OFF dic)).1.noiseBufSize = _ :=
      congrArg NoiseConfig.noiseBufSize hc
    refine noiseIndexInv_congr _ _ hc ?_ ih
    rw [hf, e3]
    exact ih.frame
  | @render sq sq' events _ hfeed ih =>
    unfold feed at hfeed
    obtain ⟨hc1, hf1⟩ := feedRender_noiseConfig env sq events
    obtain ⟨hc2, hf2⟩ := feedFinish_noiseConfig _ _ _ hfeed
    have e3 : (feedRender env sq events).2.1.noiseBufSize = sq.noiseBufSize :=
      congrArg NoiseConfig.noiseBufSize hc1
    have e4 : sq'.noiseBufSize = sq.noiseBufSize :=
      congrArg NoiseConfig.noiseBufSize (hc2.trans hc1)
    refine noiseIndexInv_congr _ _ (hc2.trans hc1) ?_ ih
    rw [hf2, hf1, e3, e4]
    have hn : 0 < sq.noiseBufSize := lt_of_le_of_lt ih.frame.1 ih.frame.2
    rw [Int.tmod_eq_emod (by linarith [ih.frame.1]) (le_of_lt hn)]
    exact ⟨Int.emod_nonneg _ (ne_of_gt hn), Int.emod_lt_of_pos _ hn⟩
  | @unload sq _ ih =>
    exact noiseIndexInv_congr sq (smfUnload sq) rfl ih.frame ih

/-! ## Concrete runs: stored time and phases -/

theorem initParam_samplingRate (env : FloatEnv) (sq : Sequencer) (rate time : ℚ)
    (samples : Int) : (initParam env sq rate time samples).samplingRate = rate := by
  unfold initParam
  rfl

theorem initParam_bufferSamples (env : FloatEnv) (sq : Sequencer) (rate time : ℚ)
    (samples : Int) : (initParam env sq rate time samples).bufferSamples = samples := by
  unfold initParam
  rfl

theorem engine512_delta : (feedConst demoEnv engine512).delta = 10 / 441 := by
  show 1 / engine512.samplingRate * 1000 = 10 / 441
  unfold engine512
  rw [initParam_samplingRate]
  norm_num

theorem engine32_delta : (feedConst demoEnv engine32).delta = 10 / 441 := by
  show 1 / engine32.samplingRate * 1000 = 10 / 441
  unfold engine32
  rw [initParam_samplingRate]
  norm_num

theorem brightEngine_sinZero : brightEngine.waveLUT WAVE_SIN 0 = 0 := by
  have e : brightEngine.waveLUT = buildWaveLUT octaveEnv (newSequencer octaveEnv).waveLUT := by
    unfold brightEngine
    simp only [initParam]
  rw [e, buildWaveLUT_sin octaveEnv _ 0 (le_refl _) (by norm_num [waveLUTSize])]
  rfl

theorem brightEngine_pow2Top : brightEngine.pow2_x_1200LUT 7199 = 2399 / 300 := by
  have e : brightEngine.pow2_x_1200LUT = buildPow2LUT octaveEnv := by
    unfold brightEngine
    simp only [initParam]
  rw [e, buildPow2LUT_get octaveEnv 7199 (by norm_num) (by norm_num)]
  decide!

/-- The fields of `brightVoice` the signal block reads do not depend on the
free voice it was made from. -/
theorem brightVoice_fields (tone : Tone) :
    (brightVoice tone).instrument = storeInstrument brightDic ∧
    (brightVoice tone).phase1 = 0 ∧
    (brightVoice tone).waitDuration = (brightVoice heldTone).waitDuration ∧
    (brightVoice tone).freqNoiseCentharfRange = (brightVoice heldTone).freqNoiseCentharfRange ∧
    (brightVoice tone).fmPhase = (brightVoice heldTone).fmPhase ∧
    (brightVoice tone).fmIncrement = (brightVoice heldTone).fmIncrement ∧
    (brightVoice tone).baseIncrement1 = (brightVoice heldTone).baseIncrement1 :=
  ⟨rfl, rfl, rfl, rfl, rfl, rfl, rfl⟩

theorem brightVoice_values :
    (brightVoice heldTone).waitDuration = 0 ∧
    (brightVoice heldTone).freqNoiseCentharfRange = 0 ∧
    (storeInstrument brightDic).fmCentRange = 8400 ∧
    modWave (storeInstrument brightDic).fmWave = WAVE_SIN ∧
    modWaveInvert (storeInstrument brightDic).fmWave = 1 ∧
    toInt32 (advancePhase octaveEnv (brightVoice heldTone).fmPhase
      (brightVoice heldTone).fmIncrement * (feedConst octaveEnv brightEngine).period) = 0 := by
  decide!

/-- The increment of the first oscillator of `brightVoice` at the FM offset
of 4200 cents: the base increment times the top entry of the cents table. -/
theorem brightVoice_increment :
    centFrequency octaveEnv brightEngine (brightVoice heldTone).baseIncrement1
      ((8400 : ℚ) * ((0 : ℚ) * 1 + 1) * (1 / 2))
      = (brightVoice heldTone).baseIncrement1 * (2399 / 300) := by
  rw [centFrequency_eq_ratio, centRatio_eq, brightEngine_pow2Top]
  decide!

theorem halfRateVoice_fields (tone : Tone) :
    (halfRateVoice tone).instrument = storeInstrument halfRateDic ∧
    (halfRateVoice tone).waitDuration = (halfRateVoice heldTone).waitDuration ∧
    (halfRateVoice tone).fmPhase = (halfRateVoice heldTone).fmPhase ∧
    (halfRateVoice tone).fmIncrement = (halfRateVoice heldTone).fmIncrement :=
  ⟨rfl, rfl, rfl, rfl⟩

theorem halfRateVoice_values :
    (halfRateVoice heldTone).waitDuration = 0 ∧
    (halfRateVoice heldTone).fmPhase = demoEnv.PI ∧
    (halfRateVoice heldTone).fmIncrement = demoEnv.PI ∧
    advancePhase demoEnv (halfRateVoice heldTone).fmPhase (halfRateVoice heldTone).fmIncrement
      = demoEnv.PI * 2 ∧
    toInt32 (demoEnv.PI * 2 * (feedConst demoEnv halfRateEngine).period) = waveLUTSize := by
  decide!

theorem brightVoice_phase1 (tone : Tone) :
    (signalStep octaveEnv brightEngine (feedConst octaveEnv brightEngine) 1 1
      (brightVoice tone)).1.phase1
      = advancePhase octaveEnv 0 ((brightVoice heldTone).baseIncrement1 * (2399 / 300)) := by
  obtain ⟨hins, hp, hw, hn, hfp, hfi, hb⟩ := brightVoice_fields tone
  obtain ⟨vw, vn, vc, vm, vi, vt⟩ := brightVoice_values
  have hstart : (1 : ℚ) > (brightVoice tone).waitDuration := by rw [hw, vw]; norm_num
  have hnoise : (brightVoice tone).freqNoiseCentharfRange = 0 := by rw [hn, vn]
  rw [signalStep_phase1 octaveEnv brightEngine _ 1 1 (brightVoice tone) hstart hnoise,
    hp, hb, hins, vc, vm, vi, hfp, hfi, vt, brightEngine_sinZero, brightVoice_increment]

theorem brightVoice_overshoot :
    octaveEnv.PI * 2
        < advancePhase octaveEnv 0 ((brightVoice heldTone).baseIncrement1 * (2399 / 300)) ∧
    waveLUTSize ≤ toInt32
      (advancePhase octaveEnv 0 ((brightVoice heldTone).baseIncrement1 * (2399 / 300))
        * (feedConst octaveEnv brightEngine).period) := by
  decide!

theorem demoEngine_numDecaySlopeLUT : demoEngine.numDecaySlopeLUT = 22050 := by
  have h : demoEngine.numDecaySlopeLUT = toInt32 ((1 / (1 : ℚ) / 2) * 44100) := rfl
  rw [h]
  decide!

theorem demoEngine_numReleaseSlopeLUT : demoEngine.numReleaseSlopeLUT = 882 := by
  have h : demoEngine.numReleaseSlopeLUT = toInt32 ((1 / (25 : ℚ) / 2) * 44100) := rfl
  rw [h]
  decide!

theorem demoEngine_delta : (feedConst demoEnv demoEngine).delta = 10 / 441 := by
  have h : (feedConst demoEnv demoEngine).delta = 1 / (44100 : ℚ) * 1000 := rfl
  rw [h]
  norm_num

/-- The fields of `thinDecayVoice` the envelope reads. -/
theorem thinDecayVoice_fields (tone : Tone) :
    (thinDecayVoice tone).instrument = storeInstrument thinDecayDic ∧
    (thinDecayVoice tone).waitDuration = 0 ∧
    (thinDecayVoice tone).mainteinDuration = FLOAT_LONGTIME ∧
    (thinDecayVoice tone).restartWaitDuration = FLOAT_LONGTIME ∧
    (thinDecayVoice tone).maxDelayTime = 0 ∧
    (thinDecayVoice tone).decaySlopeRatio = 52428800 := by
  have e1 : (thinDecayVoice tone).instrument = storeInstrument thinDecayDic := rfl
  have e2 : (thinDecayVoice tone).waitDuration = (thinDecayVoice heldTone).waitDuration := rfl
  have e3 : (thinDecayVoice tone).mainteinDuration = FLOAT_LONGTIME := rfl
  have e4 : (thinDecayVoice tone).restartWaitDuration = FLOAT_LONGTIME := rfl
  have e5 : (thinDecayVoice tone).maxDelayTime = (thinDecayVoice heldTone).maxDelayTime := rfl
  have e6 : (thinDecayVoice tone).decaySlopeRatio = (thinDecayVoice heldTone).decaySlopeRatio :=
    rfl
  refine ⟨e1, ?_, e3, e4, ?_, ?_⟩
  · rw [e2]; decide!
  · rw [e5]; decide!
  · rw [e6]; decide!

/-- The fields of `thinReleaseVoice` the envelope reads. -/
theorem thinReleaseVoice_fields (tone : Tone) :
    (thinReleaseVoice tone).instrument = storeInstrument thinReleaseDic ∧
    (thinReleaseVoice tone).waitDuration = 0 ∧
    (thinReleaseVoice tone).mainteinDuration = 100 ∧
    (thinReleaseVoice tone).restartWaitDuration = FLOAT_LONGTIME ∧
    (thinReleaseVoice tone).maxDelayTime = 300 ∧
    (thinReleaseVoice tone).releaseSlopeRatio = 20971520 := by
  have e1 : (thinReleaseVoice tone).instrument = storeInstrument thinReleaseDic := rfl
  have e2 : (thinReleaseVoice tone).waitDuration = (thinReleaseVoice heldTone).waitDuration := rfl
  have e3 : (thinReleaseVoice tone).mainteinDuration
      = (thinReleaseVoice heldTone).mainteinDuration := rfl
  have e4 : (thinReleaseVoice tone).restartWaitDuration = FLOAT_LONGTIME := rfl
  have e5 : (thinReleaseVoice tone).maxDelayTime = (thinReleaseVoice heldTone).maxDelayTime := rfl
  have e6 : (thinReleaseVoice tone).releaseSlopeRatio
      = (thinReleaseVoice heldTone).releaseSlopeRatio := rfl
  refine ⟨e1, ?_, ?_, e4, ?_, ?_⟩
  · rw [e2]; decide!
  · rw [e3]; decide!
  · rw [e5]; decide!
  · rw [e6]; decide!

theorem lateTapEngine_delayBufferSize : lateTapEngine.delayBufferSize = 16384 := by
  have h : lateTapEngine.delayBufferSize = toInt32 (32768 * (delayBufferDuration / 1000)) := rfl
  rw [h]
  decide!

/-- The float computation of the tap offset at 32768 Hz for a tap time of
`500 - 2 ^ -15` msec: the quotient `16384 / 500` rounds up, the product
rounds to 16384. -/
theorem tapIndex_lateTap : tapIndex lateTapEngine (16383999 / 32768) = 16384 := by
  have e1 : roundFloat (16384 : ℚ) = 16384 := by decide!
  have e2 : roundFloat ((16384 : ℚ) / 500) = 8589935 / 262144 := by decide!
  have e3 : roundFloat ((8589935 / 262144 : ℚ) * (16383999 / 32768)) = 16384 := by decide!
  have e4 : toInt32 (16384 : ℚ) = 16384 := by decide!
  unfold tapIndex delayBufferDuration
  rw [lateTapEngine_delayBufferSize]
  push_cast
  rw [e1, e2, e3, e4]

/-- The float computation of the tap offset at 44100 Hz for a tap time of
90 msec: the quotient `22050 / 500` rounds down, and the product truncates
to 3968. -/
theorem tapIndex_demo_90 : tapIndex demoEngine 90 = 3968 := by
  have e1 : roundFloat (22050 : ℚ) = 22050 := by decide!
  have e2 : roundFloat ((22050 : ℚ) / 500) = 5780275 / 131072 := by decide!
  have e3 : roundFloat ((5780275 / 131072 : ℚ) * 90) = 16257023 / 4096 := by decide!
  have e4 : toInt32 (16257023 / 4096 : ℚ) = 3968 := by decide!
  unfold tapIndex delayBufferDuration
  rw [demoEngine_delayBufferSize]
  push_cast
  rw [e1, e2, e3, e4]

/-- A tap index at or past the end of the ring moves on by one cell and is
not wrapped. -/
theorem nextIndex_of_ge (a n : Int) (h : n ≤ a) : nextIndex a n = a + 1 := by
  unfold nextIndex
  rw [if_neg]
  omega

/-- The first tap of a voice, once at or past the end of the ring, stays
there through the sample loop. -/
theorem toneSamples_tap0_outside (env : FloatEnv) (sq : Sequencer) (k : FeedConst)
    (frame : List ℚ) (i : Int) (current m : ℚ) (tone : Tone)
    (h : sq.delayBufferSize ≤ tone.delay0Index) :
    sq.delayBufferSize ≤ (toneSamples env sq k i current m tone frame).tone.delay0Index := by
  refine toneSamples_preserves env sq k (fun t => sq.delayBufferSize ≤ t.delay0Index) ?_ ?_ ?_
    frame i current m tone h
  · intro t c ht
    obtain ⟨_, _, h0, _⟩ := restartStep_delay t c
    show sq.delayBufferSize ≤ (restartStep t c).delay0Index
    rw [h0]; exact ht
  · intro t t' c ht he
    obtain ⟨_, _, h0, _⟩ := envelopeStep_delay sq k t t' c he
    show sq.delayBufferSize ≤ t'.delay0Index
    rw [h0]; exact ht
  · intro j c t ht
    obtain ⟨t1, data, hs, _, _, h0, _⟩ := signalStep_delay env sq k j c t
    show sq.delayBufferSize ≤ (signalStep env sq k j c t).1.delay0Index
    rw [hs]
    show sq.delayBufferSize ≤ nextIndex t1.delay0Index sq.delayBufferSize
    rw [nextIndex_of_ge _ _ (by rw [h0]; exact ht), h0]
    have : sq.delayBufferSize ≤ t.delay0Index := ht
    omega

/-- The delay fields of `lateTapVoice`. -/
theorem lateTapVoice_fields (tone : Tone) :
    (lateTapVoice tone).instrument = storeInstrument lateTapDic ∧
    (lateTapVoice tone).instrument.delay0Time = 16383999 / 32768 ∧
    (lateTapVoice tone).instrument.delay0Ratio = 1 / 5 ∧
    (lateTapVoice tone).delayBufferIndex = 0 ∧
    (lateTapVoice tone).delay0Index = 16384 := by
  have e1 : (lateTapVoice tone).instrument = storeInstrument lateTapDic := rfl
  have ht : (storeInstrument lateTapDic).delay0Time = 16383999 / 32768 := by
    show clampF (16383999 / 32768) 0 500 = 16383999 / 32768
    exact clampF_of_mem (by norm_num) (by norm_num)
  have hr : (storeInstrument lateTapDic).delay0Ratio = 1 / 5 := by
    show clampF 0 (2 / 10) (2 / 10) = 1 / 5
    rw [clampF_same]; norm_num
  obtain ⟨t1, hins, hv⟩ := allocTone_delay demoEnv lateTapEngine
    (demoNote NState.NS_ON_FOREVER 0 60 100 0) FLOAT_LONGTIME tone
  have hins1 : t1.instrument = storeInstrument lateTapDic := hins.trans e1
  have hact : tapActive t1.instrument.delay0Time t1.instrument.delay0Ratio = true := by
    rw [tapActive_iff, hins1, ht, hr]
    unfold TapEnabled
    norm_num
  have hidx : (lateTapVoice tone).delay0Index = 16384 := by
    show (allocTone demoEnv lateTapEngine _ _ tone).delay0Index = 16384
    rw [hv]
    show (allocDelay lateTapEngine t1).delay0Index = 16384
    rw [allocDelay_index0, if_pos hact, hins1, ht]
    exact tapIndex_lateTap
  refine ⟨e1, ?_, ?_, rfl, hidx⟩
  · rw [e1, ht]
  · rw [e1, hr]

/-! ## The claims -/

/-- C1. In every engine state (in particular in every state reached after
`initParam` by note-on, note-off and render calls) and for every answer of
the event source, the buffer `feed` writes has `bufferSamples` samples and
every one of them lies in `[-1, 1]`. -/
theorem feed_frame_within_unit (env : FloatEnv) (sq : Sequencer) (events : List Note) :
    (feed env sq events).1.length = sq.bufferSamples.toNat ∧
    ∀ x ∈ (feed env sq events).1, -1 ≤ x ∧ x ≤ 1 := by
  unfold feed feedRender
  simp only
  refine ⟨?_, ?_⟩
  · rw [feedTones_length, List.length_replicate]
  · apply feedTones_range
    intro x hx
    rw [List.eq_of_mem_replicate hx]
    norm_num

/-- C2 as the code has it.  With an empty active pool and no due event,
`feed` writes exactly 0 to each of the `bufferSamples` samples; the call
returns, provided `noiseBufSize` is not 0 (that is, `initParam` was given
`bufferSamples <= samplingRate`). -/
theorem feed_silence (env : FloatEnv) (sq : Sequencer) (events : List Note)
    (hactive : sq.activeTones = []) (hevents : NoDueEvent events)
    (hnoise : sq.noiseBufSize ≠ 0) :
    (feed env sq events).1 = List.replicate sq.bufferSamples.toNat 0 ∧
    ∃ sq', (feed env sq events).2 = some sq' := by
  have hdrain : (if sq.isSet then drainNotes env sq events else (sq, NState.NS_EMPTY)).1 = sq := by
    split_ifs
    · exact drainNotes_noDue env sq events hevents
    · rfl
  refine ⟨?_, ?_⟩
  · unfold feed feedRender
    simp only [hdrain, hactive, feedTones]
  · unfold feed
    exact feedFinish_some _ _ (by rw [feedRender_noiseBufSize]; exact hnoise)

theorem demoEngine_noiseBufSize : demoEngine.noiseBufSize = 20 := by
  unfold demoEngine
  rw [initParam_noiseBufSize, toInt32_of_nonneg (by norm_num), Int.floor_eq_iff]
  norm_num

theorem longBufferEngine_noiseBufSize : longBufferEngine.noiseBufSize = 0 := by
  unfold longBufferEngine
  rw [initParam_noiseBufSize, toInt32_of_nonneg (by norm_num), Int.floor_eq_iff]
  norm_num

theorem noDueEvent_nil : NoDueEvent ([] : List Note) := by
  intro oneNote h
  cases h

/-- The instance of C2 (as the code has it) at the engine configured with
44100 Hz and 2205 samples per buffer, before any note. -/
theorem feed_silence_witness :
    demoEngine.activeTones = [] ∧ NoDueEvent ([] : List Note) ∧ demoEngine.noiseBufSize ≠ 0 ∧
    ((feed demoEnv demoEngine []).1 = List.replicate demoEngine.bufferSamples.toNat 0 ∧
      ∃ sq', (feed demoEnv demoEngine []).2 = some sq') :=
  ⟨initParam_activeTones _ _ _ _ _, noDueEvent_nil,
   by rw [demoEngine_noiseBufSize]; decide,
   feed_silence demoEnv demoEngine [] (initParam_activeTones _ _ _ _ _) noDueEvent_nil
     (by rw [demoEngine_noiseBufSize]; decide)⟩

/-- C2 fails as stated.  The engine configured by `initParam(44100, 2, 88200)`
(two-second buffers) has an empty active pool and `noiseBufSize = 0`; with
no due event `feed` does not return: it stops at `frameCount %= noiseBufSize`. -/
theorem feed_traps_on_long_buffer :
    longBufferEngine.activeTones = [] ∧ NoDueEvent ([] : List Note) ∧
    (feed demoEnv longBufferEngine []).2 = none := by
  refine ⟨initParam_activeTones _ _ _ _ _, noDueEvent_nil, ?_⟩
  unfold feed
  exact feedFinish_none _ _ (by rw [feedRender_noiseBufSize]; exact longBufferEngine_noiseBufSize)

/-- C3. In every state reached from `initParam` by note-on, note-off, `feed`
and `smfUnload` calls, the free pool and the active pool together hold
exactly 64 voices, so the active pool never holds more than 64. -/
theorem pool_partition (env : FloatEnv) (sq : Sequencer) (h : Reachable env sq) :
    sq.freeTones.length + sq.activeTones.length = 64 ∧ sq.activeTones.length ≤ 64 := by
  have key : sq.freeTones.length + sq.activeTones.length = 64 := by
    induction h with
    | configure sq0 rate time samples =>
      rw [initParam_freeTones, initParam_activeTones, List.length_ofFn]
      rfl
    | noteOn dic _ ih =>
      unfold incertNoteOn
      rw [checkNewNote_pool]
      exact ih
    | noteOff dic _ ih =>
      unfold incertNoteOff
      rw [checkNewNote_pool]
      exact ih
    | render events _ hfeed ih =>
      rw [feed_pool _ _ _ _ hfeed]
      exact ih
    | unload _ _ =>
      unfold smfUnload
      simp only [List.length_ofFn, List.length_nil]
  exact ⟨key, by omega⟩

/-- The instance of C3 at the state reached by configuring and sending one
note-on. -/
theorem pool_partition_witness :
    Reachable demoEnv
      (incertNoteOn demoEnv demoEngine
        { channel := 0, key := 60, velocity := 100, program := 0, tempo := 120 }) ∧
    ((incertNoteOn demoEnv demoEngine
        { channel := 0, key := 60, velocity := 100, program := 0, tempo := 120 }).freeTones.length
      + (incertNoteOn demoEnv demoEngine
        { channel := 0, key := 60, velocity := 100, program := 0, tempo := 120 }).activeTones.length
      = 64 ∧
     (incertNoteOn demoEnv demoEngine
        { channel := 0, key := 60, velocity := 100, program := 0, tempo := 120 }).activeTones.length
      ≤ 64) :=
  ⟨Reachable.noteOn _ (Reachable.configure _ _ _ _),
   pool_partition _ _ (Reachable.noteOn _ (Reachable.configure _ _ _ _))⟩

/-- C4. A note-on (any note whose state is not `NS_OFF`) that arrives when
the free pool is empty is dropped: `checkNewNote` returns `false` and the
engine state it leaves is the state it found, so both pools, every field of
every voice and the list of emitted signals are unchanged. -/
theorem checkNewNote_drops_when_full (env : FloatEnv) (sq : Sequencer) (oneNote : Note)
    (hstate : oneNote.state ≠ NState.NS_OFF) (hfree : sq.freeTones = []) :
    checkNewNote env sq oneNote = (sq, false) :=
  checkNewNote_full env sq oneNote hstate hfree

/-- The instance of C4 at the configured engine with all 64 voices active. -/
theorem checkNewNote_drops_when_full_witness :
    (demoNote NState.NS_ON_FOREVER 0 60 100 0).state ≠ NState.NS_OFF ∧
    fullEngine.freeTones = [] ∧
    checkNewNote demoEnv fullEngine (demoNote NState.NS_ON_FOREVER 0 60 100 0)
      = (fullEngine, false) :=
  ⟨by decide, rfl, checkNewNote_drops_when_full _ _ _ (by decide) rfl⟩

/-- C8. For a note-on with a free voice available and a channel in
`0 .. 127` (which covers the valid channels `0 .. 31`), `checkNewNote` returns
`true` and appends one voice to the active pool whose program and sounding
key are those of the rule of the specification (percussion table by key on
channels 9 and 25, percussion table by program for programs `0x70 .. 0x7F`,
the note's own program and key otherwise) and whose instrument snapshot is
`instruments[resolved program]`. -/
theorem checkNewNote_resolution (env : FloatEnv) (sq : Sequencer) (oneNote : Note)
    (hstate : oneNote.state ≠ NState.NS_OFF)
    (hchannel : 0 ≤ oneNote.channel ∧ oneNote.channel ≤ 127)
    (hfree : sq.freeTones ≠ []) :
    (checkNewNote env sq oneNote).2 = true ∧
    ∃ voice, (checkNewNote env sq oneNote).1.activeTones = sq.activeTones ++ [voice] ∧
      voice.program = (resolvedProgramKey sq oneNote).1 ∧
      voice.key = (resolvedProgramKey sq oneNote).2 ∧
      voice.instrument = sq.instruments (resolvedProgramKey sq oneNote).1 := by
  cases hf : sq.freeTones with
  | nil => exact absurd hf hfree
  | cons tone rest =>
    rw [checkNewNote_alloc env sq oneNote tone rest hstate hf]
    refine ⟨rfl, _, rfl, ?_, ?_, ?_⟩
    · rw [allocTone_program]
      exact (selectInstrument_valid env sq oneNote _ tone hchannel).1
    · rw [allocTone_key]
      exact (selectInstrument_valid env sq oneNote _ tone hchannel).2.1
    · rw [allocTone_instrument]
      exact (selectInstrument_valid env sq oneNote _ tone hchannel).2.2

/-- The instance of C8 at the configured engine and a note on the percussion
channel 9. -/
theorem checkNewNote_resolution_witness :
    (demoNote NState.NS_ON_FOREVER 9 36 100 0).state ≠ NState.NS_OFF ∧
    (0 ≤ (demoNote NState.NS_ON_FOREVER 9 36 100 0).channel
      ∧ (demoNote NState.NS_ON_FOREVER 9 36 100 0).channel ≤ 127) ∧
    demoEngine.freeTones ≠ [] ∧
    ((checkNewNote demoEnv demoEngine (demoNote NState.NS_ON_FOREVER 9 36 100 0)).2 = true ∧
     ∃ voice,
      (checkNewNote demoEnv demoEngine (demoNote NState.NS_ON_FOREVER 9 36 100 0)).1.activeTones
        = demoEngine.activeTones ++ [voice] ∧
      voice.program
        = (resolvedProgramKey demoEngine (demoNote NState.NS_ON_FOREVER 9 36 100 0)).1 ∧
      voice.key = (resolvedProgramKey demoEngine (demoNote NState.NS_ON_FOREVER 9 36 100 0)).2 ∧
      voice.instrument = demoEngine.instruments
        (resolvedProgramKey demoEngine (demoNote NState.NS_ON_FOREVER 9 36 100 0)).1) :=
  ⟨by decide, by decide, initParam_freeTones_ne_nil _ _ _ _ _,
   checkNewNote_resolution _ _ _ (by decide) (by decide) (initParam_freeTones_ne_nil _ _ _ _ _)⟩

/-- C9 fails as stated.  Channel 40 lies outside `0 .. 31`, yet the voice
allocated for a note-on on channel 40 with velocity 100 and program 5 keeps
program 5 and velocity 100: the guard of `checkNewNote` is
`channel > 127 || channel < 0`. -/
theorem checkNewNote_channel_40_not_safe :
    (demoNote NState.NS_ON_FOREVER 40 60 100 5).channel > 31 ∧
    demoEngine.freeTones ≠ [] ∧
    (checkNewNote demoEnv demoEngine (demoNote NState.NS_ON_FOREVER 40 60 100 5)).2 = true ∧
    ∃ voice,
      (checkNewNote demoEnv demoEngine (demoNote NState.NS_ON_FOREVER 40 60 100 5)).1.activeTones
        = [voice] ∧
      voice.program = 5 ∧ voice.note.velocity = 100 := by
  refine ⟨by decide, initParam_freeTones_ne_nil _ _ _ _ _, ?_⟩
  have hch : 0 ≤ (demoNote NState.NS_ON_FOREVER 40 60 100 5).channel
      ∧ (demoNote NState.NS_ON_FOREVER 40 60 100 5).channel ≤ 127 := by decide
  cases hf : demoEngine.freeTones with
  | nil => exact absurd hf (initParam_freeTones_ne_nil _ _ _ _ _)
  | cons tone rest =>
    rw [checkNewNote_alloc demoEnv demoEngine _ tone rest (by decide) hf]
    refine ⟨rfl,
      allocTone demoEnv demoEngine (demoNote NState.NS_ON_FOREVER 40 60 100 5)
        (if (demoNote NState.NS_ON_FOREVER 40 60 100 5).state = NState.NS_ON_FOREVER
          then FLOAT_LONGTIME else 0) tone,
      ?_, ?_, ?_⟩
    · show demoEngine.activeTones ++ _ = _
      rw [show demoEngine.activeTones = [] from initParam_activeTones _ _ _ _ _]
      rfl
    · rw [allocTone_program,
        (selectInstrument_valid demoEnv demoEngine _ _ tone hch).1]
      decide
    · rw [allocTone_note, selectInstrument_valid_note demoEnv demoEngine _ _ tone hch]
      rfl

/-- C9 as the code has it.  For a note-on whose channel lies outside
`0 .. 127`, with a free voice available, `checkNewNote` returns `true` and
appends one voice to the active pool with program 0, instrument snapshot
`instruments[0]` and note velocity 0. -/
theorem checkNewNote_channel_guard (env : FloatEnv) (sq : Sequencer) (oneNote : Note)
    (hstate : oneNote.state ≠ NState.NS_OFF)
    (hchannel : oneNote.channel > 127 ∨ oneNote.channel < 0)
    (hfree : sq.freeTones ≠ []) :
    (checkNewNote env sq oneNote).2 = true ∧
    ∃ voice, (checkNewNote env sq oneNote).1.activeTones = sq.activeTones ++ [voice] ∧
      voice.program = 0 ∧ voice.instrument = sq.instruments 0 ∧ voice.note.velocity = 0 := by
  cases hf : sq.freeTones with
  | nil => exact absurd hf hfree
  | cons tone rest =>
    rw [checkNewNote_alloc env sq oneNote tone rest hstate hf]
    refine ⟨rfl, _, rfl, ?_, ?_, ?_⟩
    · rw [allocTone_program]
      exact (selectInstrument_guard env sq oneNote _ tone hchannel).1
    · rw [allocTone_instrument]
      exact (selectInstrument_guard env sq oneNote _ tone hchannel).2.1
    · rw [allocTone_note]
      exact (selectInstrument_guard env sq oneNote _ tone hchannel).2.2

/-- The instance of C9 (as the code has it) at the configured engine and a
note-on on channel 200. -/
theorem checkNewNote_channel_guard_witness :
    (demoNote NState.NS_ON_FOREVER 200 60 100 5).state ≠ NState.NS_OFF ∧
    ((demoNote NState.NS_ON_FOREVER 200 60 100 5).channel > 127
      ∨ (demoNote NState.NS_ON_FOREVER 200 60 100 5).channel < 0) ∧
    demoEngine.freeTones ≠ [] ∧
    ((checkNewNote demoEnv demoEngine (demoNote NState.NS_ON_FOREVER 200 60 100 5)).2 = true ∧
     ∃ voice,
      (checkNewNote demoEnv demoEngine (demoNote NState.NS_ON_FOREVER 200 60 100 5)).1.activeTones
        = demoEngine.activeTones ++ [voice] ∧
      voice.program = 0 ∧ voice.instrument = demoEngine.instruments 0 ∧
      voice.note.velocity = 0) :=
  ⟨by decide, by decide, initParam_freeTones_ne_nil _ _ _ _ _,
   checkNewNote_channel_guard _ _ _ (by decide) (by decide)
     (initParam_freeTones_ne_nil _ _ _ _ _)⟩

/-- C10. For a note-off such that some active voice has its key and channel
and a state other than `NS_OFF`, `checkNewNote` returns `true`; the active
pool splits as `pre ++ t :: post` with `t` the first such voice, and the new
state differs from the old one only in that `t` has
`mainteinDuration = noteOff.startTime - t.note.startTime` and state `NS_OFF`
and that exactly one release signal (`onOff = 0`) is appended: all other
voices, the free pool and everything else are unchanged. -/
theorem checkNewNote_release (env : FloatEnv) (sq : Sequencer) (oneNote : Note)
    (hstate : oneNote.state = NState.NS_OFF)
    (hring : ∃ t ∈ sq.activeTones, t.note.key = oneNote.key ∧ t.note.channel = oneNote.channel
      ∧ t.note.state ≠ NState.NS_OFF) :
    ∃ pre t post, sq.activeTones = pre ++ t :: post ∧
      (∀ u ∈ pre, ¬ (u.note.key = oneNote.key ∧ u.note.channel = oneNote.channel
        ∧ u.note.state ≠ NState.NS_OFF)) ∧
      (t.note.key = oneNote.key ∧ t.note.channel = oneNote.channel
        ∧ t.note.state ≠ NState.NS_OFF) ∧
      checkNewNote env sq oneNote =
        ({ sq with
            activeTones := pre ++
              { t with
                mainteinDuration := ((oneNote.startTime - t.note.startTime : Int) : ℚ)
                note := { t.note with state := NState.NS_OFF } } :: post
            signals := sq.signals ++
              [Signal.noteMsg 0 t.note.trackNum t.note.channel t.note.velocity t.note.program
                t.note.key t.program t.key] },
          true) := by
  have hring' : ∃ t ∈ sq.activeTones, isRinging oneNote t = true := by
    obtain ⟨t, ht, h⟩ := hring
    exact ⟨t, ht, (isRinging_iff oneNote t).mpr h⟩
  obtain ⟨pre, t, post, hsplit, hpre, ht, hfind, hrel⟩ :=
    releaseFirst_split oneNote sq.activeTones hring'
  refine ⟨pre, t, post, hsplit, ?_, (isRinging_iff oneNote t).mp ht, ?_⟩
  · intro u hu hu'
    have := hpre u hu
    rw [(isRinging_iff oneNote u).mpr hu'] at this
    cases this
  · unfold checkNewNote
    simp only [if_pos hstate]
    rw [hfind]
    simp only [hrel]
    rfl

/-- The instance of C10 at an engine with one held voice (key 60, channel 0,
started at time 0) and the note-off for key 60 on channel 0. -/
theorem checkNewNote_release_witness :
    (demoNote NState.NS_OFF 0 60 0 0).state = NState.NS_OFF ∧
    (∃ t ∈ ringingEngine.activeTones, t.note.key = (demoNote NState.NS_OFF 0 60 0 0).key
      ∧ t.note.channel = (demoNote NState.NS_OFF 0 60 0 0).channel
      ∧ t.note.state ≠ NState.NS_OFF) ∧
    ∃ pre t post, ringingEngine.activeTones = pre ++ t :: post ∧
      (∀ u ∈ pre, ¬ (u.note.key = (demoNote NState.NS_OFF 0 60 0 0).key
        ∧ u.note.channel = (demoNote NState.NS_OFF 0 60 0 0).channel
        ∧ u.note.state ≠ NState.NS_OFF)) ∧
      (t.note.key = (demoNote NState.NS_OFF 0 60 0 0).key
        ∧ t.note.channel = (demoNote NState.NS_OFF 0 60 0 0).channel
        ∧ t.note.state ≠ NState.NS_OFF) ∧
      checkNewNote demoEnv ringingEngine (demoNote NState.NS_OFF 0 60 0 0) =
        ({ ringingEngine with
            activeTones := pre ++
              { t with
                mainteinDuration :=
                  (((demoNote NState.NS_OFF 0 60 0 0).startTime - t.note.startTime : Int) : ℚ)
                note := { t.note with state := NState.NS_OFF } } :: post
            signals := ringingEngine.signals ++
              [Signal.noteMsg 0 t.note.trackNum t.note.channel t.note.velocity t.note.program
                t.note.key t.program t.key] },
          true) :=
  ⟨rfl,
   ⟨newTone demoEnv (demoNote NState.NS_ON_FOREVER 0 60 100 0), List.mem_cons_self _ _,
     rfl, rfl, by decide⟩,
   checkNewNote_release demoEnv ringingEngine (demoNote NState.NS_OFF 0 60 0 0) rfl
     ⟨newTone demoEnv (demoNote NState.NS_ON_FOREVER 0 60 100 0), List.mem_cons_self _ _,
       rfl, rfl, by decide⟩⟩

/-- C11. For a note-off such that no active voice has its key and channel
with a state other than `NS_OFF` (off without on, or a second note-off),
`checkNewNote` returns `false` and leaves the engine state as it found it:
active pool, free pool, every field of every voice, and no signal emitted. -/
theorem checkNewNote_off_unmatched (env : FloatEnv) (sq : Sequencer) (oneNote : Note)
    (hstate : oneNote.state = NState.NS_OFF)
    (hnone : ∀ t ∈ sq.activeTones, ¬ (t.note.key = oneNote.key ∧ t.note.channel = oneNote.channel
      ∧ t.note.state ≠ NState.NS_OFF)) :
    checkNewNote env sq oneNote = (sq, false) := by
  have hfind : sq.activeTones.find? (isRinging oneNote) = none := by
    rw [List.find?_eq_none]
    intro t ht hr
    exact hnone t ht ((isRinging_iff oneNote t).mp hr)
  unfold checkNewNote
  simp only [if_pos hstate]
  rw [hfind]

/-- The instance of C11 at an engine whose only sounding voice has key 60:
a note-off for key 61. -/
theorem checkNewNote_off_unmatched_witness :
    (demoNote NState.NS_OFF 0 61 0 0).state = NState.NS_OFF ∧
    (∀ t ∈ ringingEngine.activeTones, ¬ (t.note.key = (demoNote NState.NS_OFF 0 61 0 0).key
      ∧ t.note.channel = (demoNote NState.NS_OFF 0 61 0 0).channel
      ∧ t.note.state ≠ NState.NS_OFF)) ∧
    checkNewNote demoEnv ringingEngine (demoNote NState.NS_OFF 0 61 0 0)
      = (ringingEngine, false) :=
  have hnone : ∀ t ∈ ringingEngine.activeTones,
      ¬ (t.note.key = (demoNote NState.NS_OFF 0 61 0 0).key
        ∧ t.note.channel = (demoNote NState.NS_OFF 0 61 0 0).channel
        ∧ t.note.state ≠ NState.NS_OFF) := by
    intro t ht h
    rw [List.mem_singleton.mp ht] at h
    exact absurd h.1 (by decide)
  ⟨rfl, hnone, checkNewNote_off_unmatched demoEnv ringingEngine _ rfl hnone⟩

/-- C13 as the code has it.  For every base frequency `f`,
`centFrequency(f, 0)` is `f` when `f` is at most `0.47 x samplingRate`, and is
`0.47 x samplingRate` when `f` is above it. -/
theorem centFrequency_zero (env : FloatEnv) (sq : Sequencer) (freq : ℚ) :
    centFrequency env sq freq 0
      = if freq > sq.samplingRate * (47 / 100) then sq.samplingRate * (47 / 100) else freq := by
  unfold centFrequency pow2_x_1200LUT_size
  norm_num

/-- C13 fails as stated.  At the sampling rate 44100 the base frequency
30000 is not returned unchanged for `cent = 0`: the result is the ceiling
`0.47 x 44100 = 20727`. -/
theorem centFrequency_zero_above_ceiling :
    (newSequencer demoEnv).samplingRate = 44100 ∧
    centFrequency demoEnv (newSequencer demoEnv) 30000 0 = 20727 ∧
    centFrequency demoEnv (newSequencer demoEnv) 30000 0 ≠ 30000 := by
  have h : centFrequency demoEnv (newSequencer demoEnv) 30000 0 = 20727 := by
    rw [centFrequency_zero_aux]
    norm_num [newSequencer]
  exact ⟨rfl, h, by rw [h]; norm_num⟩

/-- C14. For every base frequency and every cent value the result of
`centFrequency` is at most `0.47 x samplingRate`. -/
theorem centFrequency_le_ceiling (env : FloatEnv) (sq : Sequencer) (freq cent : ℚ) :
    centFrequency env sq freq cent ≤ sq.samplingRate * (47 / 100) := by
  unfold centFrequency
  simp only
  split_ifs <;> linarith

/-- C17. `incertNoteOn` and `incertNoteOff` pass to `checkNewNote` the note
built by `hostNote`, and for every dictionary that note has its channel in
`[0,31]`, key in `[0,127]`, velocity in `[0,127]`, program in `[0,255]` and
tempo in `[1,999]`; a value already in its range is passed unchanged. -/
theorem hostNote_clamped (env : FloatEnv) (sq : Sequencer) (dic : NoteDic) :
    incertNoteOn env sq dic
      = (checkNewNote env sq (hostNote sq NState.NS_ON_FOREVER dic)).1 ∧
    incertNoteOff env sq dic = (checkNewNote env sq (hostNote sq NState.NS_OFF dic)).1 ∧
    ∀ state : NState,
      (0 ≤ (hostNote sq state dic).channel ∧ (hostNote sq state dic).channel ≤ 31) ∧
      (0 ≤ (hostNote sq state dic).key ∧ (hostNote sq state dic).key ≤ 127) ∧
      (0 ≤ (hostNote sq state dic).velocity ∧ (hostNote sq state dic).velocity ≤ 127) ∧
      (0 ≤ (hostNote sq state dic).program ∧ (hostNote sq state dic).program ≤ 255) ∧
      (1 ≤ (hostNote sq state dic).tempo ∧ (hostNote sq state dic).tempo ≤ 999) ∧
      (0 ≤ dic.channel ∧ dic.channel ≤ 31 → (hostNote sq state dic).channel = dic.channel) ∧
      (0 ≤ dic.key ∧ dic.key ≤ 127 → (hostNote sq state dic).key = dic.key) ∧
      (0 ≤ dic.velocity ∧ dic.velocity ≤ 127 → (hostNote sq state dic).velocity = dic.velocity) ∧
      (0 ≤ dic.program ∧ dic.program ≤ 255 → (hostNote sq state dic).program = dic.program) ∧
      (1 ≤ dic.tempo ∧ dic.tempo ≤ 999 → (hostNote sq state dic).tempo = dic.tempo) ∧
      (hostNote sq state dic).state = state := by
  refine ⟨rfl, rfl, fun state => ⟨clampI_mem _ (by decide), clampI_mem _ (by decide),
    clampI_mem _ (by decide), clampI_mem _ (by decide), clampI_mem _ (by decide),
    fun h => clampI_of_mem h.1 h.2, fun h => clampI_of_mem h.1 h.2,
    fun h => clampI_of_mem h.1 h.2, fun h => clampI_of_mem h.1 h.2,
    fun h => clampI_of_mem h.1 h.2, rfl⟩⟩

/-- C12. In an engine whose cents table is the one `initParam` builds, with
a power function that is monotone in its exponent and has `powf(2, 0) = 1`,
`centFrequency` is monotone in its cent argument for every positive base
frequency: through the six branches and the ceiling,
`c1 <= c2` gives `centFrequency(f, c1) <= centFrequency(f, c2)`. -/
theorem centFrequency_monotone (env : FloatEnv) (sq : Sequencer)
    (htab : sq.pow2_x_1200LUT = buildPow2LUT env)
    (hmono : ∀ x y : ℚ, x ≤ y → env.powf 2 x ≤ env.powf 2 y)
    (hone : env.powf 2 0 = 1) (freq c1 c2 : ℚ) (hfreq : 0 < freq) (hcent : c1 ≤ c2) :
    centFrequency env sq freq c1 ≤ centFrequency env sq freq c2 := by
  have hr := centRatio_mono env sq htab hmono hone hcent
  have hm : freq * centRatio env sq c1 ≤ freq * centRatio env sq c2 :=
    mul_le_mul_of_nonneg_left hr (le_of_lt hfreq)
  rw [centFrequency_eq_ratio, centFrequency_eq_ratio]
  split_ifs <;> linarith

/-- The instance of C12 at the engine configured with `sampleEnv`, base
frequency 440, and the cents -50 (linear branch) and 700 (table branch). -/
theorem centFrequency_monotone_witness :
    sampleEngine.pow2_x_1200LUT = buildPow2LUT sampleEnv ∧
    (∀ x y : ℚ, x ≤ y → sampleEnv.powf 2 x ≤ sampleEnv.powf 2 y) ∧
    sampleEnv.powf 2 0 = 1 ∧ (0 : ℚ) < 440 ∧ (-50 : ℚ) ≤ 700 ∧
    centFrequency sampleEnv sampleEngine 440 (-50) ≤ centFrequency sampleEnv sampleEngine 440 700 :=
  ⟨initParam_pow2LUT _ _ _ _ _, sampleEnv_powf_mono, sampleEnv_powf_zero, by norm_num,
   by norm_num,
   centFrequency_monotone sampleEnv sampleEngine (initParam_pow2LUT _ _ _ _ _)
     sampleEnv_powf_mono sampleEnv_powf_zero 440 (-50) 700 (by norm_num) (by norm_num)⟩

/-- C18 as the code has it.  In an engine whose velocity table is the one
`initParam` builds, a voice allocated with note velocity 0 reads the velocity
gain `velocity2powerLUT[0] = powf(1 / 128, 2.2)` (for the voice and for its
restart), which is the gain its own signal is multiplied by; it is 0 only
when that power is. -/
theorem velocity_zero_gain (env : FloatEnv) (sq : Sequencer) (oneNote : Note)
    (htab : sq.velocity2powerLUT = buildVelocityLUT env)
    (hstate : oneNote.state ≠ NState.NS_OFF) (hfree : sq.freeTones ≠ []) :
    ∃ voice, (checkNewNote env sq oneNote).1.activeTones = sq.activeTones ++ [voice] ∧
      (voice.note.velocity = 0 →
        voice.velocity_f = env.powf (1 / 128) (22 / 10) ∧
        voice.restartVelocity_f = env.powf (1 / 128) (22 / 10)) := by
  cases hf : sq.freeTones with
  | nil => exact absurd hf hfree
  | cons tone rest =>
    rw [checkNewNote_alloc env sq oneNote tone rest hstate hf]
    refine ⟨_, rfl, fun hv => ?_⟩
    have h := allocTone_velocity_f env sq oneNote
      (if oneNote.state = NState.NS_ON_FOREVER then FLOAT_LONGTIME else 0) tone
    rw [hv, htab, buildVelocityLUT_zero] at h
    exact h

/-- The instance of C18 (as the code has it) at the configured engine and a
note-on with velocity 0. -/
theorem velocity_zero_gain_witness :
    demoEngine.velocity2powerLUT = buildVelocityLUT demoEnv ∧
    (demoNote NState.NS_ON_FOREVER 0 60 0 0).state ≠ NState.NS_OFF ∧
    demoEngine.freeTones ≠ [] ∧
    ∃ voice,
      (checkNewNote demoEnv demoEngine (demoNote NState.NS_ON_FOREVER 0 60 0 0)).1.activeTones
        = demoEngine.activeTones ++ [voice] ∧
      (voice.note.velocity = 0 →
        voice.velocity_f = demoEnv.powf (1 / 128) (22 / 10) ∧
        voice.restartVelocity_f = demoEnv.powf (1 / 128) (22 / 10)) :=
  ⟨initParam_velocityLUT _ _ _ _ _, by decide, initParam_freeTones_ne_nil _ _ _ _ _,
   velocity_zero_gain demoEnv demoEngine _ (initParam_velocityLUT _ _ _ _ _) (by decide)
     (initParam_freeTones_ne_nil _ _ _ _ _)⟩

/-- C18 fails as stated.  In the engine configured with `sampleEnv` (whose
`powf(1 / 128, 2.2)` is `1 / 128`, positive like the true power), the voice
allocated for a note-on with velocity 0 has note velocity 0 and velocity
gain `1 / 128`, not 0. -/
theorem velocity_zero_gain_positive :
    sampleEngine.freeTones ≠ [] ∧
    ∃ voice,
      (checkNewNote sampleEnv sampleEngine
        (demoNote NState.NS_ON_FOREVER 0 60 0 0)).1.activeTones = [voice] ∧
      voice.note.velocity = 0 ∧ voice.velocity_f = 1 / 128 ∧ voice.velocity_f ≠ 0 := by
  refine ⟨initParam_freeTones_ne_nil _ _ _ _ _, ?_⟩
  have hch : 0 ≤ (demoNote NState.NS_ON_FOREVER 0 60 0 0).channel
      ∧ (demoNote NState.NS_ON_FOREVER 0 60 0 0).channel ≤ 127 := by decide
  cases hf : sampleEngine.freeTones with
  | nil => exact absurd hf (initParam_freeTones_ne_nil _ _ _ _ _)
  | cons tone rest =>
    rw [checkNewNote_alloc sampleEnv sampleEngine _ tone rest (by decide) hf]
    have hnote : (allocTone sampleEnv sampleEngine (demoNote NState.NS_ON_FOREVER 0 60 0 0)
        (if (demoNote NState.NS_ON_FOREVER 0 60 0 0).state = NState.NS_ON_FOREVER
          then FLOAT_LONGTIME else 0) tone).note.velocity = 0 := by
      rw [allocTone_note, selectInstrument_valid_note sampleEnv sampleEngine _ _ tone hch]
      rfl
    have hgain := (allocTone_velocity_f sampleEnv sampleEngine
      (demoNote NState.NS_ON_FOREVER 0 60 0 0)
      (if (demoNote NState.NS_ON_FOREVER 0 60 0 0).state = NState.NS_ON_FOREVER
        then FLOAT_LONGTIME else 0) tone).1
    rw [hnote, show sampleEngine.velocity2powerLUT = buildVelocityLUT sampleEnv from
      initParam_velocityLUT _ _ _ _ _, buildVelocityLUT_zero] at hgain
    have hpow : sampleEnv.powf (1 / 128) (22 / 10) = 1 / 128 := by
      show (if (1 / 128 : ℚ) = 2 then _ else (1 / 128 : ℚ)) = 1 / 128
      rw [if_neg (by norm_num)]
    rw [hpow] at hgain
    refine ⟨allocTone sampleEnv sampleEngine (demoNote NState.NS_ON_FOREVER 0 60 0 0)
        (if (demoNote NState.NS_ON_FOREVER 0 60 0 0).state = NState.NS_ON_FOREVER
          then FLOAT_LONGTIME else 0) tone, ?_, hnote, hgain, ?_⟩
    · show sampleEngine.activeTones ++ _ = _
      rw [show sampleEngine.activeTones = [] from initParam_activeTones _ _ _ _ _]
      rfl
    · rw [hgain]
      norm_num

/-- C19, evaluated at a failing input.  The instrument `setInstruments`
stores for a dictionary whose slope times are 0 lies within the documented
bounds, and for a voice with that instrument each of the three slope ratios
of `checkNewNote` is a quotient with divisor 0. -/
theorem slope_ratio_zero_divisor :
    InstrumentInBounds (storeInstrument (constDic 0 0)) ∧
    (storeInstrument (constDic 0 0)).atackSlopeTime = 0 ∧
    (storeInstrument (constDic 0 0)).decayHalfLifeTime = 0 ∧
    (storeInstrument (constDic 0 0)).releaseSlopeTime = 0 ∧
    ∀ (sq : Sequencer) (tone : Tone), tone.instrument = storeInstrument (constDic 0 0) →
      (allocSlopes sq tone).atackSlopeRatio = sq.atackSlopeTime / 0 ∧
      (allocSlopes sq tone).decaySlopeRatio = sq.decayHalfLifeTime / 0 ∧
      (allocSlopes sq tone).releaseSlopeRatio = sq.releaseSlopeTime / 0 := by
  have h1 : (storeInstrument (constDic 0 0)).atackSlopeTime = 0 := by
    show clampF 0 0 5000 = 0
    exact clampF_of_mem (le_refl _) (by norm_num)
  have h2 : (storeInstrument (constDic 0 0)).decayHalfLifeTime = 0 := by
    show clampF 0 0 5000 = 0
    exact clampF_of_mem (le_refl _) (by norm_num)
  have h3 : (storeInstrument (constDic 0 0)).releaseSlopeTime = 0 := by
    show clampF 0 0 5000 = 0
    exact clampF_of_mem (le_refl _) (by norm_num)
  refine ⟨storeInstrument_inBounds _, h1, h2, h3, fun sq tone ht => ?_⟩
  unfold allocSlopes
  simp only [ht, h1, h2, h3, and_self]

/-- C16. In the loop of `feed` over the active voices, for the voice `tone`
reached after the voices `before` (with `after` still to come) and any loop
state: (1) if the sample loop of the voice reaches a sample (the cell `x`
after the cells `pre`) at which the voice time exceeds `waitDuration +
mainteinDuration + releaseSlopeTime + maxDelayTime` (the test `isEnd`, made
as in the code after the restart test of that sample) and no restart is
pending (`restartWaitDuration = FLOAT_LONGTIME`), then the cell of that sample
and all later cells of the buffer are as the voice found them, the voice is
not among the voices the loop keeps active, and it is appended to the free
list, after the voices freed before it, with strength, atackedStrength,
decayedStrength and the three phases 0; (2) if the test holds at no sample
of the buffer, the voice is kept in the active list, after the kept voices
of `before`, with `passed` moved on by one buffer. -/
theorem feed_reclaims_ended_voice (env : FloatEnv) (sq : Sequencer) (k : FeedConst)
    (before : List Tone) (tone : Tone) (after free : List Tone) (frame : List ℚ) (mv : ℚ)
    (sig : List Signal) :
    (∀ (pre : List ℚ) (x : ℚ) (post : List ℚ),
      (feedTones env sq k before free frame mv sig).frame = pre ++ x :: post →
      EndsAt env sq k tone pre →
      (voiceAtSample env sq k tone pre).restartWaitDuration = FLOAT_LONGTIME →
        (passBefore env sq k tone pre).frame.length = pre.length ∧
        (passBefore env sq k tone (pre ++ x :: post)).frame
          = (passBefore env sq k tone pre).frame ++ x :: post ∧
        (reclaimTone (voiceAtSample env sq k tone pre)).strength = 0 ∧
        (reclaimTone (voiceAtSample env sq k tone pre)).atackedStrength = 0 ∧
        (reclaimTone (voiceAtSample env sq k tone pre)).decayedStrength = 0 ∧
        (reclaimTone (voiceAtSample env sq k tone pre)).phase1 = 0 ∧
        (reclaimTone (voiceAtSample env sq k tone pre)).phase2 = 0 ∧
        (reclaimTone (voiceAtSample env sq k tone pre)).phase3 = 0 ∧
        ∃ (free' : List Tone) (frame' : List ℚ) (mv' : ℚ) (sig' : List Signal)
          (more : List Tone),
          (feedTones env sq k (before ++ tone :: after) free frame mv sig).activeTones
            = (feedTones env sq k before free frame mv sig).activeTones
              ++ (feedTones env sq k after free' frame' mv' sig').activeTones ∧
          (feedTones env sq k (before ++ tone :: after) free frame mv sig).freeTones
            = (feedTones env sq k before free frame mv sig).freeTones
              ++ reclaimTone (voiceAtSample env sq k tone pre) :: more) ∧
    ((∀ (pre : List ℚ) (x : ℚ) (post : List ℚ),
      (feedTones env sq k before free frame mv sig).frame = pre ++ x :: post →
      pastEnd (voiceAtSample env sq k tone pre) (sampleTime k tone pre.length) = false) →
        ∃ (free' : List Tone) (frame' : List ℚ) (mv' : ℚ) (sig' : List Signal),
          (feedTones env sq k (before ++ tone :: after) free frame mv sig).activeTones
            = (feedTones env sq k before free frame mv sig).activeTones
              ++ { (passBefore env sq k tone
                    (feedTones env sq k before free frame mv sig).frame).tone with
                   passed := (passBefore env sq k tone
                      (feedTones env sq k before free frame mv sig).frame).tone.passed
                     + toInt32 (k.delta * (sq.bufferSamples : ℚ)) }
                :: (feedTones env sq k after free' frame' mv' sig').activeTones) := by
  refine ⟨fun pre x post hf hend hno => ?_, fun hnever => ?_⟩
  · have hr := toneSamples_ends_at env sq k tone pre x post hend
    refine ⟨toneSamples_length env sq k pre 0 _ 0 tone, ?_, rfl, rfl, rfl, rfl, rfl, rfl, ?_⟩
    · unfold passBefore at hr ⊢
      rw [hr]
    · have hc : (toneSamples env sq k 0 (tone.passed : ℚ) 0 tone
            (feedTones env sq k before free frame mv sig).frame).isEnd = true ∧
          (toneSamples env sq k 0 (tone.passed : ℚ) 0 tone
            (feedTones env sq k before free frame mv sig).frame).tone.restartWaitDuration
            = FLOAT_LONGTIME := by
        rw [hf, hr]
        exact ⟨rfl, hno⟩
      rw [feedTones_append,
        feedTones_cons_reclaim env sq k tone after _ _ _ _ hc]
      obtain ⟨more, hm⟩ := feedTones_free_prefix env sq k after
        ((feedTones env sq k before free frame mv sig).freeTones ++ [reclaimTone
          (toneSamples env sq k 0 (tone.passed : ℚ) 0 tone
            (feedTones env sq k before free frame mv sig).frame).tone])
        (toneSamples env sq k 0 (tone.passed : ℚ) 0 tone
            (feedTones env sq k before free frame mv sig).frame).frame
        (if (toneSamples env sq k 0 (tone.passed : ℚ) 0 tone
            (feedTones env sq k before free frame mv sig).frame).maxFrameValue
              > (feedTones env sq k before free frame mv sig).maxValue
          then (toneSamples env sq k 0 (tone.passed : ℚ) 0 tone
            (feedTones env sq k before free frame mv sig).frame).maxFrameValue
          else (feedTones env sq k before free frame mv sig).maxValue)
        ((feedTones env sq k before free frame mv sig).signals ++ [Signal.levelMsg
          (toInt32 ((if (toneSamples env sq k 0 (tone.passed : ℚ) 0 tone
              (feedTones env sq k before free frame mv sig).frame).maxFrameValue
                > (feedTones env sq k before free frame mv sig).maxValue
            then (toneSamples env sq k 0 (tone.passed : ℚ) 0 tone
              (feedTones env sq k before free frame mv sig).frame).maxFrameValue
            else (feedTones env sq k before free frame mv sig).maxValue) * 1000))
          (toInt32 ((toneSamples env sq k 0 (tone.passed : ℚ) 0 tone
              (feedTones env sq k before free frame mv sig).frame).maxFrameValue * 1000))])
      refine ⟨_, _, _, _, more, rfl, ?_⟩
      simp only
      rw [hm]
      have ht : (toneSamples env sq k 0 (tone.passed : ℚ) 0 tone
            (feedTones env sq k before free frame mv sig).frame).tone
          = voiceAtSample env sq k tone pre := by rw [hf, hr]
      rw [ht, List.append_assoc]
      rfl
  · have hne := toneSamples_never_ends env sq k tone _ hnever
    have hc : ¬((toneSamples env sq k 0 (tone.passed : ℚ) 0 tone
            (feedTones env sq k before free frame mv sig).frame).isEnd = true ∧
          (toneSamples env sq k 0 (tone.passed : ℚ) 0 tone
            (feedTones env sq k before free frame mv sig).frame).tone.restartWaitDuration
            = FLOAT_LONGTIME) := by
      rw [hne]; simp
    rw [feedTones_append, feedTones_cons_keep env sq k tone after _ _ _ _ hc]
    exact ⟨_, _, _, _, rfl⟩

/-- The instance of C16 at the configured engine: the released voice
`endedTone`, alone in the active list, ends at the first sample of a buffer
of two cells and is moved to the free list; the held voice `heldTone` never
ends in a buffer of one cell and is kept. -/
theorem feed_reclaims_ended_voice_witness :
    (EndsAt demoEnv demoEngine (feedConst demoEnv demoEngine) endedTone [] ∧
     (voiceAtSample demoEnv demoEngine (feedConst demoEnv demoEngine) endedTone
        []).restartWaitDuration = FLOAT_LONGTIME ∧
     (passBefore demoEnv demoEngine (feedConst demoEnv demoEngine) endedTone
        ([] ++ 0 :: [0])).frame
      = (passBefore demoEnv demoEngine (feedConst demoEnv demoEngine) endedTone []).frame
        ++ 0 :: [0] ∧
     ∃ (free' : List Tone) (frame' : List ℚ) (mv' : ℚ) (sig' : List Signal) (more : List Tone),
      (feedTones demoEnv demoEngine (feedConst demoEnv demoEngine) ([] ++ endedTone :: []) []
          [0, 0] 0 []).activeTones
        = (feedTones demoEnv demoEngine (feedConst demoEnv demoEngine) [] [] [0, 0] 0
            []).activeTones
          ++ (feedTones demoEnv demoEngine (feedConst demoEnv demoEngine) [] free' frame' mv'
            sig').activeTones ∧
      (feedTones demoEnv demoEngine (feedConst demoEnv demoEngine) ([] ++ endedTone :: []) []
          [0, 0] 0 []).freeTones
        = (feedTones demoEnv demoEngine (feedConst demoEnv demoEngine) [] [] [0, 0] 0
            []).freeTones
          ++ reclaimTone (voiceAtSample demoEnv demoEngine (feedConst demoEnv demoEngine)
              endedTone []) :: more) ∧
    ((∀ (pre : List ℚ) (x : ℚ) (post : List ℚ),
      (feedTones demoEnv demoEngine (feedConst demoEnv demoEngine) [] [] [0] 0 []).frame
        = pre ++ x :: post →
      pastEnd (voiceAtSample demoEnv demoEngine (feedConst demoEnv demoEngine) heldTone pre)
        (sampleTime (feedConst demoEnv demoEngine) heldTone pre.length) = false) ∧
     ∃ (free' : List Tone) (frame' : List ℚ) (mv' : ℚ) (sig' : List Signal),
      (feedTones demoEnv demoEngine (feedConst demoEnv demoEngine) ([] ++ heldTone :: []) []
          [0] 0 []).activeTones
        = (feedTones demoEnv demoEngine (feedConst demoEnv demoEngine) [] [] [0] 0
            []).activeTones
          ++ { (passBefore demoEnv demoEngine (feedConst demoEnv demoEngine) heldTone
                (feedTones demoEnv demoEngine (feedConst demoEnv demoEngine) [] [] [0] 0
                  []).frame).tone with
               passed := (passBefore demoEnv demoEngine (feedConst demoEnv demoEngine) heldTone
                  (feedTones demoEnv demoEngine (feedConst demoEnv demoEngine) [] [] [0] 0
                    []).frame).tone.passed
                 + toInt32 ((feedConst demoEnv demoEngine).delta
                    * (demoEngine.bufferSamples : ℚ)) }
            :: (feedTones demoEnv demoEngine (feedConst demoEnv demoEngine) [] free' frame' mv'
              sig').activeTones) := by
  have e1 : restartStep endedTone (endedTone.passed : ℚ) = endedTone :=
    restartStep_of_le _ _ (by norm_num [endedTone, FLOAT_LONGTIME])
  have e2 : restartStep heldTone (heldTone.passed : ℚ) = heldTone :=
    restartStep_of_le _ _ (by norm_num [heldTone, allocSlopes, newTone, FLOAT_LONGTIME])
  have hend : EndsAt demoEnv demoEngine (feedConst demoEnv demoEngine) endedTone [] := by
    refine ⟨rfl, ?_⟩
    rw [voiceAtSample_nil, e1, List.length_nil, sampleTime_zero]
    simp [pastEnd, endedTone, newTone, constInstrument]
  have hno : (voiceAtSample demoEnv demoEngine (feedConst demoEnv demoEngine) endedTone
      []).restartWaitDuration = FLOAT_LONGTIME := by
    rw [voiceAtSample_nil, e1]
    rfl
  have hnever : ∀ (pre : List ℚ) (x : ℚ) (post : List ℚ),
      (feedTones demoEnv demoEngine (feedConst demoEnv demoEngine) [] [] [0] 0 []).frame
        = pre ++ x :: post →
      pastEnd (voiceAtSample demoEnv demoEngine (feedConst demoEnv demoEngine) heldTone pre)
        (sampleTime (feedConst demoEnv demoEngine) heldTone pre.length) = false := by
    intro pre x post hf
    have hf2 : ([0] : List ℚ) = pre ++ x :: post := hf
    cases pre with
    | nil =>
      rw [voiceAtSample_nil, e2, List.length_nil, sampleTime_zero]
      simp [pastEnd, heldTone, allocSlopes, newTone, storeInstrument, constDic, clampF,
        FLOAT_LONGTIME]
      norm_num
    | cons a l =>
      simp at hf2
  have h1 := (feed_reclaims_ended_voice demoEnv demoEngine (feedConst demoEnv demoEngine) []
    endedTone [] [] [0, 0] 0 []).1 [] 0 [0] rfl hend hno
  have h2 := (feed_reclaims_ended_voice demoEnv demoEngine (feedConst demoEnv demoEngine) []
    heldTone [] [] [0] 0 []).2 hnever
  exact ⟨⟨hend, hno, h1.2.1, h1.2.2.2.2.2.2.2.2⟩, hnever, h2⟩

/-- C21. The voice `checkNewNote` allocates for a note-on (a free voice
exists) has, for each of its three delay taps, the tap ratio of its
instrument when the tap time lies in `(0, 500)` msec and the tap ratio in
`(0, 1)`, and otherwise tap ratio 0 and tap index 0; its dry ratio
`mainRatio` is 1 minus the sum of the three resulting tap ratios. -/
theorem alloc_delay_taps (env : FloatEnv) (sq : Sequencer) (oneNote : Note)
    (hstate : oneNote.state ≠ NState.NS_OFF) (hfree : sq.freeTones ≠ []) :
    ∃ voice, (checkNewNote env sq oneNote).1.activeTones = sq.activeTones ++ [voice] ∧
      TapRule voice.instrument.delay0Time voice.instrument.delay0Ratio
        voice.delay0Ratio voice.delay0Index ∧
      TapRule voice.instrument.delay1Time voice.instrument.delay1Ratio
        voice.delay1Ratio voice.delay1Index ∧
      TapRule voice.instrument.delay2Time voice.instrument.delay2Ratio
        voice.delay2Ratio voice.delay2Index ∧
      voice.mainRatio = 1 - (voice.delay0Ratio + voice.delay1Ratio + voice.delay2Ratio) := by
  cases hf : sq.freeTones with
  | nil => exact absurd hf hfree
  | cons tone rest =>
    rw [checkNewNote_alloc env sq oneNote tone rest hstate hf]
    refine ⟨_, rfl, ?_⟩
    obtain ⟨t1, hins, hv⟩ := allocTone_delay env sq oneNote
      (if oneNote.state = NState.NS_ON_FOREVER then FLOAT_LONGTIME else 0) tone
    rw [← hins, hv]
    exact ⟨allocDelay_tap0 sq t1, allocDelay_tap1 sq t1, allocDelay_tap2 sq t1,
      allocDelay_mainRatio sq t1⟩

/-- The instance of C21 at the configured engine and a held note-on. -/
theorem alloc_delay_taps_witness :
    (demoNote NState.NS_ON_FOREVER 0 60 100 0).state ≠ NState.NS_OFF ∧
    demoEngine.freeTones ≠ [] ∧
    ∃ voice,
      (checkNewNote demoEnv demoEngine (demoNote NState.NS_ON_FOREVER 0 60 100 0)).1.activeTones
        = demoEngine.activeTones ++ [voice] ∧
      TapRule voice.instrument.delay0Time voice.instrument.delay0Ratio
        voice.delay0Ratio voice.delay0Index ∧
      TapRule voice.instrument.delay1Time voice.instrument.delay1Ratio
        voice.delay1Ratio voice.delay1Index ∧
      TapRule voice.instrument.delay2Time voice.instrument.delay2Ratio
        voice.delay2Ratio voice.delay2Index ∧
      voice.mainRatio = 1 - (voice.delay0Ratio + voice.delay1Ratio + voice.delay2Ratio) :=
  ⟨by decide, initParam_freeTones_ne_nil _ _ _ _ _,
   alloc_delay_taps demoEnv demoEngine _ (by decide) (initParam_freeTones_ne_nil _ _ _ _ _)⟩

/-- C24. The voice `checkNewNote` allocates for a note-on (a free voice
exists) has, with `b = baseVsOthersRatio` and `s = side1VsSide2Ratio` of its
instrument, the mix weights `b`, `(1 - b) s` and `(1 - b) (1 - s)`, which sum
to 1; when `b` and `s` lie in `[0, 1]` each weight lies in `[0, 1]`, and the
sum of the three oscillator samples of the sample loop (blend times weight)
has absolute value at most 1 whenever the three blends (the samples for
weight 1) do. -/
theorem alloc_mix_weights (env : FloatEnv) (sq : Sequencer) (oneNote : Note)
    (hstate : oneNote.state ≠ NState.NS_OFF) (hfree : sq.freeTones ≠ []) :
    ∃ voice, (checkNewNote env sq oneNote).1.activeTones = sq.activeTones ++ [voice] ∧
      voice.base1ratio = voice.instrument.baseVsOthersRatio ∧
      voice.base2ratio
        = (1 - voice.instrument.baseVsOthersRatio) * voice.instrument.side1VsSide2Ratio ∧
      voice.base3ratio
        = (1 - voice.instrument.baseVsOthersRatio) * (1 - voice.instrument.side1VsSide2Ratio) ∧
      voice.base1ratio + voice.base2ratio + voice.base3ratio = 1 ∧
      (0 ≤ voice.instrument.baseVsOthersRatio ∧ voice.instrument.baseVsOthersRatio ≤ 1 →
       0 ≤ voice.instrument.side1VsSide2Ratio ∧ voice.instrument.side1VsSide2Ratio ≤ 1 →
        (0 ≤ voice.base1ratio ∧ voice.base1ratio ≤ 1) ∧
        (0 ≤ voice.base2ratio ∧ voice.base2ratio ≤ 1) ∧
        (0 ≤ voice.base3ratio ∧ voice.base3ratio ≤ 1) ∧
        ∀ (k : FeedConst) (w1 w2 w3 : Int) (p1 p2 p3 : ℚ) (k1 k2 k3 : Int),
          absf (oscSample sq k w1 p1 k1 1) ≤ 1 → absf (oscSample sq k w2 p2 k2 1) ≤ 1 →
          absf (oscSample sq k w3 p3 k3 1) ≤ 1 →
            absf (oscSample sq k w1 p1 k1 voice.base1ratio
              + oscSample sq k w2 p2 k2 voice.base2ratio
              + oscSample sq k w3 p3 k3 voice.base3ratio) ≤ 1) := by
  cases hf : sq.freeTones with
  | nil => exact absurd hf hfree
  | cons tone rest =>
    rw [checkNewNote_alloc env sq oneNote tone rest hstate hf]
    refine ⟨_, rfl, ?_⟩
    obtain ⟨e1, e2, e3⟩ := allocTone_mix env sq oneNote
      (if oneNote.state = NState.NS_ON_FOREVER then FLOAT_LONGTIME else 0) tone
    rw [e1, e2, e3]
    generalize (allocTone env sq oneNote
      (if oneNote.state = NState.NS_ON_FOREVER then FLOAT_LONGTIME else 0)
      tone).instrument.baseVsOthersRatio = b
    generalize (allocTone env sq oneNote
      (if oneNote.state = NState.NS_ON_FOREVER then FLOAT_LONGTIME else 0)
      tone).instrument.side1VsSide2Ratio = s
    refine ⟨rfl, rfl, rfl, by ring, fun hb hs => ?_⟩
    obtain ⟨hb0, hb1⟩ := hb
    obtain ⟨hs0, hs1⟩ := hs
    have w2 : 0 ≤ (1 - b) * s := mul_nonneg (by linarith) hs0
    have w3 : 0 ≤ (1 - b) * (1 - s) := mul_nonneg (by linarith) (by linarith)
    have hsum : b + (1 - b) * s + (1 - b) * (1 - s) = 1 := by ring
    refine ⟨⟨hb0, hb1⟩, ⟨w2, by linarith⟩, ⟨w3, by linarith⟩, ?_⟩
    intro k w1 w2 w3 p1 p2 p3 k1 k2 k3 h1 h2 h3
    rw [oscSample_ratio sq k w1, oscSample_ratio sq k w2, oscSample_ratio sq k w3]
    exact mix_within_unit _ _ _ _ _ hb0 hb1 hs0 hs1 h1 h2 h3

/-- The instance of C24 at the configured engine and a held note-on. -/
theorem alloc_mix_weights_witness :
    (demoNote NState.NS_ON_FOREVER 0 60 100 0).state ≠ NState.NS_OFF ∧
    demoEngine.freeTones ≠ [] ∧
    ∃ voice,
      (checkNewNote demoEnv demoEngine (demoNote NState.NS_ON_FOREVER 0 60 100 0)).1.activeTones
        = demoEngine.activeTones ++ [voice] ∧
      voice.base1ratio = voice.instrument.baseVsOthersRatio ∧
      voice.base1ratio + voice.base2ratio + voice.base3ratio = 1 :=
  ⟨by decide, initParam_freeTones_ne_nil _ _ _ _ _,
   (alloc_mix_weights demoEnv demoEngine _ (by decide)
      (initParam_freeTones_ne_nil _ _ _ _ _)).imp
    (fun _ h => ⟨h.1, h.2.1, h.2.2.2.2.1⟩)⟩

/-- C22. Every cell `0 .. delayBufferSize - 1` of the delay ring of a voice
holds a value in `[-1, 1]`: the cells are 0 in the voice `allocTone` returns
(the allocation branch of `checkNewNote`), and when they lie in `[-1, 1]` they
do again after the delay section of a sample (`delayStep`, for any sample
value), after the whole signal block of a sample, and after the sample loop
over any number of samples. -/
theorem delay_buffer_bounded (env : FloatEnv) (sq : Sequencer) :
    (∀ (oneNote : Note) (d : ℚ) (tone : Tone),
      (∀ i : Int, 0 ≤ i → i < sq.delayBufferSize →
        (allocTone env sq oneNote d tone).delayBuffer i = 0) ∧
      DelayBounded sq (allocTone env sq oneNote d tone)) ∧
    (∀ (tone : Tone), DelayBounded sq tone →
      (∀ data : ℚ, DelayBounded sq (delayStep sq tone data)) ∧
      (∀ (k : FeedConst) (i : Int) (current : ℚ),
        DelayBounded sq (signalStep env sq k i current tone).1) ∧
      ∀ (k : FeedConst) (frame : List ℚ) (i : Int) (current m : ℚ),
        DelayBounded sq (toneSamples env sq k i current m tone frame).tone) := by
  refine ⟨fun oneNote d tone => ⟨allocTone_delayBuffer env sq oneNote d tone, ?_⟩,
    fun tone h => ⟨fun data => delayStep_bounded sq tone data h, ?_,
      fun k frame i current m => toneSamples_bounded env sq k frame i current m tone h⟩⟩
  · intro i h0 h1
    rw [allocTone_delayBuffer env sq oneNote d tone i h0 h1]
    norm_num
  · intro k i current
    obtain ⟨t1, data, hs, hb, _⟩ := signalStep_delay env sq k i current tone
    rw [hs]
    refine delayStep_bounded sq t1 data ?_
    unfold DelayBounded
    rw [hb]
    exact h

/-- C29. In every state reached from configurations with
`0 < bufferSamples <= sampleRate` by note-on, note-off, `feed` and `smfUnload`
calls: `noiseBufSize = floor(samplingRate / bufferSamples)`, the noise tables
hold `noiseBufSize x bufferSamples` cells, `0 <= frameCount < noiseBufSize`,
for every sample `i` of a buffer the noise index
`frameCount x bufferSamples + i` that `feed` reads lies in
`[0, noiseBufSize x bufferSamples)`, and a call of `feed` returns. -/
theorem noise_index_safe (env : FloatEnv) (sq : Sequencer) (h : ReachableSized env sq) :
    sq.noiseBufSize = ⌊sq.samplingRate / (sq.bufferSamples : ℚ)⌋ ∧
    sq.noiseBuffer = sq.noiseBufSize * sq.bufferSamples ∧
    (0 ≤ sq.frameCount ∧ sq.frameCount < sq.noiseBufSize) ∧
    (∀ i : Int, 0 ≤ i → i < sq.bufferSamples →
      0 ≤ (feedConst env sq).noiseBufIndex + i ∧
      (feedConst env sq).noiseBufIndex + i < sq.noiseBufSize * sq.bufferSamples) ∧
    ∀ events : List Note, ∃ sq', (feed env sq events).2 = some sq' := by
  obtain ⟨hs, hsize, htab, hf0, hf1⟩ := reachableSized_noiseIndexInv env sq h
  refine ⟨hsize, htab, ⟨hf0, hf1⟩, fun i h0 h1 => ?_, fun events => ?_⟩
  · show 0 ≤ sq.frameCount * sq.bufferSamples + i
      ∧ sq.frameCount * sq.bufferSamples + i < sq.noiseBufSize * sq.bufferSamples
    have h2 : sq.frameCount + 1 ≤ sq.noiseBufSize := hf1
    have h3 := mul_le_mul_of_nonneg_right h2 (le_of_lt hs)
    have h4 := mul_nonneg hf0 (le_of_lt hs)
    constructor
    · linarith
    · linarith [show (sq.frameCount + 1) * sq.bufferSamples
        = sq.frameCount * sq.bufferSamples + sq.bufferSamples by ring]
  · unfold feed
    exact feedFinish_some _ _ (by
      rw [feedRender_noiseBufSize]
      exact ne_of_gt (lt_of_le_of_lt hf0 hf1))

/-- The instance of C29 at the state reached by configuring at 44100 Hz with
buffers of 2205 samples and rendering one buffer. -/
theorem noise_index_safe_witness :
    ∃ sq', (feed demoEnv demoEngine []).2 = some sq' ∧ ReachableSized demoEnv sq' ∧
      sq'.noiseBufSize = ⌊sq'.samplingRate / (sq'.bufferSamples : ℚ)⌋ ∧
      (0 ≤ sq'.frameCount ∧ sq'.frameCount < sq'.noiseBufSize) ∧
      ∀ i : Int, 0 ≤ i → i < sq'.bufferSamples →
        0 ≤ (feedConst demoEnv sq').noiseBufIndex + i ∧
        (feedConst demoEnv sq').noiseBufIndex + i < sq'.noiseBufSize * sq'.bufferSamples := by
  have h0 : ReachableSized demoEnv demoEngine :=
    ReachableSized.configure (newSequencer demoEnv) 44100 (1 / 20) 2205 (by norm_num)
      (by norm_num)
  obtain ⟨sq', hs⟩ := (noise_index_safe demoEnv demoEngine h0).2.2.2.2 []
  have h1 : ReachableSized demoEnv sq' := ReachableSized.render [] h0 hs
  have h2 := noise_index_safe demoEnv sq' h1
  exact ⟨sq', hs, h1, h2.1, h2.2.2.1, h2.2.2.2.1⟩

/-- C25 as the code has it.  In the wave tables `initParam` builds, with
`sinf(0) = 0`: the sine table and the triangle table hold 0 at index 0 and the
sawtooth table holds `-1/2` there; the triangle and the sawtooth are their
ramp definitions rotated by 3/4 of the table length, the ramp value of `i`
being stored at index `(i + 3 s / 4) % s` for every `i` in `0 .. s - 1`. -/
theorem wave_tables_phase_zero (env : FloatEnv) (sq : Sequencer) (rate time : ℚ)
    (samples : Int) (hsin : env.sinf 0 = 0) :
    (initParam env sq rate time samples).waveLUT WAVE_SIN 0 = 0 ∧
    (initParam env sq rate time samples).waveLUT WAVE_TRIANGLE 0 = 0 ∧
    (initParam env sq rate time samples).waveLUT WAVE_SAWTOOTH 0 = -1 / 2 ∧
    ∀ i : Int, 0 ≤ i → i < waveLUTSize →
      (initParam env sq rate time samples).waveLUT WAVE_TRIANGLE
          (Int.tmod (i + 3 * waveLUTSize / 4) waveLUTSize)
        = (if i < waveLUTSize / 2 then ((i : ℚ) * 4) / (waveLUTSize : ℚ) - 1
           else 3 - ((i : ℚ) * 4) / (waveLUTSize : ℚ)) ∧
      (initParam env sq rate time samples).waveLUT WAVE_SAWTOOTH
          (Int.tmod (i + 3 * waveLUTSize / 4) waveLUTSize)
        = ((i : ℚ) * 2) / (waveLUTSize : ℚ) - 1 := by
  rw [initParam_waveLUT]
  refine ⟨?_, ?_, ?_, fun i h0 h1 =>
    ⟨buildWaveLUT_triangle env _ i h0 h1, buildWaveLUT_sawtooth env _ i h0 h1⟩⟩
  · rw [buildWaveLUT_sin env _ 0 (le_refl _) (by norm_num [waveLUTSize])]
    rw [show 2 * env.PI * ((0 : Int) : ℚ) / (waveLUTSize : ℚ) = 0 by norm_num]
    exact hsin
  · have h := buildWaveLUT_triangle env sq.waveLUT 8192 (by norm_num) (by norm_num [waveLUTSize])
    rw [rotated_index_zero] at h
    rw [h]
    norm_num [waveLUTSize]
  · have h := buildWaveLUT_sawtooth env sq.waveLUT 8192 (by norm_num) (by norm_num [waveLUTSize])
    rw [rotated_index_zero] at h
    rw [h]
    norm_num [waveLUTSize]

/-- The instance of C25 (as the code has it) at the configured engine. -/
theorem wave_tables_phase_zero_witness :
    demoEnv.sinf 0 = 0 ∧
    demoEngine.waveLUT WAVE_SIN 0 = 0 ∧
    demoEngine.waveLUT WAVE_TRIANGLE 0 = 0 ∧
    demoEngine.waveLUT WAVE_SAWTOOTH 0 = -1 / 2 :=
  ⟨rfl,
   (wave_tables_phase_zero demoEnv (newSequencer demoEnv) 44100 (1 / 20) 2205 rfl).1,
   (wave_tables_phase_zero demoEnv (newSequencer demoEnv) 44100 (1 / 20) 2205 rfl).2.1,
   (wave_tables_phase_zero demoEnv (newSequencer demoEnv) 44100 (1 / 20) 2205 rfl).2.2.1⟩

/-- C25 fails as stated for the sawtooth.  In the engine configured at
44100 Hz the sawtooth table holds `-1/2` at index 0, not 0: index 0 is the
cell of `i = 8192`, whose ramp value is `2 * 8192 / 32768 - 1`. -/
theorem sawtooth_phase_zero_nonzero :
    Int.tmod (8192 + 3 * waveLUTSize / 4) waveLUTSize = 0 ∧
    demoEngine.waveLUT WAVE_SAWTOOTH 0 = -1 / 2 ∧
    demoEngine.waveLUT WAVE_SAWTOOTH 0 ≠ 0 := by
  have h : demoEngine.waveLUT WAVE_SAWTOOTH 0 = -1 / 2 := by
    show (initParam demoEnv (newSequencer demoEnv) 44100 (1 / 20) 2205).waveLUT WAVE_SAWTOOTH 0
      = -1 / 2
    rw [initParam_waveLUT]
    have h := buildWaveLUT_sawtooth demoEnv (newSequencer demoEnv).waveLUT 8192 (by norm_num)
      (by norm_num [waveLUTSize])
    rw [rotated_index_zero] at h
    rw [h]
    norm_num [waveLUTSize]
  exact ⟨rotated_index_zero, h, by rw [h]; norm_num⟩

/-- C26, evaluated.  The correction loop of `initParam` adds
`correction(i) = diff * i` with `diff = (tail - head) / n` to cell `i` of the
pink table (`n = noiseBuffer > 0`), so the corrected wrap-around value
`tail + correction(n)` is `head + 2 (tail - head)`: the step from the end of
the table to its start is doubled, not removed.  For the white table that is
1 everywhere and `n = 1` the filter gives `tail` different from `head`, and
`tail + correction(n)` differs from `head`. -/
theorem pink_correction_doubles_gap :
    (∀ (env : FloatEnv) (n : Nat) (white : Int → ℚ),
      (∀ i : Int, 0 ≤ i → i < ((n + 1 : Nat) : Int) →
        (pinkCorrected env ((n + 1 : Nat) : Int) white).1 i
          = (pinkFiltered env ((n + 1 : Nat) : Int) white).1 i
            + pinkDiff env ((n + 1 : Nat) : Int) white * (i : ℚ)) ∧
      ((pinkFiltered env ((n + 1 : Nat) : Int) white).2.makeNoise (white 0)).2
          + pinkDiff env ((n + 1 : Nat) : Int) white * (((n + 1 : Nat) : Int) : ℚ)
        = (pinkFiltered env ((n + 1 : Nat) : Int) white).1 0
          + 2 * (((pinkFiltered env ((n + 1 : Nat) : Int) white).2.makeNoise (white 0)).2
            - (pinkFiltered env ((n + 1 : Nat) : Int) white).1 0)) ∧
    ((pinkFiltered demoEnv 1 (fun _ => 1)).2.makeNoise 1).2
        + pinkDiff demoEnv 1 (fun _ => 1) * 1
      ≠ (pinkFiltered demoEnv 1 (fun _ => 1)).1 0 := by
  constructor
  · intro env n white
    refine ⟨fun i h0 h1 => pinkCorrected_get env _ white i h0 h1, ?_⟩
    have hn : ((((n + 1 : Nat) : Int) : ℚ)) ≠ 0 := by
      have : (0 : ℚ) < (((n + 1 : Nat) : Int) : ℚ) := by exact_mod_cast Nat.succ_pos n
      exact ne_of_gt this
    unfold pinkDiff
    simp only
    rw [div_mul_cancel₀ _ hn]
    ring
  · decide!

/-- C27, evaluated.  A voice the loop of `feed` keeps has its stored time
`passed` moved on by `(int32_t)(delta * bufferSamples)`, the buffer duration
in msec cut to an integer.  In the engine configured at 44100 Hz with
buffers of 512 samples that is 11, while `bufferSamples x 1000 / samplingRate`
is `5120/441` (about 11.61), and the time `passed + 11` of the first sample of
the next buffer lies before the time `passed + 511 delta` of the last sample
of the buffer; with buffers of 32 samples it is 0, so the stored time does
not move. -/
theorem voice_time_truncated :
    (∀ (env : FloatEnv) (sq : Sequencer) (k : FeedConst) (tone : Tone) (rest free : List Tone)
        (frame : List ℚ) (mv : ℚ) (sig : List Signal),
      ¬((toneSamples env sq k 0 (tone.passed : ℚ) 0 tone frame).isEnd = true ∧
        (toneSamples env sq k 0 (tone.passed : ℚ) 0 tone frame).tone.restartWaitDuration
          = FLOAT_LONGTIME) →
      ((feedTones env sq k (tone :: rest) free frame mv sig).activeTones.head?).map
          (fun t => t.passed)
        = some (tone.passed + toInt32 (k.delta * (sq.bufferSamples : ℚ)))) ∧
    (engine512.samplingRate = 44100 ∧ engine512.bufferSamples = 512 ∧
      toInt32 ((feedConst demoEnv engine512).delta * (engine512.bufferSamples : ℚ)) = 11 ∧
      (engine512.bufferSamples : ℚ) * 1000 / engine512.samplingRate = 5120 / 441 ∧
      ∀ tone : Tone,
        (((tone.passed + 11 : Int) : ℚ)) < sampleTime (feedConst demoEnv engine512) tone 511) ∧
    (engine32.samplingRate = 44100 ∧ engine32.bufferSamples = 32 ∧
      toInt32 ((feedConst demoEnv engine32).delta * (engine32.bufferSamples : ℚ)) = 0) := by
  have r1 : engine512.samplingRate = 44100 := initParam_samplingRate _ _ _ _ _
  have b1 : engine512.bufferSamples = 512 := initParam_bufferSamples _ _ _ _ _
  have r2 : engine32.samplingRate = 44100 := initParam_samplingRate _ _ _ _ _
  have b2 : engine32.bufferSamples = 32 := initParam_bufferSamples _ _ _ _ _
  refine ⟨fun env sq k tone rest free frame mv sig hc =>
      feedTones_kept_passed env sq k tone rest free frame mv sig hc,
    ⟨r1, b1, ?_, ?_, fun tone => ?_⟩, ⟨r2, b2, ?_⟩⟩
  · rw [engine512_delta, b1, toInt32_of_nonneg (by norm_num), Int.floor_eq_iff]
    norm_num
  · rw [b1, r1]; norm_num
  · unfold sampleTime
    rw [engine512_delta]
    push_cast
    linarith [show ((511 : Nat) : ℚ) * (10 / 441) > 11 by norm_num]
  · rw [engine32_delta, b2, toInt32_of_nonneg (by norm_num), Int.floor_eq_iff]
    norm_num

/-- C28, evaluated at two failing inputs, each an instrument `setInstruments`
stores (so within its bounds) and the voice `checkNewNote` initialises for a
held note-on.  (1) At 44100 Hz, FM depth 8400 cents and key 127: after the
signal block of one sample the phase of the first oscillator is above
`2 PI` (the increment is above `4 PI` and `2 PI` is subtracted once), and the
table index `(int32_t)(phase * period)` is at least 32768.  (2) At 8192 Hz,
FM rate 4096 Hz with phase offset 1: the FM phase goes from `PI` to exactly
`2 PI`, which the test `phase > 2 PI` leaves as it is, and the table index is
32768. -/
theorem phase_wrap_overshoots :
    (InstrumentInBounds (storeInstrument brightDic) ∧
     ∀ (tone : Tone) (rest : List Tone), brightEngine.freeTones = tone :: rest →
      (checkNewNote octaveEnv brightEngine
          (demoNote NState.NS_ON_FOREVER 0 127 100 0)).1.activeTones
        = brightEngine.activeTones ++ [brightVoice tone] ∧
      (brightVoice tone).instrument = storeInstrument brightDic ∧
      (brightVoice tone).phase1 = 0 ∧
      octaveEnv.PI * 2
        < (signalStep octaveEnv brightEngine (feedConst octaveEnv brightEngine) 1 1
            (brightVoice tone)).1.phase1 ∧
      waveLUTSize ≤ toInt32
        ((signalStep octaveEnv brightEngine (feedConst octaveEnv brightEngine) 1 1
            (brightVoice tone)).1.phase1 * (feedConst octaveEnv brightEngine).period)) ∧
    (InstrumentInBounds (storeInstrument halfRateDic) ∧
     ∀ (tone : Tone) (rest : List Tone), halfRateEngine.freeTones = tone :: rest →
      (checkNewNote demoEnv halfRateEngine
          (demoNote NState.NS_ON_FOREVER 0 60 100 0)).1.activeTones
        = halfRateEngine.activeTones ++ [halfRateVoice tone] ∧
      (halfRateVoice tone).instrument = storeInstrument halfRateDic ∧
      (halfRateVoice tone).fmPhase = demoEnv.PI ∧
      (signalStep demoEnv halfRateEngine (feedConst demoEnv halfRateEngine) 1 1
          (halfRateVoice tone)).1.fmPhase = demoEnv.PI * 2 ∧
      toInt32
        ((signalStep demoEnv halfRateEngine (feedConst demoEnv halfRateEngine) 1 1
            (halfRateVoice tone)).1.fmPhase * (feedConst demoEnv halfRateEngine).period)
        = waveLUTSize) := by
  refine ⟨⟨storeInstrument_inBounds _, fun tone rest hf => ?_⟩,
    ⟨storeInstrument_inBounds _, fun tone rest hf => ?_⟩⟩
  · refine ⟨?_, rfl, rfl, ?_, ?_⟩
    · rw [checkNewNote_alloc octaveEnv brightEngine _ tone rest (by decide) hf]
      rfl
    · rw [brightVoice_phase1]
      exact brightVoice_overshoot.1
    · rw [brightVoice_phase1]
      exact brightVoice_overshoot.2
  · obtain ⟨hins, hw, hfp, hfi⟩ := halfRateVoice_fields tone
    obtain ⟨vw, vp, vi, va, vt⟩ := halfRateVoice_values
    have hstart : (1 : ℚ) > (halfRateVoice tone).waitDuration := by rw [hw, vw]; norm_num
    have e := signalStep_fmPhase demoEnv halfRateEngine (feedConst demoEnv halfRateEngine) 1 1
      (halfRateVoice tone) hstart
    rw [hfp, hfi, va] at e
    refine ⟨?_, hins, hfp.trans vp, e, ?_⟩
    · rw [checkNewNote_alloc demoEnv halfRateEngine _ tone rest (by decide) hf]
      rfl
    · rw [e]
      exact vt

/-- C15, evaluated at a failing input.  The instrument `setInstruments`
stores for `thinDecayDic` (decay half-life `2 ^ -20` msec, sustain rate
`1 / 2`) lies within the documented bounds.  The voice `checkNewNote`
initialises with it at 44100 Hz has the decay slope ratio `50 x 2 ^ 20`, and
for a voice with these constants, at every time from 11 msec to
`FLOAT_LONGTIME` after the note-on, the loop does not restart or end the
voice and the decay/sustain branch reads the decay table, of 22050 entries,
at index `-2147483648`: the strength it stores is the product of the
attacked strength with whatever lies there. -/
theorem envelope_decay_reads_outside_table :
    InstrumentInBounds (storeInstrument thinDecayDic) ∧
    (storeInstrument thinDecayDic).sustainRate = 1 / 2 ∧
    thinDecayEngine.numDecaySlopeLUT = 22050 ∧
    (∀ tone : Tone,
      (thinDecayVoice tone).instrument = storeInstrument thinDecayDic ∧
      (thinDecayVoice tone).waitDuration = 0 ∧
      (thinDecayVoice tone).mainteinDuration = FLOAT_LONGTIME ∧
      (thinDecayVoice tone).restartWaitDuration = FLOAT_LONGTIME ∧
      (thinDecayVoice tone).maxDelayTime = 0 ∧
      (thinDecayVoice tone).decaySlopeRatio = 52428800) ∧
    ∀ t : Tone, t.instrument = storeInstrument thinDecayDic → t.waitDuration = 0 →
      t.mainteinDuration = FLOAT_LONGTIME → t.restartWaitDuration = FLOAT_LONGTIME →
      t.maxDelayTime = 0 → t.decaySlopeRatio = 52428800 →
      ∀ current : ℚ, 11 ≤ current → current ≤ FLOAT_LONGTIME →
        restartStep t current = t ∧ pastEnd t current = false ∧
        slopeIndex
          (((current - (t.waitDuration + t.instrument.atackSlopeTime)) * t.decaySlopeRatio)
            / (feedConst demoEnv thinDecayEngine).delta)
          thinDecayEngine.numDecaySlopeLUT = -2147483648 ∧
        envelopeStep thinDecayEngine (feedConst demoEnv thinDecayEngine) t current
          = some { t with
              strength := t.atackedStrength
                * (thinDecayEngine.decaySlopeLUT (-2147483648) * (1 - 1 / 2) + 1 / 2)
              decayedStrength := t.atackedStrength
                * (thinDecayEngine.decaySlopeLUT (-2147483648) * (1 - 1 / 2) + 1 / 2)
              atackedStrengthfloor := t.atackedStrength
                * (thinDecayEngine.decaySlopeLUT (-2147483648) * (1 - 1 / 2) + 1 / 2) } := by
  have hs : (storeInstrument thinDecayDic).sustainRate = 1 / 2 := by
    show clampF (1 / 2) 0 1 = 1 / 2
    exact clampF_of_mem (by norm_num) (by norm_num)
  have ha : (storeInstrument thinDecayDic).atackSlopeTime = 10 := by
    show clampF 10 0 5000 = 10
    exact clampF_of_mem (by norm_num) (by norm_num)
  have hr : (storeInstrument thinDecayDic).releaseSlopeTime = 10 := by
    show clampF 10 0 5000 = 10
    exact clampF_of_mem (by norm_num) (by norm_num)
  have hnum : thinDecayEngine.numDecaySlopeLUT = 22050 := demoEngine_numDecaySlopeLUT
  have hdelta : (feedConst demoEnv thinDecayEngine).delta = 10 / 441 := demoEngine_delta
  refine ⟨storeInstrument_inBounds _, hs, hnum, thinDecayVoice_fields, ?_⟩
  intro t hins hwait hmain hrestart hmax hratio current h11 hlong
  have hidx : slopeIndex
      (((current - (t.waitDuration + t.instrument.atackSlopeTime)) * t.decaySlopeRatio)
        / (feedConst demoEnv thinDecayEngine).delta)
      thinDecayEngine.numDecaySlopeLUT = -2147483648 := by
    refine slopeIndex_of_large ?_ (by rw [hnum]; norm_num)
    rw [hwait, hins, ha, hratio, hdelta, le_div_iff₀ (by norm_num)]
    linarith
  have hre : restartStep t current = t := by
    unfold restartStep
    rw [if_neg]
    rw [hrestart]
    exact not_lt.mpr hlong
  have hpe : pastEnd t current = false := by
    unfold pastEnd
    rw [decide_eq_false_iff_not, hwait, hmain, hins, hr, hmax]
    unfold FLOAT_LONGTIME at hlong ⊢
    linarith
  refine ⟨hre, hpe, hidx, ?_⟩
  rw [envelopeStep_decay thinDecayEngine _ t current
    (by rw [hwait, hmain]; unfold FLOAT_LONGTIME at hlong ⊢; linarith)
    (by rw [hwait, hins, ha]; linarith), hidx, hins, hs]

/-- C20, evaluated at a failing input.  The instrument `setInstruments`
stores for `thinReleaseDic` (release slope time `2 ^ -20` msec, sustain rate
`1 / 2`, one delay tap at 100 msec) lies within the documented bounds.  The
voice `checkNewNote` initialises with it at 44100 Hz and releases 100 msec
later has the release slope ratio `20 x 2 ^ 20` and a delay tail of 300
msec, and for a voice with these constants, at every time from 103 msec to
400 msec after the note-on, the loop does not restart or end the voice and
the release branch reads the release table, of 882 entries, at index
`-2147483648`: the strength it stores is the product of the decayed strength
with whatever lies there. -/
theorem envelope_release_reads_outside_table :
    InstrumentInBounds (storeInstrument thinReleaseDic) ∧
    (storeInstrument thinReleaseDic).sustainRate = 1 / 2 ∧
    thinReleaseEngine.numReleaseSlopeLUT = 882 ∧
    (∀ tone : Tone,
      (thinReleaseVoice tone).instrument = storeInstrument thinReleaseDic ∧
      (thinReleaseVoice tone).waitDuration = 0 ∧
      (thinReleaseVoice tone).mainteinDuration = 100 ∧
      (thinReleaseVoice tone).restartWaitDuration = FLOAT_LONGTIME ∧
      (thinReleaseVoice tone).maxDelayTime = 300 ∧
      (thinReleaseVoice tone).releaseSlopeRatio = 20971520) ∧
    ∀ t : Tone, t.instrument = storeInstrument thinReleaseDic → t.waitDuration = 0 →
      t.mainteinDuration = 100 → t.restartWaitDuration = FLOAT_LONGTIME →
      t.maxDelayTime = 300 → t.releaseSlopeRatio = 20971520 →
      ∀ current : ℚ, 103 ≤ current → current ≤ 400 →
        restartStep t current = t ∧ pastEnd t current = false ∧
        slopeIndex
          (((current - (t.waitDuration + t.mainteinDuration)) * t.releaseSlopeRatio)
            / (feedConst demoEnv thinReleaseEngine).delta)
          thinReleaseEngine.numReleaseSlopeLUT = -2147483648 ∧
        envelopeStep thinReleaseEngine (feedConst demoEnv thinReleaseEngine) t current
          = some { t with
              strength := t.decayedStrength * thinReleaseEngine.releaseSlopeLUT (-2147483648)
              atackedStrengthfloor :=
                t.decayedStrength * thinReleaseEngine.releaseSlopeLUT (-2147483648) } := by
  have hs : (storeInstrument thinReleaseDic).sustainRate = 1 / 2 := by
    show clampF (1 / 2) 0 1 = 1 / 2
    exact clampF_of_mem (by norm_num) (by norm_num)
  have hr : (storeInstrument thinReleaseDic).releaseSlopeTime = 1 / 1048576 := by
    show clampF (1 / 1048576) 0 5000 = 1 / 1048576
    exact clampF_of_mem (by norm_num) (by norm_num)
  have hnum : thinReleaseEngine.numReleaseSlopeLUT = 882 := demoEngine_numReleaseSlopeLUT
  have hdelta : (feedConst demoEnv thinReleaseEngine).delta = 10 / 441 := demoEngine_delta
  refine ⟨storeInstrument_inBounds _, hs, hnum, thinReleaseVoice_fields, ?_⟩
  intro t hins hwait hmain hrestart hmax hratio current h103 h400
  have hidx : slopeIndex
      (((current - (t.waitDuration + t.mainteinDuration)) * t.releaseSlopeRatio)
        / (feedConst demoEnv thinReleaseEngine).delta)
      thinReleaseEngine.numReleaseSlopeLUT = -2147483648 := by
    refine slopeIndex_of_large ?_ (by rw [hnum]; norm_num)
    rw [hwait, hmain, hratio, hdelta, le_div_iff₀ (by norm_num)]
    linarith
  have hre : restartStep t current = t := by
    unfold restartStep
    rw [if_neg]
    rw [hrestart]
    unfold FLOAT_LONGTIME
    linarith
  have hpe : pastEnd t current = false := by
    unfold pastEnd
    rw [decide_eq_false_iff_not, hwait, hmain, hins, hr, hmax]
    linarith
  refine ⟨hre, hpe, hidx, ?_⟩
  rw [envelopeStep_release thinReleaseEngine _ t current (by rw [hwait, hmain]; linarith), hidx]

/-- C23, evaluated at a failing input.  The instrument `setInstruments`
stores for `lateTapDic` (first tap at `500 - 2 ^ -15` msec) lies within the
documented bounds, and at 32768 Hz the delay ring has 16384 cells.  The voice
`checkNewNote` allocates there for a note-on has its first tap enabled and
the tap index 16384, the size of the ring, with the write cursor at 0; after
the signal block of one sample the tap index is 16385, and after the sample
loop over any number of samples it is still 16384 or more.  Beside that, at
44100 Hz a tap of 90 msec gets the index 3968, while
`floor(delayBufferSize / 500 x tapTime)` is 3969. -/
theorem delay_tap_index_reaches_ring_size :
    InstrumentInBounds (storeInstrument lateTapDic) ∧
    lateTapEngine.delayBufferSize = 16384 ∧
    lateTapEngine.freeTones ≠ [] ∧
    (∃ voice,
      (checkNewNote demoEnv lateTapEngine
        (demoNote NState.NS_ON_FOREVER 0 60 100 0)).1.activeTones = [voice] ∧
      TapEnabled voice.instrument.delay0Time voice.instrument.delay0Ratio ∧
      voice.delayBufferIndex = 0 ∧
      voice.delay0Index = 16384 ∧
      (∀ (k : FeedConst) (i : Int) (current : ℚ),
        (signalStep demoEnv lateTapEngine k i current voice).1.delay0Index = 16385) ∧
      ∀ (k : FeedConst) (frame : List ℚ) (i : Int) (current m : ℚ),
        16384 ≤ (toneSamples demoEnv lateTapEngine k i current m voice frame).tone.delay0Index) ∧
    tapIndex demoEngine 90 = 3968 ∧
    ⌊(demoEngine.delayBufferSize : ℚ) / 500 * 90⌋ = 3969 := by
  have hfree : lateTapEngine.freeTones ≠ [] :=
    initParam_freeTones_ne_nil demoEnv (newSequencer demoEnv) 32768 (1 / 16) 2048
  have hsize := lateTapEngine_delayBufferSize
  refine ⟨storeInstrument_inBounds _, hsize, hfree, ?_, tapIndex_demo_90, ?_⟩
  · cases hf : lateTapEngine.freeTones with
    | nil => exact absurd hf hfree
    | cons tone rest =>
      rw [checkNewNote_alloc demoEnv lateTapEngine _ tone rest (by decide) hf]
      obtain ⟨_, htime, hratio, hc, h0⟩ := lateTapVoice_fields tone
      refine ⟨lateTapVoice tone, ?_, ?_, hc, h0, ?_, ?_⟩
      · show lateTapEngine.activeTones ++ _ = _
        rw [show lateTapEngine.activeTones = [] from
          initParam_activeTones demoEnv (newSequencer demoEnv) 32768 (1 / 16) 2048]
        rfl
      · rw [htime, hratio]
        unfold TapEnabled
        norm_num
      · intro k i current
        obtain ⟨t1, data, hs, _, _, e0, _⟩ :=
          signalStep_delay demoEnv lateTapEngine k i current (lateTapVoice tone)
        rw [hs]
        show nextIndex t1.delay0Index lateTapEngine.delayBufferSize = 16385
        rw [e0, h0, hsize]
        rfl
      · intro k frame i current m
        have h := toneSamples_tap0_outside demoEnv lateTapEngine k frame i current m
          (lateTapVoice tone) (by rw [hsize, h0])
        rw [hsize] at h
        exact h
  · rw [demoEngine_delayBufferSize, Int.floor_eq_iff]
    norm_num

end GDSynth
